import Mathlib

/-!
# docker-wrapper: the generator and the generated builders

A shallow embedding of `_generate/generate.go` (the wrapper generator) and of the
builders of `docker/docker.go` that it generated, with the properties of the
argument vectors the builders assemble.

Go strings are byte sequences, so a Go `string` is a list of bytes here; a Go
string literal is written `bytes "..."`, its UTF-8 encoding. A nil pointer, slice
or map is `none`, and a slice or map that is not nil is `some` of its content. The
integer fields of the option records range over all integers (naturals for the
unsigned types), of which the values of the Go types are a part; the builders only
print them.
-/

/-- A Go `string`: an immutable sequence of bytes. -/
abbrev GoString := List UInt8

/-- The Go string literal with the given text: the UTF-8 encoding of its characters. -/
def bytes (s : String) : GoString := s.data.flatMap String.utf8EncodeChar

/-- A Go `map[string]string` as one `range` loop sees it: its entries in the order
the loop yields them. Go leaves that order unspecified, so the listings that are
permutations of one another stand for the same map. -/
abbrev GoMap := List (GoString × GoString)

namespace fmt

/-- The text `fmt.Sprint` gives for a single operand of the field types of
`docker/docker.go`. -/
class Sprintable (α : Type) where
  /-- Rendering of one value. -/
  Sprint : α → GoString

export Sprintable (Sprint)

/-- A string operand is printed as it is. -/
instance : Sprintable GoString := ⟨fun s => s⟩

/-- A bool operand is printed as `true` or `false`. -/
instance : Sprintable Bool := ⟨fun b => if b then bytes "true" else bytes "false"⟩

/-- A signed integer operand (`int`, `int64`) is printed in base 10, with a leading
`-` when negative. -/
instance : Sprintable Int := ⟨fun i => bytes (toString i)⟩

/-- An unsigned integer operand (`uint`, `uint16`, `uint32`, `uint64`) is printed in
base 10. -/
instance : Sprintable Nat := ⟨fun n => bytes (toString n)⟩

end fmt

namespace exec

/-- The fields of `exec.Cmd` that `exec.Command` fills from its arguments. -/
structure Cmd where
  /-- The program to run. -/
  Path : GoString
  /-- The command line, the program name first. -/
  Args : List GoString
  deriving DecidableEq

/-- Call `exec.Command(name, arg...)`: the handle for running `name` with the
arguments `arg`. Nothing is started. (The lookup of `name` in the search path,
which depends on the file system, is left out.) -/
def Command (name : GoString) (arg : List GoString) : Cmd :=
  { Path := name, Args := name :: arg }

end exec

namespace strings

/-- Call `strings.Contains(s, sep)` for a separator of one byte, as the generator
makes it with `"-"`. -/
def Contains (s : GoString) (sep : UInt8) : Bool := s.contains sep

/-- Call `strings.Split(s, sep)` for a separator of one byte: the pieces of `s`
between the occurrences of `sep`, one more than there are occurrences. -/
def Split : GoString → UInt8 → List GoString
  | [], _ => [[]]
  | c :: cs, sep =>
    if c = sep then [] :: Split cs sep
    else
      match Split cs sep with
      | [] => [[c]]
      | piece :: pieces => (c :: piece) :: pieces

/-- Call `strings.Join(elems, sep)`. -/
def Join (elems : List GoString) (sep : GoString) : GoString := sep.intercalate elems

/-- The simple upper-case mapping `unicode.ToUpper` on the code points below 256,
the only ones a byte converts to. -/
def upperRune (r : Nat) : Nat :=
  if 0x61 ≤ r ∧ r ≤ 0x7A then r - 0x20
  else if r = 0xB5 then 0x39C
  else if (0xE0 ≤ r ∧ r ≤ 0xF6) ∨ (0xF8 ≤ r ∧ r ≤ 0xFE) then r - 0x20
  else if r = 0xFF then 0x178
  else r

/-- The expression `strings.ToUpper(string(b))` for a byte `b`: the conversion
`string(b)` is the UTF-8 text of the code point numbered `b`, which is then
upper-cased. -/
def ToUpperByte (b : UInt8) : GoString :=
  String.utf8EncodeChar (Char.ofNat (upperRune b.toNat))

end strings

namespace Generate

/-- The byte of the separator `"-"`. -/
def hyphen : UInt8 := 0x2D

/-- What the generator reads of a `pflag.Flag`. -/
structure Flag where
  /-- Field `Name`, the long name. -/
  Name : GoString
  /-- Field `Usage`, the help text. -/
  Usage : GoString
  /-- The result of `Value.Type()`, the value-type tag. -/
  ValueType : GoString

/-- What the generator reads of a `cobra.Command`: the result of `Name()`, the
fields `Use` and `Short`, the flags in the order `Flags().VisitAll` visits them, and
the result of `Commands()`. -/
inductive Command where
  | mk (Name Use Short : GoString) (Flags : List Flag) (Commands : List Command)

/-- The result of `cmd.Name()`. -/
def Command.Name : Command → GoString
  | .mk n _ _ _ _ => n

/-- Field `cmd.Use`. -/
def Command.Use : Command → GoString
  | .mk _ u _ _ _ => u

/-- Field `cmd.Short`. -/
def Command.Short : Command → GoString
  | .mk _ _ s _ _ => s

/-- The flags of `cmd.Flags()` in the order `VisitAll` visits them. -/
def Command.Flags : Command → List Flag
  | .mk _ _ _ f _ => f

/-- The result of `cmd.Commands()`. -/
def Command.Commands : Command → List Command
  | .mk _ _ _ _ c => c

/-- Function `toCamel`; `none` is the run-time panic of `v[0]` on an empty
segment. -/
def toCamel (s : List GoString) : Option GoString :=
  s.foldlM
    (fun res v =>
      match v with
      | [] => none
      | b :: rest =>
        let upper := strings.ToUpperByte b
        let res := if v.length < 2 then res ++ upper else res
        some (res ++ (upper ++ rest)))
    []

/-- Function `generateFieldName`. -/
def generateFieldName (flag : Flag) : Option GoString :=
  let name := flag.Name
  let s :=
    if !strings.Contains name hyphen then [name]
    else strings.Split name hyphen
  toCamel s

/-- Function `isBasicType`. -/
def isBasicType (typ : GoString) : Bool :=
  let types := [
    bytes "bool",
    bytes "string",
    bytes "int", bytes "int8", bytes "int16", bytes "int32", bytes "int64",
    bytes "uint", bytes "uint8", bytes "uint16", bytes "uint32", bytes "uint64", bytes "uintptr",
    bytes "byte",
    bytes "rune",
    bytes "float32", bytes "float64",
    bytes "complex64", bytes "complex128"]
  types.any fun v => v == typ

/-- Function `generateTypeName`. -/
def generateTypeName (flag : Flag) : GoString :=
  let typ := flag.ValueType
  if typ = bytes "list" then bytes "[]string"
  else if typ = bytes "map" then bytes "map[string]string"
  else if !isBasicType typ then bytes "*string"
  else bytes "*" ++ typ

/-- Function `generateCmdName`. -/
def generateCmdName (names : List GoString) : Option GoString :=
  let s := names.foldl
    (fun s v =>
      if strings.Contains v hyphen then s ++ strings.Split v hyphen
      else s ++ [v])
    []
  toCamel s

/-- The local type `fieldValue` of `generateStructDefinition`. -/
structure fieldValue where
  /-- The long name of the flag. -/
  flag : GoString
  /-- The name of the field. -/
  name : GoString
  /-- The type of the field. -/
  typ : GoString
  deriving DecidableEq

/-- The closure `generateStructDefinition` hands to `VisitAll`, run on one flag: it
extends the text `fields` and the list `fieldValues`. -/
def visitFlag (acc : GoString × List fieldValue) (flag : Flag) :
    Option (GoString × List fieldValue) :=
  let fields := acc.1 ++ (bytes "\t/*\n\t" ++ flag.Usage ++ bytes "\n\t*/\n")
  match generateFieldName flag with
  | none => none
  | some name =>
    let typ := generateTypeName flag
    let fields := fields ++ (bytes "\t" ++ name ++ bytes " " ++ typ ++ bytes "\n\n")
    some (fields, acc.2 ++ [{ flag := flag.Name, name := name, typ := typ }])

/-- The part of `generateStructDefinition` that writes the initialiser of `cargs`:
the loop over `names` that skips index 0, between the opening and the closing
text. -/
def writeInitialiser (names : List GoString) (result : GoString) : GoString :=
  let result := result ++ bytes "\tcargs := []string\x7b"
  let result := names.enum.foldl
    (fun result iv =>
      if iv.1 = 0 then result
      else
        let result := result ++ (bytes "\"" ++ iv.2 ++ bytes "\"")
        if (iv.1 : Int) ≠ (names.length : Int) - 1 then result ++ bytes ", " else result)
    result
  result ++ bytes "\x7d\n"

/-- The body of the loop of `generateStructDefinition` over `fieldValues`: the
rendering block of one field. -/
def writeBlock (result : GoString) (v : fieldValue) : GoString :=
  let result := result ++ (bytes "\tif opt." ++ v.name ++ bytes " != nil \x7b\n")
  let result :=
    if v.typ = bytes "[]string" then
      let result := result ++ (bytes "\tfor _, str := range opt." ++ v.name ++ bytes " \x7b\n")
      let result := result ++ (bytes "\t\tcargs = append(cargs, \"--" ++ v.flag ++ bytes "\")\n")
      let result := result ++ bytes "\t\tcargs = append(cargs, str)\n"
      result ++ bytes "\t\x7d\n"
    else if v.typ = bytes "map[string]string" then
      let result := result ++ (bytes "\tfor key, val := range opt." ++ v.name ++ bytes " \x7b\n")
      let result := result ++ (bytes "\t\tcargs = append(cargs, \"--" ++ v.flag ++ bytes "\")\n")
      let result := result ++ bytes "\t\tcargs = append(cargs, key + \"=\" + val)\n"
      result ++ bytes "\t\x7d\n"
    else
      result ++ (bytes "\t\tcargs = append(cargs, \"--" ++ v.flag ++ bytes "=\" + fmt.Sprint(*opt."
        ++ v.name ++ bytes "))\n")
  result ++ bytes "\t\x7d\n"

/-- The first part of `generateStructDefinition`, once the names are derived: the
declaration of the options record (dropped when `fields` is empty), the comment
block and the opening line of the builder. -/
def writeHeader (cmd : Command) (names : List GoString) (cmdName fields : GoString) : GoString :=
  let result := bytes "type " ++ cmdName ++ bytes "Option struct \x7b\n"
  let result := result ++ (fields ++ bytes "\x7d\n\n")
  let result := if fields = bytes "" then bytes "" else result
  let arg := bytes ""
  let arg := if fields ≠ bytes "" then bytes "opt " ++ cmdName ++ bytes "Option, " else arg
  let arg := arg ++ bytes "args []string"
  let result := result ++ (bytes "/*\n" ++
    cmdName ++ bytes "Cmd is wrapper of '" ++ strings.Join names (bytes " ") ++ bytes "'\n" ++
    bytes "------------------------------\n" ++
    cmd.Use ++ bytes "\n" ++
    cmd.Short ++ bytes "\n" ++
    bytes "------------------------------\n" ++
    bytes "*/\n")
  result ++ (bytes "func " ++ cmdName ++ bytes "Cmd" ++ bytes "(" ++ arg ++
    bytes ") *exec.Cmd \x7b\n")

/-- Function `generateStructDefinition`; `none` is a panic of `toCamel` while a name
is derived. The flags are visited (the closure `visitFlag`) before the text is
assembled, as in the source. -/
def generateStructDefinition (cmd : Command) (names : List GoString) : Option GoString :=
  match generateCmdName names with
  | none => none
  | some cmdName =>
    match cmd.Flags.foldlM visitFlag (bytes "", []) with
    | none => none
    | some (fields, fieldValues) =>
      let result := writeHeader cmd names cmdName fields
      let result := writeInitialiser names result
      let result := fieldValues.foldl writeBlock result
      let result := result ++ bytes "\tcargs = append(cargs, args...)\n"
      let result := result ++ bytes "\treturn exec.Command(\"docker\", cargs...)\n\x7d\n\n"
      some result

mutual
/-- Function `generateCode`: the text it prints, `none` when a panic of `toCamel`
ends the run. The argument `parents` is `none` for the nil slice of the first
call. -/
def generateCode (cmd : Command) (parents : Option (List GoString)) : Option GoString :=
  match cmd with
  | .mk name use short flags commands =>
    let names :=
      match parents with
      | none => [name]
      | some parents => parents ++ [name]
    match generateStructDefinition (.mk name use short flags commands) names with
    | none => none
    | some text =>
      match generateCodeRange commands names with
      | none => none
      | some rest => some (text ++ rest)

/-- The loop `for _, cmd := range cmd.Commands()` of `generateCode`: the calls
`generateCode(cmd, names)` on the children in order, each printing its text. -/
def generateCodeRange (cmds : List Command) (names : List GoString) : Option GoString :=
  match cmds with
  | [] => some []
  | cmd :: rest =>
    match generateCode cmd (some names) with
    | none => none
    | some text =>
      match generateCodeRange rest names with
      | none => none
      | some more => some (text ++ more)
end

mutual
/-- The visits of a pre-order walk of a command tree: every node with the chain of
command names from the root of the walk down to it, a node before its children and
the whole subtree of a child before the next child. The list `above` holds the
names of the ancestors of the node the walk starts at. -/
def Command.visits (cmd : Command) (above : List GoString) :
    List (Command × List GoString) :=
  match cmd with
  | .mk name use short flags commands =>
    (.mk name use short flags commands, above ++ [name])
      :: Command.visitsOfChildren commands (above ++ [name])

/-- The visits of the subtrees of a list of siblings, one subtree after the other. -/
def Command.visitsOfChildren (cmds : List Command) (above : List GoString) :
    List (Command × List GoString) :=
  match cmds with
  | [] => []
  | cmd :: rest => cmd.visits above ++ Command.visitsOfChildren rest above
end

mutual
/-- The number of nodes of a command tree. -/
def Command.size (cmd : Command) : Nat :=
  match cmd with
  | .mk _ _ _ _ commands => 1 + Command.sizeOfChildren commands

/-- The number of nodes of the subtrees of a list of siblings. -/
def Command.sizeOfChildren (cmds : List Command) : Nat :=
  match cmds with
  | [] => 0
  | cmd :: rest => cmd.size + Command.sizeOfChildren rest
end

/-- Function `GenerateCode`: the text the generator prints, the package clause and the
imports first; `none` when a panic of `toCamel` ends the run. -/
def GenerateCode (cmd : Command) : Option GoString :=
  match generateCode cmd none with
  | none => none
  | some text =>
    some (bytes "package docker\n\nimport (\n\t\"fmt\"\n\t\"os/exec\"\n)\n\t" ++ bytes "\n" ++ text)

mutual
/-- Function `generateCode` with the call `generateStructDefinition(cmd, names)`
replaced by a call of `emit` with the same arguments, to observe the arguments the
call is made with. -/
def generateCodeWith (emit : Command → List GoString → Option GoString) (cmd : Command)
    (parents : Option (List GoString)) : Option GoString :=
  match cmd with
  | .mk name use short flags commands =>
    let names :=
      match parents with
      | none => [name]
      | some parents => parents ++ [name]
    match emit (.mk name use short flags commands) names with
    | none => none
    | some text =>
      match generateCodeRangeWith emit commands names with
      | none => none
      | some rest => some (text ++ rest)

/-- The loop over the children of `generateCodeWith`. -/
def generateCodeRangeWith (emit : Command → List GoString → Option GoString)
    (cmds : List Command) (names : List GoString) : Option GoString :=
  match cmds with
  | [] => some []
  | cmd :: rest =>
    match generateCodeWith emit cmd (some names) with
    | none => none
    | some text =>
      match generateCodeRangeWith emit rest names with
      | none => none
      | some more => some (text ++ more)
end

/-- The chain of commands from a root down to a node: `PathTo root chain node` holds
when `chain` lists `root`, then a child of it, then a child of that one, and so on
down to `node`, both ends included. The depth of `node` under `root` is the length
of `chain` less one. -/
inductive PathTo : Command → List Command → Command → Prop
  | here (cmd : Command) : PathTo cmd [cmd] cmd
  | step (cmd child : Command) (chain : List Command) (node : Command) :
      child ∈ cmd.Commands → PathTo child chain node → PathTo cmd (cmd :: chain) node

/-- A small command tree: `docker` with the children `builder` and `volume`, the
latter with the child `create` and its four flags. -/
def sampleTree : Command :=
  .mk (bytes "docker") (bytes "docker [OPTIONS] COMMAND [ARG...]")
    (bytes "A self-sufficient runtime for containers") []
    [.mk (bytes "builder") (bytes "builder") (bytes "Manage builds") [] [],
     .mk (bytes "volume") (bytes "volume COMMAND") (bytes "Manage volumes") []
       [.mk (bytes "create") (bytes "create [OPTIONS] [VOLUME]") (bytes "Create a volume")
         [{ Name := bytes "driver", Usage := bytes "Specify volume driver name",
            ValueType := bytes "string" },
          { Name := bytes "label", Usage := bytes "Set metadata for a volume",
            ValueType := bytes "list" },
          { Name := bytes "name", Usage := bytes "Specify volume name",
            ValueType := bytes "string" },
          { Name := bytes "opt", Usage := bytes "Set driver specific options",
            ValueType := bytes "map" }] []]]

/-- The node `docker container stop`, with its flag `time`. -/
def containerStopNode : Command :=
  .mk (bytes "stop") (bytes "stop [OPTIONS] CONTAINER [CONTAINER...]")
    (bytes "Stop one or more running containers")
    [{ Name := bytes "time", Usage := bytes "Seconds to wait for stop before killing it",
       ValueType := bytes "int" }] []

/-- The node `docker swarm join-token`, with its flags `quiet` and `rotate`. -/
def swarmJoinTokenNode : Command :=
  .mk (bytes "join-token") (bytes "join-token [OPTIONS] (worker|manager)")
    (bytes "Manage join tokens")
    [{ Name := bytes "quiet", Usage := bytes "Only display token", ValueType := bytes "bool" },
     { Name := bytes "rotate", Usage := bytes "Rotate join token", ValueType := bytes "bool" }] []

/-- A root command that is not called `docker`: a command `podman` without flags or
children. -/
def podmanRoot : Command :=
  .mk (bytes "podman") (bytes "podman [options] [command]") (bytes "Manage pods") [] []

/-- A node `token` under the path `docker swarm join`, which the command tree of
`docker` does not hold: a second node whose path has the segments of
`docker swarm join-token`. -/
def tokenUnderJoinNode : Command :=
  .mk (bytes "token") (bytes "token [OPTIONS]") (bytes "Show the token")
    [{ Name := bytes "quiet", Usage := bytes "Only display token", ValueType := bytes "bool" }] []

/-- The comparison `a < b` of two strings in Go: byte by byte, and a proper prefix is
less than the string it starts. -/
def lessString : GoString → GoString → Bool
  | [], [] => false
  | [], _ :: _ => true
  | _ :: _, [] => false
  | a :: as, b :: bs => if a < b then true else if b < a then false else lessString as bs

/-- One command put into a list of commands that is sorted by name, before the first
command whose name is not less than its own. -/
def insertByName (cmd : Command) : List Command → List Command
  | [] => [cmd]
  | c :: cs =>
    if lessString c.Name cmd.Name then c :: insertByName cmd cs else cmd :: c :: cs

/-- Not under `src/`: the method `Commands()` of `cobra.Command`, of the library the
generator imports. It does not return the children in the order `AddCommand`
declared them: it sorts them by name first (`sort.Sort(commandSorterByName(...))`,
whose `Less` compares `Name()` with `<`) and returns the sorted list. This is that
list for children declared in the order `declared`, whose names are distinct. -/
def sortCommandsByName (declared : List Command) : List Command :=
  declared.foldr insertByName []

mutual
/-- A command tree as the generator reads it, from the tree as it was declared: at
every node `Commands()` returns the children sorted by name. -/
def Command.asReturned (cmd : Command) : Command :=
  match cmd with
  | .mk name use short flags commands =>
    .mk name use short flags (sortCommandsByName (Command.asReturnedAll commands))

/-- The trees of a list of declared commands as the generator reads them, in the
declared order. -/
def Command.asReturnedAll (cmds : List Command) : List Command :=
  match cmds with
  | [] => []
  | cmd :: rest => cmd.asReturned :: Command.asReturnedAll rest
end

/-- The command `builder`, without flags or children. -/
def builderLeaf : Command :=
  .mk (bytes "builder") (bytes "builder") (bytes "Manage builds") [] []

/-- The command `volume`, without flags or children. -/
def volumeLeaf : Command :=
  .mk (bytes "volume") (bytes "volume COMMAND") (bytes "Manage volumes") [] []

/-- A command tree as declared: the root `docker`, to which `volume` was added
first and `builder` second. -/
def declaredVolumeThenBuilder : Command :=
  .mk (bytes "docker") (bytes "docker [OPTIONS] COMMAND [ARG...]")
    (bytes "A self-sufficient runtime for containers") [] [volumeLeaf, builderLeaf]

/-- The texts of a list of calls printed one after the other; `none` when one of the
calls panics. -/
def printAll : List (Option GoString) → Option GoString
  | [] => some []
  | none :: _ => none
  | some text :: rest =>
    match printAll rest with
    | none => none
    | some more => some (text ++ more)

/-- A segment with its first byte upper-cased as `strings.ToUpper(string(v[0]))` does
it (the first letter, for a name in ASCII) and the rest as declared. -/
def capitalise : GoString → GoString
  | [] => []
  | b :: rest => strings.ToUpperByte b ++ rest

/-- The text between the braces of the initialiser of `cargs` for the path elements
`rest` that follow the program name: each in double quotes, separated by `", "`. -/
def quotedList (rest : List GoString) : GoString :=
  (bytes ", ").intercalate (rest.map fun name => bytes "\"" ++ name ++ bytes "\"")

/-- The comment block and declaration of the field of one flag, as written into the
options record. -/
def fieldText (flag : Flag) (name : GoString) : GoString :=
  bytes "\t/*\n\t" ++ flag.Usage ++ bytes "\n\t*/\n"
    ++ (bytes "\t" ++ name ++ bytes " " ++ generateTypeName flag ++ bytes "\n\n")

/-- What `toCamel` appends to `res` for one segment that is not empty: the
upper-cased first byte once more when the segment has fewer than two bytes, then the
upper-cased first byte and the rest of the segment. -/
def camelSegment : GoString → GoString
  | [] => []
  | b :: rest =>
    (if (b :: rest).length < 2 then strings.ToUpperByte b else [])
      ++ (strings.ToUpperByte b ++ rest)

/-- The rendering block of one field, as `writeBlock` appends it. -/
def blockText (v : fieldValue) : GoString := writeBlock [] v

/-- The comment block `generateStructDefinition` writes before the builder. -/
def commentBlock (cmd : Command) (names : List GoString) (cmdName : GoString) : GoString :=
  bytes "/*\n" ++
    cmdName ++ bytes "Cmd is wrapper of '" ++ strings.Join names (bytes " ") ++ bytes "'\n" ++
    bytes "------------------------------\n" ++
    cmd.Use ++ bytes "\n" ++
    cmd.Short ++ bytes "\n" ++
    bytes "------------------------------\n" ++
    bytes "*/\n"

/-- The entry of `fieldValues` for a flag whose field is named `name`. -/
def fieldValueOf (flag : Flag) (name : GoString) : fieldValue :=
  { flag := flag.Name, name := name, typ := generateTypeName flag }

end Generate

namespace Docker

/-- The guard `if opt.F != nil { ... }` around the block of a field: the block runs
on the value of a field that is set and is skipped for a nil field. -/
def ifSet {α : Type} (f : Option α) (cargs : List GoString)
    (block : α → List GoString → List GoString) : List GoString :=
  match f with
  | none => cargs
  | some v => block v cargs

/-- Record `DockerOption` of `docker/docker.go`: a nil pointer, slice or map is `none`. -/
structure DockerOption where
  Config : Option GoString := none
  Context : Option GoString := none
  Debug : Option Bool := none
  Host : Option (List GoString) := none
  LogLevel : Option GoString := none
  Tls : Option Bool := none
  Tlscacert : Option GoString := none
  Tlscert : Option GoString := none
  Tlskey : Option GoString := none
  Tlsverify : Option Bool := none
  Version : Option Bool := none

/-- Builder `DockerCmd` of `docker/docker.go`. -/
def DockerCmd (opt : DockerOption) (args : List GoString) : exec.Cmd :=
  let cargs : List GoString := []
  let cargs := ifSet opt.Config cargs fun v cargs => cargs ++ [bytes "--config=" ++ fmt.Sprint v]
  let cargs := ifSet opt.Context cargs fun v cargs => cargs ++ [bytes "--context=" ++ fmt.Sprint v]
  let cargs := ifSet opt.Debug cargs fun v cargs => cargs ++ [bytes "--debug=" ++ fmt.Sprint v]
  let cargs := ifSet opt.Host cargs fun l cargs => l.foldl (fun cargs str => (cargs ++ [bytes "--host"]) ++ [str]) cargs
  let cargs := ifSet opt.LogLevel cargs fun v cargs => cargs ++ [bytes "--log-level=" ++ fmt.Sprint v]
  let cargs := ifSet opt.Tls cargs fun v cargs => cargs ++ [bytes "--tls=" ++ fmt.Sprint v]
  let cargs := ifSet opt.Tlscacert cargs fun v cargs => cargs ++ [bytes "--tlscacert=" ++ fmt.Sprint v]
  let cargs := ifSet opt.Tlscert cargs fun v cargs => cargs ++ [bytes "--tlscert=" ++ fmt.Sprint v]
  let cargs := ifSet opt.Tlskey cargs fun v cargs => cargs ++ [bytes "--tlskey=" ++ fmt.Sprint v]
  let cargs := ifSet opt.Tlsverify cargs fun v cargs => cargs ++ [bytes "--tlsverify=" ++ fmt.Sprint v]
  let cargs := ifSet opt.Version cargs fun v cargs => cargs ++ [bytes "--version=" ++ fmt.Sprint v]
  let cargs := cargs ++ args
  exec.Command (bytes "docker") cargs

/-- Record `DockerAttachOption` of `docker/docker.go`: a nil pointer, slice or map is `none`. -/
structure DockerAttachOption where
  DetachKeys : Option GoString := none
  NoStdin : Option Bool := none
  SigProxy : Option Bool := none

/-- Builder `DockerAttachCmd` of `docker/docker.go`. -/
def DockerAttachCmd (opt : DockerAttachOption) (args : List GoString) : exec.Cmd :=
  let cargs : List GoString := [bytes "attach"]
  let cargs := ifSet opt.DetachKeys cargs fun v cargs => cargs ++ [bytes "--detach-keys=" ++ fmt.Sprint v]
  let cargs := ifSet opt.NoStdin cargs fun v cargs => cargs ++ [bytes "--no-stdin=" ++ fmt.Sprint v]
  let cargs := ifSet opt.SigProxy cargs fun v cargs => cargs ++ [bytes "--sig-proxy=" ++ fmt.Sprint v]
  let cargs := cargs ++ args
  exec.Command (bytes "docker") cargs

/-- Record `DockerBuildOption` of `docker/docker.go`: a nil pointer, slice or map is `none`. -/
structure DockerBuildOption where
  AddHost : Option (List GoString) := none
  BuildArg : Option (List GoString) := none
  CacheFrom : Option GoString := none
  CgroupParent : Option GoString := none
  Compress : Option Bool := none
  CpuPeriod : Option Int := none
  CpuQuota : Option Int := none
  CpuShares : Option Int := none
  CpusetCpus : Option GoString := none
  CpusetMems : Option GoString := none
  DisableContentTrust : Option Bool := none
  File : Option GoString := none
  ForceRm : Option Bool := none
  Iidfile : Option GoString := none
  Isolation : Option GoString := none
  Label : Option (List GoString) := none
  Memory : Option GoString := none
  MemorySwap : Option GoString := none
  Network : Option GoString := none
  NoCache : Option Bool := none
  Output : Option GoString := none
  Platform : Option GoString := none
  Progress : Option GoString := none
  Pull : Option Bool := none
  Quiet : Option Bool := none
  Rm : Option Bool := none
  Secret : Option GoString := none
  SecurityOpt : Option GoString := none
  ShmSize : Option GoString := none
  Squash : Option Bool := none
  Ssh : Option GoString := none
  Stream : Option Bool := none
  Tag : Option (List GoString) := none
  Target : Option GoString := none
  Ulimit : Option GoString := none

/-- Builder `DockerBuildCmd` of `docker/docker.go`. -/
def DockerBuildCmd (opt : DockerBuildOption) (args : List GoString) : exec.Cmd :=
  let cargs : List GoString := [bytes "build"]
  let cargs := ifSet opt.AddHost cargs fun l cargs => l.foldl (fun cargs str => (cargs ++ [bytes "--add-host"]) ++ [str]) cargs
  let cargs := ifSet opt.BuildArg cargs fun l cargs => l.foldl (fun cargs str => (cargs ++ [bytes "--build-arg"]) ++ [str]) cargs
  let cargs := ifSet opt.CacheFrom cargs fun v cargs => cargs ++ [bytes "--cache-from=" ++ fmt.Sprint v]
  let cargs := ifSet opt.CgroupParent cargs fun v cargs => cargs ++ [bytes "--cgroup-parent=" ++ fmt.Sprint v]
  let cargs := ifSet opt.Compress cargs fun v cargs => cargs ++ [bytes "--compress=" ++ fmt.Sprint v]
  let cargs := ifSet opt.CpuPeriod cargs fun v cargs => cargs ++ [bytes "--cpu-period=" ++ fmt.Sprint v]
  let cargs := ifSet opt.CpuQuota cargs fun v cargs => cargs ++ [bytes "--cpu-quota=" ++ fmt.Sprint v]
  let cargs := ifSet opt.CpuShares cargs fun v cargs => cargs ++ [bytes "--cpu-shares=" ++ fmt.Sprint v]
  let cargs := ifSet opt.CpusetCpus cargs fun v cargs => cargs ++ [bytes "--cpuset-cpus=" ++ fmt.Sprint v]
  let cargs := ifSet opt.CpusetMems cargs fun v cargs => cargs ++ [bytes "--cpuset-mems=" ++ fmt.Sprint v]
  let cargs := ifSet opt.DisableContentTrust cargs fun v cargs => cargs ++ [bytes "--disable-content-trust=" ++ fmt.Sprint v]
  let cargs := ifSet opt.File cargs fun v cargs => cargs ++ [bytes "--file=" ++ fmt.Sprint v]
  let cargs := ifSet opt.ForceRm cargs fun v cargs => cargs ++ [bytes "--force-rm=" ++ fmt.Sprint v]
  let cargs := ifSet opt.Iidfile cargs fun v cargs => cargs ++ [bytes "--iidfile=" ++ fmt.Sprint v]
  let cargs := ifSet opt.Isolation cargs fun v cargs => cargs ++ [bytes "--isolation=" ++ fmt.Sprint v]
  let cargs := ifSet opt.Label cargs fun l cargs => l.foldl (fun cargs str => (cargs ++ [bytes "--label"]) ++ [str]) cargs
  let cargs := ifSet opt.Memory cargs fun v cargs => cargs ++ [bytes "--memory=" ++ fmt.Sprint v]
  let cargs := ifSet opt.MemorySwap cargs fun v cargs => cargs ++ [bytes "--memory-swap=" ++ fmt.Sprint v]
  let cargs := ifSet opt.Network cargs fun v cargs => cargs ++ [bytes "--network=" ++ fmt.Sprint v]
  let cargs := ifSet opt.NoCache cargs fun v cargs => cargs ++ [bytes "--no-cache=" ++ fmt.Sprint v]
  let cargs := ifSet opt.Output cargs fun v cargs => cargs ++ [bytes "--output=" ++ fmt.Sprint v]
  let cargs := ifSet opt.Platform cargs fun v cargs => cargs ++ [bytes "--platform=" ++ fmt.Sprint v]
  let cargs := ifSet opt.Progress cargs fun v cargs => cargs ++ [bytes "--progress=" ++ fmt.Sprint v]
  let cargs := ifSet opt.Pull cargs fun v cargs => cargs ++ [bytes "--pull=" ++ fmt.Sprint v]
  let cargs := ifSet opt.Quiet cargs fun v cargs => cargs ++ [bytes "--quiet=" ++ fmt.Sprint v]
  let cargs := ifSet opt.Rm cargs fun v cargs => cargs ++ [bytes "--rm=" ++ fmt.Sprint v]
  let cargs := ifSet opt.Secret cargs fun v cargs => cargs ++ [bytes "--secret=" ++ fmt.Sprint v]
  let cargs := ifSet opt.SecurityOpt cargs fun v cargs => cargs ++ [bytes "--security-opt=" ++ fmt.Sprint v]
  let cargs := ifSet opt.ShmSize cargs fun v cargs => cargs ++ [bytes "--shm-size=" ++ fmt.Sprint v]
  let cargs := ifSet opt.Squash cargs fun v cargs => cargs ++ [bytes "--squash=" ++ fmt.Sprint v]
  let cargs := ifSet opt.Ssh cargs fun v cargs => cargs ++ [bytes "--ssh=" ++ fmt.Sprint v]
  let cargs := ifSet opt.Stream cargs fun v cargs => cargs ++ [bytes "--stream=" ++ fmt.Sprint v]
  let cargs := ifSet opt.Tag cargs fun l cargs => l.foldl (fun cargs str => (cargs ++ [bytes "--tag"]) ++ [str]) cargs
  let cargs := ifSet opt.Target cargs fun v cargs => cargs ++ [bytes "--target=" ++ fmt.Sprint v]
  let cargs := ifSet opt.Ulimit cargs fun v cargs => cargs ++ [bytes "--ulimit=" ++ fmt.Sprint v]
  let cargs := cargs ++ args
  exec.Command (bytes "docker") cargs

/-- Record `DockerContainerStopOption` of `docker/docker.go`: a nil pointer, slice or map is `none`. -/
structure DockerContainerStopOption where
  Time : Option Int := none

/-- Builder `DockerContainerStopCmd` of `docker/docker.go`. -/
def DockerContainerStopCmd (opt : DockerContainerStopOption) (args : List GoString) : exec.Cmd :=
  let cargs : List GoString := [bytes "container", bytes "stop"]
  let cargs := ifSet opt.Time cargs fun v cargs => cargs ++ [bytes "--time=" ++ fmt.Sprint v]
  let cargs := cargs ++ args
  exec.Command (bytes "docker") cargs

/-- Record `DockerNetworkCreateOption` of `docker/docker.go`: a nil pointer, slice or map is `none`. -/
structure DockerNetworkCreateOption where
  Attachable : Option Bool := none
  AuxAddress : Option GoMap := none
  ConfigFrom : Option GoString := none
  ConfigOnly : Option Bool := none
  Driver : Option GoString := none
  Gateway : Option GoString := none
  Ingress : Option Bool := none
  Internal : Option Bool := none
  IpRange : Option GoString := none
  IpamDriver : Option GoString := none
  IpamOpt : Option GoMap := none
  Ipv6 : Option Bool := none
  Label : Option (List GoString) := none
  Opt : Option GoMap := none
  Scope : Option GoString := none
  Subnet : Option GoString := none

/-- Builder `DockerNetworkCreateCmd` of `docker/docker.go`. -/
def DockerNetworkCreateCmd (opt : DockerNetworkCreateOption) (args : List GoString) : exec.Cmd :=
  let cargs : List GoString := [bytes "network", bytes "create"]
  let cargs := ifSet opt.Attachable cargs fun v cargs => cargs ++ [bytes "--attachable=" ++ fmt.Sprint v]
  let cargs := ifSet opt.AuxAddress cargs fun m cargs => m.foldl (fun cargs kv => (cargs ++ [bytes "--aux-address"]) ++ [kv.1 ++ bytes "=" ++ kv.2]) cargs
  let cargs := ifSet opt.ConfigFrom cargs fun v cargs => cargs ++ [bytes "--config-from=" ++ fmt.Sprint v]
  let cargs := ifSet opt.ConfigOnly cargs fun v cargs => cargs ++ [bytes "--config-only=" ++ fmt.Sprint v]
  let cargs := ifSet opt.Driver cargs fun v cargs => cargs ++ [bytes "--driver=" ++ fmt.Sprint v]
  let cargs := ifSet opt.Gateway cargs fun v cargs => cargs ++ [bytes "--gateway=" ++ fmt.Sprint v]
  let cargs := ifSet opt.Ingress cargs fun v cargs => cargs ++ [bytes "--ingress=" ++ fmt.Sprint v]
  let cargs := ifSet opt.Internal cargs fun v cargs => cargs ++ [bytes "--internal=" ++ fmt.Sprint v]
  let cargs := ifSet opt.IpRange cargs fun v cargs => cargs ++ [bytes "--ip-range=" ++ fmt.Sprint v]
  let cargs := ifSet opt.IpamDriver cargs fun v cargs => cargs ++ [bytes "--ipam-driver=" ++ fmt.Sprint v]
  let cargs := ifSet opt.IpamOpt cargs fun m cargs => m.foldl (fun cargs kv => (cargs ++ [bytes "--ipam-opt"]) ++ [kv.1 ++ bytes "=" ++ kv.2]) cargs
  let cargs := ifSet opt.Ipv6 cargs fun v cargs => cargs ++ [bytes "--ipv6=" ++ fmt.Sprint v]
  let cargs := ifSet opt.Label cargs fun l cargs => l.foldl (fun cargs str => (cargs ++ [bytes "--label"]) ++ [str]) cargs
  let cargs := ifSet opt.Opt cargs fun m cargs => m.foldl (fun cargs kv => (cargs ++ [bytes "--opt"]) ++ [kv.1 ++ bytes "=" ++ kv.2]) cargs
  let cargs := ifSet opt.Scope cargs fun v cargs => cargs ++ [bytes "--scope=" ++ fmt.Sprint v]
  let cargs := ifSet opt.Subnet cargs fun v cargs => cargs ++ [bytes "--subnet=" ++ fmt.Sprint v]
  let cargs := cargs ++ args
  exec.Command (bytes "docker") cargs

/-- Record `DockerVersionOption` of `docker/docker.go`: a nil pointer, slice or map is `none`. -/
structure DockerVersionOption where
  Format : Option GoString := none
  Kubeconfig : Option GoString := none

/-- Builder `DockerVersionCmd` of `docker/docker.go`. -/
def DockerVersionCmd (opt : DockerVersionOption) (args : List GoString) : exec.Cmd :=
  let cargs : List GoString := [bytes "version"]
  let cargs := ifSet opt.Format cargs fun v cargs => cargs ++ [bytes "--format=" ++ fmt.Sprint v]
  let cargs := ifSet opt.Kubeconfig cargs fun v cargs => cargs ++ [bytes "--kubeconfig=" ++ fmt.Sprint v]
  let cargs := cargs ++ args
  exec.Command (bytes "docker") cargs

/-- Record `DockerVolumeCreateOption` of `docker/docker.go`: a nil pointer, slice or map is `none`. -/
structure DockerVolumeCreateOption where
  Driver : Option GoString := none
  Label : Option (List GoString) := none
  Name : Option GoString := none
  Opt : Option GoMap := none

/-- Builder `DockerVolumeCreateCmd` of `docker/docker.go`. -/
def DockerVolumeCreateCmd (opt : DockerVolumeCreateOption) (args : List GoString) : exec.Cmd :=
  let cargs : List GoString := [bytes "volume", bytes "create"]
  let cargs := ifSet opt.Driver cargs fun v cargs => cargs ++ [bytes "--driver=" ++ fmt.Sprint v]
  let cargs := ifSet opt.Label cargs fun l cargs => l.foldl (fun cargs str => (cargs ++ [bytes "--label"]) ++ [str]) cargs
  let cargs := ifSet opt.Name cargs fun v cargs => cargs ++ [bytes "--name=" ++ fmt.Sprint v]
  let cargs := ifSet opt.Opt cargs fun m cargs => m.foldl (fun cargs kv => (cargs ++ [bytes "--opt"]) ++ [kv.1 ++ bytes "=" ++ kv.2]) cargs
  let cargs := cargs ++ args
  exec.Command (bytes "docker") cargs

/-- Builder `DockerBuilderCmd` of `docker/docker.go`. -/
def DockerBuilderCmd (args : List GoString) : exec.Cmd :=
  let cargs : List GoString := [bytes "builder"]
  let cargs := cargs ++ args
  exec.Command (bytes "docker") cargs

/-- Builder `DockerSystemDialStdioCmd` of `docker/docker.go`. -/
def DockerSystemDialStdioCmd (args : List GoString) : exec.Cmd :=
  let cargs : List GoString := [bytes "system", bytes "dial-stdio"]
  let cargs := cargs ++ args
  exec.Command (bytes "docker") cargs


/-- The dereference `*p` of a pointer as a step that can fail: `none` is the panic on
a nil pointer. -/
def deref {α : Type} (p : Option α) : Option α := p

/-- The elements a `range` loop over a slice or map yields: none for one that is
nil. -/
def rangeOf {α : Type} (f : Option (List α)) : List α :=
  match f with
  | none => []
  | some l => l

/-- The statement `if opt.F != nil { ... }` with its block as a step that can fail. -/
def ifNotNil {α : Type} (f : Option α) (cargs : List GoString)
    (block : List GoString → Option (List GoString)) : Option (List GoString) :=
  if f.isSome then block cargs else some cargs

/-- A sequence of statements run in order on `cargs`; a panic ends the run. -/
def runStatements (statements : List (List GoString → Option (List GoString)))
    (cargs : List GoString) : Option (List GoString) :=
  match statements with
  | [] => some cargs
  | statement :: rest =>
    match statement cargs with
    | none => none
    | some cargs => runStatements rest cargs

/-- The statements of `DockerVolumeCreateCmd` of `docker/docker.go` after the initialiser of `cargs`,
in order, each as a step from the value of `cargs` before it to the value after it that
can fail: `none` is a panic, which only the dereference of a nil pointer raises. The
positionals `args` are `none` for a nil slice. -/
def DockerVolumeCreateCmdStatements (opt : DockerVolumeCreateOption) (args : Option (List GoString)) :
    List (List GoString → Option (List GoString)) :=
  [fun cargs => ifNotNil opt.Driver cargs fun cargs =>
      (deref opt.Driver).bind fun v => some (cargs ++ [bytes "--driver=" ++ fmt.Sprint v]),
   fun cargs => ifNotNil opt.Label cargs fun cargs =>
      some ((rangeOf opt.Label).foldl (fun cargs str => (cargs ++ [bytes "--label"]) ++ [str]) cargs),
   fun cargs => ifNotNil opt.Name cargs fun cargs =>
      (deref opt.Name).bind fun v => some (cargs ++ [bytes "--name=" ++ fmt.Sprint v]),
   fun cargs => ifNotNil opt.Opt cargs fun cargs =>
      some ((rangeOf opt.Opt).foldl
        (fun cargs kv => (cargs ++ [bytes "--opt"]) ++ [kv.1 ++ bytes "=" ++ kv.2]) cargs),
   fun cargs => some (cargs ++ rangeOf args)]

/-- Builder `DockerVolumeCreateCmd` of `docker/docker.go` run statement by statement: `none` when a
statement panics. -/
def DockerVolumeCreateCmdSteps (opt : DockerVolumeCreateOption) (args : Option (List GoString)) :
    Option exec.Cmd :=
  match runStatements (DockerVolumeCreateCmdStatements opt args) [bytes "volume", bytes "create"] with
  | none => none
  | some cargs => some (exec.Command (bytes "docker") cargs)

/-- The statements of `DockerBuildCmd` of `docker/docker.go` after the initialiser of `cargs`,
in order, each as a step from the value of `cargs` before it to the value after it that
can fail: `none` is a panic, which only the dereference of a nil pointer raises. The
positionals `args` are `none` for a nil slice. -/
def DockerBuildCmdStatements (opt : DockerBuildOption) (args : Option (List GoString)) :
    List (List GoString → Option (List GoString)) :=
  [fun cargs => ifNotNil opt.AddHost cargs fun cargs =>
      some ((rangeOf opt.AddHost).foldl (fun cargs str => (cargs ++ [bytes "--add-host"]) ++ [str]) cargs),
   fun cargs => ifNotNil opt.BuildArg cargs fun cargs =>
      some ((rangeOf opt.BuildArg).foldl (fun cargs str => (cargs ++ [bytes "--build-arg"]) ++ [str]) cargs),
   fun cargs => ifNotNil opt.CacheFrom cargs fun cargs =>
      (deref opt.CacheFrom).bind fun v => some (cargs ++ [bytes "--cache-from=" ++ fmt.Sprint v]),
   fun cargs => ifNotNil opt.CgroupParent cargs fun cargs =>
      (deref opt.CgroupParent).bind fun v => some (cargs ++ [bytes "--cgroup-parent=" ++ fmt.Sprint v]),
   fun cargs => ifNotNil opt.Compress cargs fun cargs =>
      (deref opt.Compress).bind fun v => some (cargs ++ [bytes "--compress=" ++ fmt.Sprint v]),
   fun cargs => ifNotNil opt.CpuPeriod cargs fun cargs =>
      (deref opt.CpuPeriod).bind fun v => some (cargs ++ [bytes "--cpu-period=" ++ fmt.Sprint v]),
   fun cargs => ifNotNil opt.CpuQuota cargs fun cargs =>
      (deref opt.CpuQuota).bind fun v => some (cargs ++ [bytes "--cpu-quota=" ++ fmt.Sprint v]),
   fun cargs => ifNotNil opt.CpuShares cargs fun cargs =>
      (deref opt.CpuShares).bind fun v => some (cargs ++ [bytes "--cpu-shares=" ++ fmt.Sprint v]),
   fun cargs => ifNotNil opt.CpusetCpus cargs fun cargs =>
      (deref opt.CpusetCpus).bind fun v => some (cargs ++ [bytes "--cpuset-cpus=" ++ fmt.Sprint v]),
   fun cargs => ifNotNil opt.CpusetMems cargs fun cargs =>
      (deref opt.CpusetMems).bind fun v => some (cargs ++ [bytes "--cpuset-mems=" ++ fmt.Sprint v]),
   fun cargs => ifNotNil opt.DisableContentTrust cargs fun cargs =>
      (deref opt.DisableContentTrust).bind fun v => some (cargs ++ [bytes "--disable-content-trust=" ++ fmt.Sprint v]),
   fun cargs => ifNotNil opt.File cargs fun cargs =>
      (deref opt.File).bind fun v => some (cargs ++ [bytes "--file=" ++ fmt.Sprint v]),
   fun cargs => ifNotNil opt.ForceRm cargs fun cargs =>
      (deref opt.ForceRm).bind fun v => some (cargs ++ [bytes "--force-rm=" ++ fmt.Sprint v]),
   fun cargs => ifNotNil opt.Iidfile cargs fun cargs =>
      (deref opt.Iidfile).bind fun v => some (cargs ++ [bytes "--iidfile=" ++ fmt.Sprint v]),
   fun cargs => ifNotNil opt.Isolation cargs fun cargs =>
      (deref opt.Isolation).bind fun v => some (cargs ++ [bytes "--isolation=" ++ fmt.Sprint v]),
   fun cargs => ifNotNil opt.Label cargs fun cargs =>
      some ((rangeOf opt.Label).foldl (fun cargs str => (cargs ++ [bytes "--label"]) ++ [str]) cargs),
   fun cargs => ifNotNil opt.Memory cargs fun cargs =>
      (deref opt.Memory).bind fun v => some (cargs ++ [bytes "--memory=" ++ fmt.Sprint v]),
   fun cargs => ifNotNil opt.MemorySwap cargs fun cargs =>
      (deref opt.MemorySwap).bind fun v => some (cargs ++ [bytes "--memory-swap=" ++ fmt.Sprint v]),
   fun cargs => ifNotNil opt.Network cargs fun cargs =>
      (deref opt.Network).bind fun v => some (cargs ++ [bytes "--network=" ++ fmt.Sprint v]),
   fun cargs => ifNotNil opt.NoCache cargs fun cargs =>
      (deref opt.NoCache).bind fun v => some (cargs ++ [bytes "--no-cache=" ++ fmt.Sprint v]),
   fun cargs => ifNotNil opt.Output cargs fun cargs =>
      (deref opt.Output).bind fun v => some (cargs ++ [bytes "--output=" ++ fmt.Sprint v]),
   fun cargs => ifNotNil opt.Platform cargs fun cargs =>
      (deref opt.Platform).bind fun v => some (cargs ++ [bytes "--platform=" ++ fmt.Sprint v]),
   fun cargs => ifNotNil opt.Progress cargs fun cargs =>
      (deref opt.Progress).bind fun v => some (cargs ++ [bytes "--progress=" ++ fmt.Sprint v]),
   fun cargs => ifNotNil opt.Pull cargs fun cargs =>
      (deref opt.Pull).bind fun v => some (cargs ++ [bytes "--pull=" ++ fmt.Sprint v]),
   fun cargs => ifNotNil opt.Quiet cargs fun cargs =>
      (deref opt.Quiet).bind fun v => some (cargs ++ [bytes "--quiet=" ++ fmt.Sprint v]),
   fun cargs => ifNotNil opt.Rm cargs fun cargs =>
      (deref opt.Rm).bind fun v => some (cargs ++ [bytes "--rm=" ++ fmt.Sprint v]),
   fun cargs => ifNotNil opt.Secret cargs fun cargs =>
      (deref opt.Secret).bind fun v => some (cargs ++ [bytes "--secret=" ++ fmt.Sprint v]),
   fun cargs => ifNotNil opt.SecurityOpt cargs fun cargs =>
      (deref opt.SecurityOpt).bind fun v => some (cargs ++ [bytes "--security-opt=" ++ fmt.Sprint v]),
   fun cargs => ifNotNil opt.ShmSize cargs fun cargs =>
      (deref opt.ShmSize).bind fun v => some (cargs ++ [bytes "--shm-size=" ++ fmt.Sprint v]),
   fun cargs => ifNotNil opt.Squash cargs fun cargs =>
      (deref opt.Squash).bind fun v => some (cargs ++ [bytes "--squash=" ++ fmt.Sprint v]),
   fun cargs => ifNotNil opt.Ssh cargs fun cargs =>
      (deref opt.Ssh).bind fun v => some (cargs ++ [bytes "--ssh=" ++ fmt.Sprint v]),
   fun cargs => ifNotNil opt.Stream cargs fun cargs =>
      (deref opt.Stream).bind fun v => some (cargs ++ [bytes "--stream=" ++ fmt.Sprint v]),
   fun cargs => ifNotNil opt.Tag cargs fun cargs =>
      some ((rangeOf opt.Tag).foldl (fun cargs str => (cargs ++ [bytes "--tag"]) ++ [str]) cargs),
   fun cargs => ifNotNil opt.Target cargs fun cargs =>
      (deref opt.Target).bind fun v => some (cargs ++ [bytes "--target=" ++ fmt.Sprint v]),
   fun cargs => ifNotNil opt.Ulimit cargs fun cargs =>
      (deref opt.Ulimit).bind fun v => some (cargs ++ [bytes "--ulimit=" ++ fmt.Sprint v]),
   fun cargs => some (cargs ++ rangeOf args)]

/-- Builder `DockerBuildCmd` of `docker/docker.go` run statement by statement: `none` when a
statement panics. -/
def DockerBuildCmdSteps (opt : DockerBuildOption) (args : Option (List GoString)) :
    Option exec.Cmd :=
  match runStatements (DockerBuildCmdStatements opt args) [bytes "build"] with
  | none => none
  | some cargs => some (exec.Command (bytes "docker") cargs)

/-- Record `DockerSwarmJoinTokenOption` of `docker/docker.go`: a nil pointer, slice or map is `none`. -/
structure DockerSwarmJoinTokenOption where
  Quiet : Option Bool := none
  Rotate : Option Bool := none

/-- Builder `DockerSwarmJoinTokenCmd` of `docker/docker.go`. -/
def DockerSwarmJoinTokenCmd (opt : DockerSwarmJoinTokenOption) (args : List GoString) : exec.Cmd :=
  let cargs : List GoString := [bytes "swarm", bytes "join-token"]
  let cargs := ifSet opt.Quiet cargs fun v cargs => cargs ++ [bytes "--quiet=" ++ fmt.Sprint v]
  let cargs := ifSet opt.Rotate cargs fun v cargs => cargs ++ [bytes "--rotate=" ++ fmt.Sprint v]
  let cargs := cargs ++ args
  exec.Command (bytes "docker") cargs

/-- Record `DockerImageBuildOption` of `docker/docker.go`: a nil pointer, slice or map is `none`. -/
structure DockerImageBuildOption where
  AddHost : Option (List GoString) := none
  BuildArg : Option (List GoString) := none
  CacheFrom : Option GoString := none
  CgroupParent : Option GoString := none
  Compress : Option Bool := none
  CpuPeriod : Option Int := none
  CpuQuota : Option Int := none
  CpuShares : Option Int := none
  CpusetCpus : Option GoString := none
  CpusetMems : Option GoString := none
  DisableContentTrust : Option Bool := none
  File : Option GoString := none
  ForceRm : Option Bool := none
  Iidfile : Option GoString := none
  Isolation : Option GoString := none
  Label : Option (List GoString) := none
  Memory : Option GoString := none
  MemorySwap : Option GoString := none
  Network : Option GoString := none
  NoCache : Option Bool := none
  Output : Option GoString := none
  Platform : Option GoString := none
  Progress : Option GoString := none
  Pull : Option Bool := none
  Quiet : Option Bool := none
  Rm : Option Bool := none
  Secret : Option GoString := none
  SecurityOpt : Option GoString := none
  ShmSize : Option GoString := none
  Squash : Option Bool := none
  Ssh : Option GoString := none
  Stream : Option Bool := none
  Tag : Option (List GoString) := none
  Target : Option GoString := none
  Ulimit : Option GoString := none

/-- Builder `DockerImageBuildCmd` of `docker/docker.go`. -/
def DockerImageBuildCmd (opt : DockerImageBuildOption) (args : List GoString) : exec.Cmd :=
  let cargs : List GoString := [bytes "image", bytes "build"]
  let cargs := ifSet opt.AddHost cargs fun l cargs => l.foldl (fun cargs str => (cargs ++ [bytes "--add-host"]) ++ [str]) cargs
  let cargs := ifSet opt.BuildArg cargs fun l cargs => l.foldl (fun cargs str => (cargs ++ [bytes "--build-arg"]) ++ [str]) cargs
  let cargs := ifSet opt.CacheFrom cargs fun v cargs => cargs ++ [bytes "--cache-from=" ++ fmt.Sprint v]
  let cargs := ifSet opt.CgroupParent cargs fun v cargs => cargs ++ [bytes "--cgroup-parent=" ++ fmt.Sprint v]
  let cargs := ifSet opt.Compress cargs fun v cargs => cargs ++ [bytes "--compress=" ++ fmt.Sprint v]
  let cargs := ifSet opt.CpuPeriod cargs fun v cargs => cargs ++ [bytes "--cpu-period=" ++ fmt.Sprint v]
  let cargs := ifSet opt.CpuQuota cargs fun v cargs => cargs ++ [bytes "--cpu-quota=" ++ fmt.Sprint v]
  let cargs := ifSet opt.CpuShares cargs fun v cargs => cargs ++ [bytes "--cpu-shares=" ++ fmt.Sprint v]
  let cargs := ifSet opt.CpusetCpus cargs fun v cargs => cargs ++ [bytes "--cpuset-cpus=" ++ fmt.Sprint v]
  let cargs := ifSet opt.CpusetMems cargs fun v cargs => cargs ++ [bytes "--cpuset-mems=" ++ fmt.Sprint v]
  let cargs := ifSet opt.DisableContentTrust cargs fun v cargs => cargs ++ [bytes "--disable-content-trust=" ++ fmt.Sprint v]
  let cargs := ifSet opt.File cargs fun v cargs => cargs ++ [bytes "--file=" ++ fmt.Sprint v]
  let cargs := ifSet opt.ForceRm cargs fun v cargs => cargs ++ [bytes "--force-rm=" ++ fmt.Sprint v]
  let cargs := ifSet opt.Iidfile cargs fun v cargs => cargs ++ [bytes "--iidfile=" ++ fmt.Sprint v]
  let cargs := ifSet opt.Isolation cargs fun v cargs => cargs ++ [bytes "--isolation=" ++ fmt.Sprint v]
  let cargs := ifSet opt.Label cargs fun l cargs => l.foldl (fun cargs str => (cargs ++ [bytes "--label"]) ++ [str]) cargs
  let cargs := ifSet opt.Memory cargs fun v cargs => cargs ++ [bytes "--memory=" ++ fmt.Sprint v]
  let cargs := ifSet opt.MemorySwap cargs fun v cargs => cargs ++ [bytes "--memory-swap=" ++ fmt.Sprint v]
  let cargs := ifSet opt.Network cargs fun v cargs => cargs ++ [bytes "--network=" ++ fmt.Sprint v]
  let cargs := ifSet opt.NoCache cargs fun v cargs => cargs ++ [bytes "--no-cache=" ++ fmt.Sprint v]
  let cargs := ifSet opt.Output cargs fun v cargs => cargs ++ [bytes "--output=" ++ fmt.Sprint v]
  let cargs := ifSet opt.Platform cargs fun v cargs => cargs ++ [bytes "--platform=" ++ fmt.Sprint v]
  let cargs := ifSet opt.Progress cargs fun v cargs => cargs ++ [bytes "--progress=" ++ fmt.Sprint v]
  let cargs := ifSet opt.Pull cargs fun v cargs => cargs ++ [bytes "--pull=" ++ fmt.Sprint v]
  let cargs := ifSet opt.Quiet cargs fun v cargs => cargs ++ [bytes "--quiet=" ++ fmt.Sprint v]
  let cargs := ifSet opt.Rm cargs fun v cargs => cargs ++ [bytes "--rm=" ++ fmt.Sprint v]
  let cargs := ifSet opt.Secret cargs fun v cargs => cargs ++ [bytes "--secret=" ++ fmt.Sprint v]
  let cargs := ifSet opt.SecurityOpt cargs fun v cargs => cargs ++ [bytes "--security-opt=" ++ fmt.Sprint v]
  let cargs := ifSet opt.ShmSize cargs fun v cargs => cargs ++ [bytes "--shm-size=" ++ fmt.Sprint v]
  let cargs := ifSet opt.Squash cargs fun v cargs => cargs ++ [bytes "--squash=" ++ fmt.Sprint v]
  let cargs := ifSet opt.Ssh cargs fun v cargs => cargs ++ [bytes "--ssh=" ++ fmt.Sprint v]
  let cargs := ifSet opt.Stream cargs fun v cargs => cargs ++ [bytes "--stream=" ++ fmt.Sprint v]
  let cargs := ifSet opt.Tag cargs fun l cargs => l.foldl (fun cargs str => (cargs ++ [bytes "--tag"]) ++ [str]) cargs
  let cargs := ifSet opt.Target cargs fun v cargs => cargs ++ [bytes "--target=" ++ fmt.Sprint v]
  let cargs := ifSet opt.Ulimit cargs fun v cargs => cargs ++ [bytes "--ulimit=" ++ fmt.Sprint v]
  let cargs := cargs ++ args
  exec.Command (bytes "docker") cargs

/-- Record `DockerStopOption` of `docker/docker.go`: a nil pointer, slice or map is `none`. -/
structure DockerStopOption where
  Time : Option Int := none

/-- Builder `DockerStopCmd` of `docker/docker.go`. -/
def DockerStopCmd (opt : DockerStopOption) (args : List GoString) : exec.Cmd :=
  let cargs : List GoString := [bytes "stop"]
  let cargs := ifSet opt.Time cargs fun v cargs => cargs ++ [bytes "--time=" ++ fmt.Sprint v]
  let cargs := cargs ++ args
  exec.Command (bytes "docker") cargs

/-- The value of `DockerImageBuildOption` with the same assignment of the fields as a value of
`DockerBuildOption`: the two records declare the same fields with the same types. -/
def imageBuildOptionOf (opt : DockerBuildOption) : DockerImageBuildOption :=
  { AddHost := opt.AddHost, BuildArg := opt.BuildArg, CacheFrom := opt.CacheFrom,
    CgroupParent := opt.CgroupParent, Compress := opt.Compress, CpuPeriod := opt.CpuPeriod,
    CpuQuota := opt.CpuQuota, CpuShares := opt.CpuShares, CpusetCpus := opt.CpusetCpus,
    CpusetMems := opt.CpusetMems, DisableContentTrust := opt.DisableContentTrust,
    File := opt.File, ForceRm := opt.ForceRm, Iidfile := opt.Iidfile, Isolation := opt.Isolation,
    Label := opt.Label, Memory := opt.Memory, MemorySwap := opt.MemorySwap,
    Network := opt.Network, NoCache := opt.NoCache, Output := opt.Output,
    Platform := opt.Platform, Progress := opt.Progress, Pull := opt.Pull, Quiet := opt.Quiet,
    Rm := opt.Rm, Secret := opt.Secret, SecurityOpt := opt.SecurityOpt, ShmSize := opt.ShmSize,
    Squash := opt.Squash, Ssh := opt.Ssh, Stream := opt.Stream, Tag := opt.Tag,
    Target := opt.Target, Ulimit := opt.Ulimit }

/-- The value of `DockerBuildOption` with the same assignment of the fields as a value of
`DockerImageBuildOption`. -/
def buildOptionOf (opt : DockerImageBuildOption) : DockerBuildOption :=
  { AddHost := opt.AddHost, BuildArg := opt.BuildArg, CacheFrom := opt.CacheFrom,
    CgroupParent := opt.CgroupParent, Compress := opt.Compress, CpuPeriod := opt.CpuPeriod,
    CpuQuota := opt.CpuQuota, CpuShares := opt.CpuShares, CpusetCpus := opt.CpusetCpus,
    CpusetMems := opt.CpusetMems, DisableContentTrust := opt.DisableContentTrust,
    File := opt.File, ForceRm := opt.ForceRm, Iidfile := opt.Iidfile, Isolation := opt.Isolation,
    Label := opt.Label, Memory := opt.Memory, MemorySwap := opt.MemorySwap,
    Network := opt.Network, NoCache := opt.NoCache, Output := opt.Output,
    Platform := opt.Platform, Progress := opt.Progress, Pull := opt.Pull, Quiet := opt.Quiet,
    Rm := opt.Rm, Secret := opt.Secret, SecurityOpt := opt.SecurityOpt, ShmSize := opt.ShmSize,
    Squash := opt.Squash, Ssh := opt.Ssh, Stream := opt.Stream, Tag := opt.Tag,
    Target := opt.Target, Ulimit := opt.Ulimit }

/-- The value of `DockerContainerStopOption` with the same assignment of the field `Time` as a
value of `DockerStopOption`. -/
def containerStopOptionOf (opt : DockerStopOption) : DockerContainerStopOption :=
  { Time := opt.Time }

/-- The value of `DockerStopOption` with the same assignment of the field `Time` as a value of
`DockerContainerStopOption`. -/
def stopOptionOf (opt : DockerContainerStopOption) : DockerStopOption :=
  { Time := opt.Time }

/-- The entries a pointer field contributes: none when it is nil, and the one entry
`flagEq ++ fmt.Sprint v` when it points to `v`. -/
def scalarEntries {α : Type} [fmt.Sprintable α] (flagEq : GoString) : Option α → List GoString
  | none => []
  | some v => [flagEq ++ fmt.Sprint v]

/-- The entries a slice field contributes: for each element in order, the flag token
and then the element. -/
def listEntries (flag : GoString) : Option (List GoString) → List GoString
  | none => []
  | some l => l.flatMap fun str => [flag, str]

/-- The entries a map field contributes when its entries are enumerated in the order
listed: for each entry, the flag token and then key, `=`, value. -/
def mapEntries (flag : GoString) : Option GoMap → List GoString
  | none => []
  | some m => m.flatMap fun kv => [flag, kv.1 ++ bytes "=" ++ kv.2]

/-- The entries of a list at the even indices 0, 2, 4, ... -/
def evenEntries {α : Type} : List α → List α
  | [] => []
  | [a] => [a]
  | a :: _ :: rest => a :: evenEntries rest

/-- The entries of a list at the odd indices 1, 3, 5, ... -/
def oddEntries {α : Type} : List α → List α
  | [] => []
  | [_] => []
  | _ :: b :: rest => b :: oddEntries rest

end Docker

/-! ## The rendering blocks of the builders -/

namespace Docker

theorem foldl_append_entries {β : Type} (g : β → List GoString) (l : List β)
    (cargs : List GoString) :
    l.foldl (fun cargs x => cargs ++ g x) cargs = cargs ++ l.flatMap g := by
  induction l generalizing cargs with
  | nil => simp
  | cons x xs ih => simp [ih, List.append_assoc]

theorem ifSet_scalar {α : Type} [fmt.Sprintable α] (flagEq : GoString) (f : Option α)
    (cargs : List GoString) :
    ifSet f cargs (fun v cargs => cargs ++ [flagEq ++ fmt.Sprint v])
      = cargs ++ scalarEntries flagEq f := by
  cases f <;> simp [ifSet, scalarEntries]

theorem ifSet_list (flag : GoString) (f : Option (List GoString)) (cargs : List GoString) :
    ifSet f cargs (fun l cargs => l.foldl (fun cargs str => (cargs ++ [flag]) ++ [str]) cargs)
      = cargs ++ listEntries flag f := by
  cases f with
  | none => simp [ifSet, listEntries]
  | some l =>
    have h := foldl_append_entries (fun str => [flag, str]) l cargs
    simpa [ifSet, listEntries, List.append_assoc] using h

theorem ifSet_map (flag : GoString) (f : Option GoMap) (cargs : List GoString) :
    ifSet f cargs (fun m cargs =>
        m.foldl (fun cargs kv => (cargs ++ [flag]) ++ [kv.1 ++ bytes "=" ++ kv.2]) cargs)
      = cargs ++ mapEntries flag f := by
  cases f with
  | none => simp [ifSet, mapEntries]
  | some m =>
    have h := foldl_append_entries
      (fun kv : GoString × GoString => [flag, kv.1 ++ bytes "=" ++ kv.2]) m cargs
    simpa [ifSet, mapEntries, List.append_assoc] using h

theorem length_flatMap_pair {β : Type} (g h : β → GoString) (l : List β) :
    (l.flatMap fun x => [g x, h x]).length = 2 * l.length := by
  induction l with
  | nil => rfl
  | cons x xs ih =>
    show (g x :: h x :: xs.flatMap fun x => [g x, h x]).length = 2 * (xs.length + 1)
    simp only [List.length_cons, ih]
    omega

theorem evenEntries_flatMap_pair {β : Type} (g h : β → GoString) (l : List β) :
    evenEntries (l.flatMap fun x => [g x, h x]) = l.map g := by
  induction l with
  | nil => rfl
  | cons x xs ih =>
    show evenEntries (g x :: h x :: xs.flatMap fun x => [g x, h x]) = g x :: xs.map g
    rw [evenEntries, ih]

theorem oddEntries_flatMap_pair {β : Type} (g h : β → GoString) (l : List β) :
    oddEntries (l.flatMap fun x => [g x, h x]) = l.map h := by
  induction l with
  | nil => rfl
  | cons x xs ih =>
    show oddEntries (g x :: h x :: xs.flatMap fun x => [g x, h x]) = h x :: xs.map h
    rw [oddEntries, ih]

/-- The argument vector of `DockerCmd`: the subcommand tokens, the entries of each field in
declaration order, the positionals. -/
theorem DockerCmd_eq (opt : DockerOption) (args : List GoString) :
    DockerCmd opt args = exec.Command (bytes "docker")
      ([]
        ++ scalarEntries (bytes "--config=") opt.Config
        ++ scalarEntries (bytes "--context=") opt.Context
        ++ scalarEntries (bytes "--debug=") opt.Debug
        ++ listEntries (bytes "--host") opt.Host
        ++ scalarEntries (bytes "--log-level=") opt.LogLevel
        ++ scalarEntries (bytes "--tls=") opt.Tls
        ++ scalarEntries (bytes "--tlscacert=") opt.Tlscacert
        ++ scalarEntries (bytes "--tlscert=") opt.Tlscert
        ++ scalarEntries (bytes "--tlskey=") opt.Tlskey
        ++ scalarEntries (bytes "--tlsverify=") opt.Tlsverify
        ++ scalarEntries (bytes "--version=") opt.Version
        ++ args) := by
  simp only [DockerCmd, ifSet_scalar, ifSet_list, ifSet_map]

/-- The argument vector of `DockerAttachCmd`: the subcommand tokens, the entries of each field in
declaration order, the positionals. -/
theorem DockerAttachCmd_eq (opt : DockerAttachOption) (args : List GoString) :
    DockerAttachCmd opt args = exec.Command (bytes "docker")
      ([bytes "attach"]
        ++ scalarEntries (bytes "--detach-keys=") opt.DetachKeys
        ++ scalarEntries (bytes "--no-stdin=") opt.NoStdin
        ++ scalarEntries (bytes "--sig-proxy=") opt.SigProxy
        ++ args) := by
  simp only [DockerAttachCmd, ifSet_scalar, ifSet_list, ifSet_map]

/-- The argument vector of `DockerBuildCmd`: the subcommand tokens, the entries of each field in
declaration order, the positionals. -/
theorem DockerBuildCmd_eq (opt : DockerBuildOption) (args : List GoString) :
    DockerBuildCmd opt args = exec.Command (bytes "docker")
      ([bytes "build"]
        ++ listEntries (bytes "--add-host") opt.AddHost
        ++ listEntries (bytes "--build-arg") opt.BuildArg
        ++ scalarEntries (bytes "--cache-from=") opt.CacheFrom
        ++ scalarEntries (bytes "--cgroup-parent=") opt.CgroupParent
        ++ scalarEntries (bytes "--compress=") opt.Compress
        ++ scalarEntries (bytes "--cpu-period=") opt.CpuPeriod
        ++ scalarEntries (bytes "--cpu-quota=") opt.CpuQuota
        ++ scalarEntries (bytes "--cpu-shares=") opt.CpuShares
        ++ scalarEntries (bytes "--cpuset-cpus=") opt.CpusetCpus
        ++ scalarEntries (bytes "--cpuset-mems=") opt.CpusetMems
        ++ scalarEntries (bytes "--disable-content-trust=") opt.DisableContentTrust
        ++ scalarEntries (bytes "--file=") opt.File
        ++ scalarEntries (bytes "--force-rm=") opt.ForceRm
        ++ scalarEntries (bytes "--iidfile=") opt.Iidfile
        ++ scalarEntries (bytes "--isolation=") opt.Isolation
        ++ listEntries (bytes "--label") opt.Label
        ++ scalarEntries (bytes "--memory=") opt.Memory
        ++ scalarEntries (bytes "--memory-swap=") opt.MemorySwap
        ++ scalarEntries (bytes "--network=") opt.Network
        ++ scalarEntries (bytes "--no-cache=") opt.NoCache
        ++ scalarEntries (bytes "--output=") opt.Output
        ++ scalarEntries (bytes "--platform=") opt.Platform
        ++ scalarEntries (bytes "--progress=") opt.Progress
        ++ scalarEntries (bytes "--pull=") opt.Pull
        ++ scalarEntries (bytes "--quiet=") opt.Quiet
        ++ scalarEntries (bytes "--rm=") opt.Rm
        ++ scalarEntries (bytes "--secret=") opt.Secret
        ++ scalarEntries (bytes "--security-opt=") opt.SecurityOpt
        ++ scalarEntries (bytes "--shm-size=") opt.ShmSize
        ++ scalarEntries (bytes "--squash=") opt.Squash
        ++ scalarEntries (bytes "--ssh=") opt.Ssh
        ++ scalarEntries (bytes "--stream=") opt.Stream
        ++ listEntries (bytes "--tag") opt.Tag
        ++ scalarEntries (bytes "--target=") opt.Target
        ++ scalarEntries (bytes "--ulimit=") opt.Ulimit
        ++ args) := by
  simp only [DockerBuildCmd, ifSet_scalar, ifSet_list, ifSet_map]

/-- The argument vector of `DockerContainerStopCmd`: the subcommand tokens, the entries of each field in
declaration order, the positionals. -/
theorem DockerContainerStopCmd_eq (opt : DockerContainerStopOption) (args : List GoString) :
    DockerContainerStopCmd opt args = exec.Command (bytes "docker")
      ([bytes "container", bytes "stop"]
        ++ scalarEntries (bytes "--time=") opt.Time
        ++ args) := by
  simp only [DockerContainerStopCmd, ifSet_scalar, ifSet_list, ifSet_map]

/-- The argument vector of `DockerNetworkCreateCmd`: the subcommand tokens, the entries of each field in
declaration order, the positionals. -/
theorem DockerNetworkCreateCmd_eq (opt : DockerNetworkCreateOption) (args : List GoString) :
    DockerNetworkCreateCmd opt args = exec.Command (bytes "docker")
      ([bytes "network", bytes "create"]
        ++ scalarEntries (bytes "--attachable=") opt.Attachable
        ++ mapEntries (bytes "--aux-address") opt.AuxAddress
        ++ scalarEntries (bytes "--config-from=") opt.ConfigFrom
        ++ scalarEntries (bytes "--config-only=") opt.ConfigOnly
        ++ scalarEntries (bytes "--driver=") opt.Driver
        ++ scalarEntries (bytes "--gateway=") opt.Gateway
        ++ scalarEntries (bytes "--ingress=") opt.Ingress
        ++ scalarEntries (bytes "--internal=") opt.Internal
        ++ scalarEntries (bytes "--ip-range=") opt.IpRange
        ++ scalarEntries (bytes "--ipam-driver=") opt.IpamDriver
        ++ mapEntries (bytes "--ipam-opt") opt.IpamOpt
        ++ scalarEntries (bytes "--ipv6=") opt.Ipv6
        ++ listEntries (bytes "--label") opt.Label
        ++ mapEntries (bytes "--opt") opt.Opt
        ++ scalarEntries (bytes "--scope=") opt.Scope
        ++ scalarEntries (bytes "--subnet=") opt.Subnet
        ++ args) := by
  simp only [DockerNetworkCreateCmd, ifSet_scalar, ifSet_list, ifSet_map]

/-- The argument vector of `DockerVersionCmd`: the subcommand tokens, the entries of each field in
declaration order, the positionals. -/
theorem DockerVersionCmd_eq (opt : DockerVersionOption) (args : List GoString) :
    DockerVersionCmd opt args = exec.Command (bytes "docker")
      ([bytes "version"]
        ++ scalarEntries (bytes "--format=") opt.Format
        ++ scalarEntries (bytes "--kubeconfig=") opt.Kubeconfig
        ++ args) := by
  simp only [DockerVersionCmd, ifSet_scalar, ifSet_list, ifSet_map]

/-- The argument vector of `DockerVolumeCreateCmd`: the subcommand tokens, the entries of each field in
declaration order, the positionals. -/
theorem DockerVolumeCreateCmd_eq (opt : DockerVolumeCreateOption) (args : List GoString) :
    DockerVolumeCreateCmd opt args = exec.Command (bytes "docker")
      ([bytes "volume", bytes "create"]
        ++ scalarEntries (bytes "--driver=") opt.Driver
        ++ listEntries (bytes "--label") opt.Label
        ++ scalarEntries (bytes "--name=") opt.Name
        ++ mapEntries (bytes "--opt") opt.Opt
        ++ args) := by
  simp only [DockerVolumeCreateCmd, ifSet_scalar, ifSet_list, ifSet_map]

/-! ## The argument vectors of the builders -/

/-- C1: `DockerBuildCmd` with `NoCache` set to true, `Tag` set to `["a:1","b:2"]`, every
other field unset and the positionals `["."]` hands `exec.Command` exactly the
argument vector `["build","--no-cache=true","--tag","a:1","--tag","b:2","."]`. -/
theorem DockerBuildCmd_no_cache_two_tags :
    DockerBuildCmd { NoCache := some true, Tag := some [bytes "a:1", bytes "b:2"] } [bytes "."]
      = exec.Command (bytes "docker")
          [bytes "build", bytes "--no-cache=true", bytes "--tag", bytes "a:1",
            bytes "--tag", bytes "b:2", bytes "."] := by
  decide

/-- C2: with every option field unset a builder returns its subcommand token followed by
the positionals, for every list of positionals: `"build" :: args` for
`DockerBuildCmd` (so `["build","."]` for `["."]`) and `"version" :: args` for
`DockerVersionCmd` (so `["version"]` for none). -/
theorem unset_options_give_subcommand_then_args :
    (∀ args : List GoString,
        DockerBuildCmd {} args = exec.Command (bytes "docker") (bytes "build" :: args))
    ∧ (∀ args : List GoString,
        DockerVersionCmd {} args = exec.Command (bytes "docker") (bytes "version" :: args))
    ∧ DockerBuildCmd {} [bytes "."] = exec.Command (bytes "docker") [bytes "build", bytes "."]
    ∧ DockerVersionCmd {} [] = exec.Command (bytes "docker") [bytes "version"] := by
  refine ⟨fun args => ?_, fun args => ?_, by decide, by decide⟩
  · rw [DockerBuildCmd_eq]; rfl
  · rw [DockerVersionCmd_eq]; rfl

/-- C3: for every integer `t` and all positionals `args`, `DockerContainerStopCmd` with
`Time` set to `t` returns `["container","stop","--time=" ++ decimal t] ++ args`, the
decimal text being the base-10 digits of `t` after a `-` when `t` is negative; with
`Time` 10 and `["c1","c2"]` that is `["container","stop","--time=10","c1","c2"]`. -/
theorem DockerContainerStopCmd_time_entry :
    (∀ (t : Int) (args : List GoString),
        DockerContainerStopCmd { Time := some t } args
          = exec.Command (bytes "docker")
              ([bytes "container", bytes "stop", bytes "--time=" ++ bytes (toString t)] ++ args))
    ∧ DockerContainerStopCmd { Time := some 10 } [bytes "c1", bytes "c2"]
        = exec.Command (bytes "docker")
            [bytes "container", bytes "stop", bytes "--time=10", bytes "c1", bytes "c2"]
    ∧ DockerContainerStopCmd { Time := some (-3) } []
        = exec.Command (bytes "docker") [bytes "container", bytes "stop", bytes "--time=-3"] := by
  refine ⟨fun t args => ?_, by decide, by decide⟩
  rw [DockerContainerStopCmd_eq]; rfl

/-- C4: whatever the options (fields set or unset, lists and maps of any size, maps
enumerated in any order) and the positionals, the argument vector of
`DockerNetworkCreateCmd` begins with `["network","create"]`, the name path
`["docker","network","create"]` of its node without the first element. -/
theorem DockerNetworkCreateCmd_begins_with_path (opt : DockerNetworkCreateOption)
    (args : List GoString) :
    (∃ rest : List GoString,
      DockerNetworkCreateCmd opt args
        = exec.Command (bytes "docker") ([bytes "network", bytes "create"] ++ rest))
    ∧ List.drop 1 [bytes "docker", bytes "network", bytes "create"]
        = [bytes "network", bytes "create"] := by
  refine ⟨?_, rfl⟩
  rw [DockerNetworkCreateCmd_eq]
  simp only [List.append_assoc]
  exact ⟨_, rfl⟩

/-- C6: for all options and positionals `DockerAttachCmd` returns `["attach"]`, then the
entries of `DetachKeys`, `NoStdin` and `SigProxy` in this order, then the
positionals, where a field contributes no entry when unset and the single entry
`--<long-name>=<value>` when set. -/
theorem DockerAttachCmd_scalar_entries (opt : DockerAttachOption) (args : List GoString) :
    DockerAttachCmd opt args
        = exec.Command (bytes "docker")
            ([bytes "attach"]
              ++ (match opt.DetachKeys with
                  | none => []
                  | some v => [bytes "--detach-keys=" ++ v])
              ++ (match opt.NoStdin with
                  | none => []
                  | some v => [bytes "--no-stdin=" ++ (if v then bytes "true" else bytes "false")])
              ++ (match opt.SigProxy with
                  | none => []
                  | some v => [bytes "--sig-proxy=" ++ (if v then bytes "true" else bytes "false")])
              ++ args) := by
  rw [DockerAttachCmd_eq]
  cases opt.DetachKeys <;> cases opt.NoStdin <;> cases opt.SigProxy <;> rfl

/-- C7: a scalar set to the zero value of its type is rendered, not dropped: `NoStdin`
set to false gives `--no-stdin=false`, `Time` set to 0 gives `--time=0`, and `Format`
set to the empty string gives `--format=`. -/
theorem zero_valued_scalars_are_rendered (args : List GoString) :
    DockerAttachCmd { NoStdin := some false } args
        = exec.Command (bytes "docker") ([bytes "attach", bytes "--no-stdin=false"] ++ args)
    ∧ DockerContainerStopCmd { Time := some 0 } args
        = exec.Command (bytes "docker")
            ([bytes "container", bytes "stop", bytes "--time=0"] ++ args)
    ∧ DockerVersionCmd { Format := some (bytes "") } args
        = exec.Command (bytes "docker") ([bytes "version", bytes "--format="] ++ args) := by
  refine ⟨?_, ?_, ?_⟩
  · rw [DockerAttachCmd_eq]
    have h : bytes "--no-stdin=" ++ bytes "false" = bytes "--no-stdin=false" := by decide
    simp [scalarEntries, fmt.Sprint, h]
  · rw [DockerContainerStopCmd_eq]
    have h : bytes "--time=" ++ bytes (toString (0 : Int)) = bytes "--time=0" := by decide
    simp [scalarEntries, fmt.Sprint, h]
  · rw [DockerVersionCmd_eq]
    have h : bytes "--format=" ++ bytes "" = bytes "--format=" := by decide
    simp [scalarEntries, listEntries, fmt.Sprint, h]

/-- C8: for every list `tags` and all positionals `args`, `DockerBuildCmd` with only `Tag`
set to `tags` returns `["build"]`, then for each element `t` of `tags` in order the
two entries `--tag`, `t`, then `args`: the list contributes twice as many entries as
it has elements, the flag token at every even index and the elements, verbatim and
in order, at the odd ones. -/
theorem DockerBuildCmd_tag_fan_out (tags args : List GoString) :
    DockerBuildCmd { Tag := some tags } args
        = exec.Command (bytes "docker")
            ([bytes "build"] ++ (tags.flatMap fun t => [bytes "--tag", t]) ++ args)
    ∧ (tags.flatMap fun t => [bytes "--tag", t]).length = 2 * tags.length
    ∧ evenEntries (tags.flatMap fun t => [bytes "--tag", t])
        = List.replicate tags.length (bytes "--tag")
    ∧ oddEntries (tags.flatMap fun t => [bytes "--tag", t]) = tags := by
  refine ⟨?_, ?_, ?_, ?_⟩
  · rw [DockerBuildCmd_eq]
    simp [scalarEntries, listEntries]
  · exact length_flatMap_pair (fun _ => bytes "--tag") (fun t => t) tags
  · rw [evenEntries_flatMap_pair (fun _ => bytes "--tag") (fun t => t) tags]
    simp
  · rw [oddEntries_flatMap_pair (fun _ => bytes "--tag") (fun t => t) tags]
    simp

/-- C9: let `m` list the `n` entries of a map and `order` be any order in which `range`
enumerates them. `DockerVolumeCreateCmd` with only `Opt` set to that map returns
`["volume","create"] ++ F ++ args` where `F` has `2 * n` entries, every even-indexed
entry of `F` is `--opt`, and the odd-indexed entries are the texts
`key ++ "=" ++ value` in the order of enumeration, hence those of the entries of `m`,
each exactly once. -/
theorem DockerVolumeCreateCmd_opt_fan_out (m order : GoMap) (args : List GoString)
    (h : order.Perm m) :
    ∃ F : List GoString,
      DockerVolumeCreateCmd { Opt := some order } args
          = exec.Command (bytes "docker") ([bytes "volume", bytes "create"] ++ F ++ args)
      ∧ F.length = 2 * m.length
      ∧ evenEntries F = List.replicate m.length (bytes "--opt")
      ∧ oddEntries F = order.map (fun kv => kv.1 ++ bytes "=" ++ kv.2)
      ∧ (oddEntries F).Perm (m.map fun kv => kv.1 ++ bytes "=" ++ kv.2) := by
  refine ⟨order.flatMap fun kv => [bytes "--opt", kv.1 ++ bytes "=" ++ kv.2], ?_, ?_, ?_, ?_, ?_⟩
  · rw [DockerVolumeCreateCmd_eq]
    simp [scalarEntries, listEntries, mapEntries]
  · rw [length_flatMap_pair (fun _ => bytes "--opt") (fun kv => kv.1 ++ bytes "=" ++ kv.2) order,
      h.length_eq]
  · rw [evenEntries_flatMap_pair (fun _ => bytes "--opt") (fun kv => kv.1 ++ bytes "=" ++ kv.2)
      order, ← h.length_eq]
    simp
  · exact oddEntries_flatMap_pair (fun _ => bytes "--opt") (fun kv => kv.1 ++ bytes "=" ++ kv.2)
      order
  · rw [oddEntries_flatMap_pair (fun _ => bytes "--opt") (fun kv => kv.1 ++ bytes "=" ++ kv.2)
      order]
    exact h.map _

/-- Witness of C9: a map of two entries enumerated in the other order. -/
theorem DockerVolumeCreateCmd_opt_fan_out_witness :
    List.Perm [(bytes "b", bytes "2"), (bytes "a", bytes "1")]
        [(bytes "a", bytes "1"), (bytes "b", bytes "2")]
    ∧ ∃ F : List GoString,
      DockerVolumeCreateCmd
          { Opt := some [(bytes "b", bytes "2"), (bytes "a", bytes "1")] } [bytes "vol"]
          = exec.Command (bytes "docker")
              ([bytes "volume", bytes "create"] ++ F ++ [bytes "vol"])
      ∧ F.length = 2 * [(bytes "a", bytes "1"), (bytes "b", bytes "2")].length
      ∧ evenEntries F
          = List.replicate [(bytes "a", bytes "1"), (bytes "b", bytes "2")].length (bytes "--opt")
      ∧ oddEntries F
          = [(bytes "b", bytes "2"), (bytes "a", bytes "1")].map
              (fun kv => kv.1 ++ bytes "=" ++ kv.2)
      ∧ (oddEntries F).Perm
          ([(bytes "a", bytes "1"), (bytes "b", bytes "2")].map
            fun kv => kv.1 ++ bytes "=" ++ kv.2) :=
  ⟨List.Perm.swap _ _ _,
    DockerVolumeCreateCmd_opt_fan_out _ _ _ (List.Perm.swap _ _ _)⟩

/-- C10: the positionals are a suffix: for all options `opt` and every list `args`, also
the empty one, the command line of `DockerBuildCmd opt args` is that of
`DockerBuildCmd opt []` followed by `args`, so they follow every flag-derived entry
unmodified and in order and change no earlier entry. -/
theorem DockerBuildCmd_positionals_are_suffix (opt : DockerBuildOption)
    (args : List GoString) :
    (DockerBuildCmd opt args).Args = (DockerBuildCmd opt []).Args ++ args
    ∧ (DockerBuildCmd opt args).Path = (DockerBuildCmd opt []).Path := by
  refine ⟨?_, ?_⟩
  · rw [DockerBuildCmd_eq, DockerBuildCmd_eq]
    simp only [exec.Command, List.append_nil, List.cons_append]
  · rw [DockerBuildCmd_eq, DockerBuildCmd_eq]
    simp only [exec.Command]

end Docker

/-! ## The initialiser the generator writes -/

namespace Generate

theorem writeInitialiser_singleton (root result : GoString) :
    writeInitialiser [root] result = result ++ bytes "\tcargs := []string\x7b\x7d\n" := by
  have h : bytes "\tcargs := []string\x7b" ++ bytes "\x7d\n"
      = bytes "\tcargs := []string\x7b\x7d\n" := by decide
  simp [writeInitialiser, List.enum, List.enumFrom, List.append_assoc, h]

/-- C5: the builder of the root node has no subcommand tokens. For a name path `[root]`
of length 1 the initialiser `generateStructDefinition` writes is
`cargs := []string{}`: the step of the function that writes it does so for every
`root`, and the function, whenever the names of the node and of its flags can be
derived, returns the header of the node, this initialiser, the rendering blocks and
the closing lines. And `DockerCmd` with every option field unset returns exactly the
positionals, the empty vector for none. -/
theorem root_builder_has_no_subcommand_tokens :
    (∀ root result : GoString,
        writeInitialiser [root] result = result ++ bytes "\tcargs := []string\x7b\x7d\n")
    ∧ (∀ (cmd : Command) (root cmdName fields : GoString) (fieldValues : List fieldValue),
        generateCmdName [root] = some cmdName →
        cmd.Flags.foldlM visitFlag (bytes "", []) = some (fields, fieldValues) →
        generateStructDefinition cmd [root]
          = some (fieldValues.foldl writeBlock
                (writeHeader cmd [root] cmdName fields ++ bytes "\tcargs := []string\x7b\x7d\n")
              ++ bytes "\tcargs = append(cargs, args...)\n"
              ++ bytes "\treturn exec.Command(\"docker\", cargs...)\n\x7d\n\n"))
    ∧ (∀ args : List GoString,
        Docker.DockerCmd {} args = exec.Command (bytes "docker") args)
    ∧ Docker.DockerCmd {} [] = exec.Command (bytes "docker") [] := by
  refine ⟨writeInitialiser_singleton, ?_, fun args => ?_, by decide⟩
  · intro cmd root cmdName fields fieldValues hname hflags
    simp only [generateStructDefinition, hname, hflags, writeInitialiser_singleton]
  · rw [Docker.DockerCmd_eq]; rfl

/-- Witness of C5: the root command `docker` with its flag `debug`. -/
theorem root_builder_has_no_subcommand_tokens_witness :
    generateCmdName [bytes "docker"] = some (bytes "Docker")
    ∧ (Command.mk (bytes "docker") (bytes "docker [OPTIONS] COMMAND [ARG...]")
          (bytes "A self-sufficient runtime for containers")
          [{ Name := bytes "debug", Usage := bytes "Enable debug mode",
             ValueType := bytes "bool" }] []).Flags.foldlM visitFlag (bytes "", [])
        = some (bytes "\t/*\n\tEnable debug mode\n\t*/\n\tDebug *bool\n\n",
            [{ flag := bytes "debug", name := bytes "Debug", typ := bytes "*bool" }])
    ∧ generateStructDefinition
          (Command.mk (bytes "docker") (bytes "docker [OPTIONS] COMMAND [ARG...]")
            (bytes "A self-sufficient runtime for containers")
            [{ Name := bytes "debug", Usage := bytes "Enable debug mode",
               ValueType := bytes "bool" }] [])
          [bytes "docker"]
        = some ([{ flag := bytes "debug", name := bytes "Debug", typ := bytes "*bool" }].foldl
              writeBlock
                (writeHeader
                    (Command.mk (bytes "docker") (bytes "docker [OPTIONS] COMMAND [ARG...]")
                      (bytes "A self-sufficient runtime for containers")
                      [{ Name := bytes "debug", Usage := bytes "Enable debug mode",
                         ValueType := bytes "bool" }] [])
                    [bytes "docker"] (bytes "Docker")
                    (bytes "\t/*\n\tEnable debug mode\n\t*/\n\tDebug *bool\n\n")
                  ++ bytes "\tcargs := []string\x7b\x7d\n")
              ++ bytes "\tcargs = append(cargs, args...)\n"
              ++ bytes "\treturn exec.Command(\"docker\", cargs...)\n\x7d\n\n") :=
  ⟨by decide, by decide,
    root_builder_has_no_subcommand_tokens.2.1 _ _ _ _ _ (by decide) (by decide)⟩

set_option maxRecDepth 100000 in
/-- The text generated for the root command `docker` with only its flag `debug`. -/
theorem generateStructDefinition_docker_debug :
    generateStructDefinition
        (Command.mk (bytes "docker") (bytes "docker [OPTIONS] COMMAND [ARG...]")
          (bytes "A self-sufficient runtime for containers")
          [{ Name := bytes "debug", Usage := bytes "Enable debug mode",
             ValueType := bytes "bool" }] [])
        [bytes "docker"]
      = some (bytes ("type DockerOption struct \x7b\n" ++
          "\t/*\n\tEnable debug mode\n\t*/\n\tDebug *bool\n\n\x7d\n\n" ++
          "/*\nDockerCmd is wrapper of 'docker'\n" ++
          "------------------------------\n" ++
          "docker [OPTIONS] COMMAND [ARG...]\n" ++
          "A self-sufficient runtime for containers\n" ++
          "------------------------------\n*/\n" ++
          "func DockerCmd(opt DockerOption, args []string) *exec.Cmd \x7b\n" ++
          "\tcargs := []string\x7b\x7d\n" ++
          "\tif opt.Debug != nil \x7b\n" ++
          "\t\tcargs = append(cargs, \"--debug=\" + fmt.Sprint(*opt.Debug))\n" ++
          "\t\x7d\n" ++
          "\tcargs = append(cargs, args...)\n" ++
          "\treturn exec.Command(\"docker\", cargs...)\n\x7d\n\n")) := by
  decide

end Generate

/-! ## The text `generateStructDefinition` assembles -/

namespace Generate

theorem writeBlock_eq_append (result : GoString) (v : fieldValue) :
    writeBlock result v = result ++ blockText v := by
  unfold blockText writeBlock
  dsimp only
  split_ifs <;> simp only [List.nil_append, List.append_assoc]

theorem foldl_writeBlock (fieldValues : List fieldValue) (result : GoString) :
    fieldValues.foldl writeBlock result = result ++ fieldValues.flatMap blockText := by
  induction fieldValues generalizing result with
  | nil => simp
  | cons v vs ih =>
    rw [List.foldl_cons, ih, writeBlock_eq_append, List.flatMap_cons, List.append_assoc]

theorem intercalate_cons_cons (sep a b : GoString) (l : List GoString) :
    sep.intercalate (a :: b :: l) = a ++ sep ++ sep.intercalate (b :: l) := by
  simp [List.intercalate, List.intersperse]

theorem foldl_quoted (n : Nat) (l : List GoString) (k : Nat) (result : GoString)
    (hk : 1 ≤ k) (hn : n = k + l.length) :
    (List.enumFrom k l).foldl
        (fun result iv =>
          if iv.1 = 0 then result
          else
            let result := result ++ (bytes "\"" ++ iv.2 ++ bytes "\"")
            if (iv.1 : Int) ≠ (n : Int) - 1 then result ++ bytes ", " else result)
        result
      = result ++ quotedList l := by
  induction l generalizing k result with
  | nil => simp [quotedList, List.intercalate]
  | cons x xs ih =>
    have hk0 : k ≠ 0 := by omega
    rw [List.enumFrom_cons, List.foldl_cons]
    simp only [hk0, if_false]
    cases xs with
    | nil =>
      have hlast : ((k : Int) ≠ (n : Int) - 1) = False := by
        simp only [List.length_cons, List.length_nil] at hn
        simp only [ne_eq, eq_iff_iff, iff_false, not_not]
        omega
      simp only [hlast, if_false, List.enumFrom_nil, List.foldl_nil]
      simp [quotedList, List.intercalate]
    | cons y ys =>
      have hmid : ((k : Int) ≠ (n : Int) - 1) = True := by
        simp only [List.length_cons] at hn
        simp only [ne_eq, eq_iff_iff, iff_true]
        omega
      simp only [hmid, if_true]
      rw [ih (k + 1) _ (by omega) (by simp only [List.length_cons] at hn ⊢; omega)]
      simp only [quotedList, List.map_cons, intercalate_cons_cons, List.append_assoc]

theorem writeInitialiser_eq (names : List GoString) (result : GoString) :
    writeInitialiser names result
      = result ++ bytes "\tcargs := []string\x7b" ++ quotedList names.tail ++ bytes "\x7d\n" := by
  cases names with
  | nil => simp [writeInitialiser, quotedList, List.intercalate, List.enum]
  | cons root rest =>
    unfold writeInitialiser
    simp only [List.enum, List.enumFrom_cons, List.foldl_cons, if_true, List.tail_cons]
    rw [foldl_quoted (root :: rest).length rest (0 + 1) _ (by omega)
      (by simp only [List.length_cons]; omega)]

theorem foldlM_visitFlag (flags : List Flag) (fieldNames : List GoString)
    (h : List.Forall₂ (fun flag name => generateFieldName flag = some name) flags fieldNames)
    (acc : GoString × List fieldValue) :
    flags.foldlM visitFlag acc
      = some (acc.1 ++ (flags.zip fieldNames).flatMap (fun p => fieldText p.1 p.2),
          acc.2 ++ (flags.zip fieldNames).map (fun p => fieldValueOf p.1 p.2)) := by
  induction h generalizing acc with
  | nil => simp
  | cons hname _ ih =>
    rw [List.foldlM_cons]
    simp only [visitFlag, hname, Option.bind_eq_bind, Option.some_bind]
    rw [ih]
    simp [fieldText, fieldValueOf, List.append_assoc]

theorem foldlM_visitFlag_none (flags : List Flag)
    (h : ∃ flag ∈ flags, generateFieldName flag = none) (acc : GoString × List fieldValue) :
    flags.foldlM visitFlag acc = none := by
  induction flags generalizing acc with
  | nil => simp at h
  | cons flag rest ih =>
    rw [List.foldlM_cons]
    cases hname : generateFieldName flag with
    | none => simp [visitFlag, hname]
    | some name =>
      simp only [visitFlag, hname, Option.bind_eq_bind, Option.some_bind]
      apply ih
      obtain ⟨f, hf, hnone⟩ := h
      rcases List.mem_cons.1 hf with rfl | hf
      · rw [hname] at hnone; cases hnone
      · exact ⟨f, hf, hnone⟩

theorem generateStructDefinition_eq (cmd : Command) (names : List GoString)
    (cmdName : GoString) (fieldNames : List GoString)
    (hname : generateCmdName names = some cmdName)
    (hflags : List.Forall₂ (fun flag name => generateFieldName flag = some name)
      cmd.Flags fieldNames) :
    generateStructDefinition cmd names
      = some (writeHeader cmd names cmdName
            ((cmd.Flags.zip fieldNames).flatMap fun p => fieldText p.1 p.2)
          ++ bytes "\tcargs := []string\x7b" ++ quotedList names.tail ++ bytes "\x7d\n"
          ++ ((cmd.Flags.zip fieldNames).map fun p => fieldValueOf p.1 p.2).flatMap blockText
          ++ bytes "\tcargs = append(cargs, args...)\n"
          ++ bytes "\treturn exec.Command(\"docker\", cargs...)\n\x7d\n\n") := by
  unfold generateStructDefinition
  have hempty : bytes "" = [] := rfl
  simp only [hname, foldlM_visitFlag cmd.Flags fieldNames hflags, writeInitialiser_eq,
    foldl_writeBlock, hempty, List.nil_append]

theorem fieldText_ne_nil (flag : Flag) (name : GoString) : fieldText flag name ≠ [] := by
  have h : bytes "\t/*\n\t" = 9 :: bytes "/*\n\t" := by decide
  simp [fieldText, h]

theorem fields_eq_nil_iff (flags : List Flag) (fieldNames : List GoString)
    (h : List.Forall₂ (fun flag name => generateFieldName flag = some name) flags fieldNames) :
    ((flags.zip fieldNames).flatMap fun p => fieldText p.1 p.2) = [] ↔ flags = [] := by
  cases h with
  | nil => simp
  | cons _ _ => simp [fieldText_ne_nil]

theorem writeHeader_no_fields (cmd : Command) (names : List GoString) (cmdName : GoString) :
    writeHeader cmd names cmdName []
      = commentBlock cmd names cmdName
        ++ (bytes "func " ++ cmdName ++ bytes "Cmd" ++ bytes "(" ++ bytes "args []string"
          ++ bytes ") *exec.Cmd \x7b\n") := by
  have h : bytes "" = [] := rfl
  simp [writeHeader, commentBlock, h]

theorem writeHeader_fields (cmd : Command) (names : List GoString) (cmdName fields : GoString)
    (hfields : fields ≠ []) :
    writeHeader cmd names cmdName fields
      = bytes "type " ++ cmdName ++ bytes "Option struct \x7b\n" ++ (fields ++ bytes "\x7d\n\n")
        ++ commentBlock cmd names cmdName
        ++ (bytes "func " ++ cmdName ++ bytes "Cmd" ++ bytes "("
          ++ (bytes "opt " ++ cmdName ++ bytes "Option, " ++ bytes "args []string")
          ++ bytes ") *exec.Cmd \x7b\n") := by
  have h : bytes "" = [] := rfl
  simp [writeHeader, commentBlock, h, hfields]

end Generate

/-! ## The record type and the names of a node -/

namespace Generate

/-- C11: a record type declaration and an `opt <Base>Option` parameter are emitted if and
only if the flag list of the node is not empty. Whenever the names of the node and
of its flags can be derived, `generateStructDefinition` returns, for an empty flag
list, a text that starts with the comment block and whose builder has exactly the
parameter list `args []string`, and for a flag list that is not empty, a text that
starts with the declaration `type <Base>Option struct {...}` and whose builder has
the parameter list `opt <Base>Option, args []string`. The builder generated for such
a node, `DockerBuilderCmd`, takes the positionals only. -/
theorem record_type_iff_flags (cmd : Command) (names : List GoString) (cmdName : GoString)
    (fieldNames : List GoString) (args : List GoString)
    (hname : generateCmdName names = some cmdName)
    (hflags : List.Forall₂ (fun flag name => generateFieldName flag = some name)
      cmd.Flags fieldNames) :
    (cmd.Flags = [] →
      generateStructDefinition cmd names
        = some (commentBlock cmd names cmdName
            ++ bytes "func " ++ cmdName ++ bytes "Cmd" ++ bytes "(" ++ bytes "args []string"
            ++ bytes ") *exec.Cmd \x7b\n"
            ++ bytes "\tcargs := []string\x7b" ++ quotedList names.tail ++ bytes "\x7d\n"
            ++ bytes "\tcargs = append(cargs, args...)\n"
            ++ bytes "\treturn exec.Command(\"docker\", cargs...)\n\x7d\n\n"))
    ∧ (cmd.Flags ≠ [] →
      generateStructDefinition cmd names
        = some (bytes "type " ++ cmdName ++ bytes "Option struct \x7b\n"
            ++ ((cmd.Flags.zip fieldNames).flatMap fun p => fieldText p.1 p.2)
            ++ bytes "\x7d\n\n"
            ++ commentBlock cmd names cmdName
            ++ bytes "func " ++ cmdName ++ bytes "Cmd" ++ bytes "("
            ++ (bytes "opt " ++ cmdName ++ bytes "Option, " ++ bytes "args []string")
            ++ bytes ") *exec.Cmd \x7b\n"
            ++ bytes "\tcargs := []string\x7b" ++ quotedList names.tail ++ bytes "\x7d\n"
            ++ ((cmd.Flags.zip fieldNames).map fun p => fieldValueOf p.1 p.2).flatMap blockText
            ++ bytes "\tcargs = append(cargs, args...)\n"
            ++ bytes "\treturn exec.Command(\"docker\", cargs...)\n\x7d\n\n"))
    ∧ Docker.DockerBuilderCmd args = exec.Command (bytes "docker") (bytes "builder" :: args) := by
  refine ⟨fun hnil => ?_, fun hne => ?_, rfl⟩
  · rw [generateStructDefinition_eq cmd names cmdName fieldNames hname hflags]
    simp only [hnil, List.zip_nil_left, List.flatMap_nil, List.map_nil, writeHeader_no_fields,
      List.append_assoc, List.nil_append]
  · rw [generateStructDefinition_eq cmd names cmdName fieldNames hname hflags]
    have hfields : ((cmd.Flags.zip fieldNames).flatMap fun p => fieldText p.1 p.2) ≠ [] :=
      fun h => hne ((fields_eq_nil_iff cmd.Flags fieldNames hflags).1 h)
    rw [writeHeader_fields cmd names cmdName _ hfields]
    simp only [List.append_assoc]

/-- Witness of C11: the node `docker builder`, which has no flags; the text is that of
`DockerBuilderCmd` in `docker/docker.go`. -/
theorem record_type_iff_flags_witness :
    generateCmdName [bytes "docker", bytes "builder"] = some (bytes "DockerBuilder")
    ∧ List.Forall₂ (fun flag name => generateFieldName flag = some name)
        (Command.mk (bytes "builder") (bytes "builder") (bytes "Manage builds") [] []).Flags []
    ∧ generateStructDefinition
          (Command.mk (bytes "builder") (bytes "builder") (bytes "Manage builds") [] [])
          [bytes "docker", bytes "builder"]
        = some (commentBlock
              (Command.mk (bytes "builder") (bytes "builder") (bytes "Manage builds") [] [])
              [bytes "docker", bytes "builder"] (bytes "DockerBuilder")
            ++ bytes "func " ++ bytes "DockerBuilder" ++ bytes "Cmd" ++ bytes "("
            ++ bytes "args []string" ++ bytes ") *exec.Cmd \x7b\n"
            ++ bytes "\tcargs := []string\x7b" ++ quotedList [bytes "docker", bytes "builder"].tail
            ++ bytes "\x7d\n"
            ++ bytes "\tcargs = append(cargs, args...)\n"
            ++ bytes "\treturn exec.Command(\"docker\", cargs...)\n\x7d\n\n") :=
  ⟨by decide, List.Forall₂.nil,
    (record_type_iff_flags _ _ _ [] [] (by decide) List.Forall₂.nil).1 rfl⟩

set_option maxRecDepth 100000 in
/-- The text generated for the node `docker builder` is, byte for byte, the text of
`DockerBuilderCmd` in `docker/docker.go`. -/
theorem generateStructDefinition_docker_builder :
    generateStructDefinition
        (Command.mk (bytes "builder") (bytes "builder") (bytes "Manage builds") [] [])
        [bytes "docker", bytes "builder"]
      = some (bytes ("/*\nDockerBuilderCmd is wrapper of 'docker builder'\n" ++
          "------------------------------\n" ++
          "builder\n" ++
          "Manage builds\n" ++
          "------------------------------\n*/\n" ++
          "func DockerBuilderCmd(args []string) *exec.Cmd \x7b\n" ++
          "\tcargs := []string\x7b\"builder\"\x7d\n" ++
          "\tcargs = append(cargs, args...)\n" ++
          "\treturn exec.Command(\"docker\", cargs...)\n\x7d\n\n")) := by
  decide

/-- C12: `generateCmdName` of `["docker","container","run"]` is `DockerContainerRun`, and
for every name path whose base identifier `generateCmdName` derives, the record type
`generateStructDefinition` emits (when the node has flags) is named that identifier
followed by `Option`, also where it is the type of the parameter `opt`, and the
builder function it emits is named that identifier followed by `Cmd`. -/
theorem emitted_names_follow_cmdName :
    generateCmdName [bytes "docker", bytes "container", bytes "run"]
        = some (bytes "DockerContainerRun")
    ∧ ∀ (cmd : Command) (names : List GoString) (cmdName : GoString)
        (fieldNames : List GoString),
        generateCmdName names = some cmdName →
        List.Forall₂ (fun flag name => generateFieldName flag = some name)
          cmd.Flags fieldNames →
        generateStructDefinition cmd names
          = some ((if cmd.Flags.isEmpty then []
                else bytes "type " ++ (cmdName ++ bytes "Option") ++ bytes " struct \x7b\n"
                  ++ ((cmd.Flags.zip fieldNames).flatMap fun p => fieldText p.1 p.2)
                  ++ bytes "\x7d\n\n")
              ++ commentBlock cmd names cmdName
              ++ bytes "func " ++ (cmdName ++ bytes "Cmd") ++ bytes "("
              ++ ((if cmd.Flags.isEmpty then []
                  else bytes "opt " ++ (cmdName ++ bytes "Option") ++ bytes ", ")
                ++ bytes "args []string")
              ++ bytes ") *exec.Cmd \x7b\n"
              ++ bytes "\tcargs := []string\x7b" ++ quotedList names.tail ++ bytes "\x7d\n"
              ++ ((cmd.Flags.zip fieldNames).map fun p => fieldValueOf p.1 p.2).flatMap
                  blockText
              ++ bytes "\tcargs = append(cargs, args...)\n"
              ++ bytes "\treturn exec.Command(\"docker\", cargs...)\n\x7d\n\n") := by
  refine ⟨by decide, fun cmd names cmdName fieldNames hname hflags => ?_⟩
  rw [generateStructDefinition_eq cmd names cmdName fieldNames hname hflags]
  have h1 : bytes "Option struct \x7b\n" = bytes "Option" ++ bytes " struct \x7b\n" := by decide
  have h2 : bytes "Option, " = bytes "Option" ++ bytes ", " := by decide
  cases hF : cmd.Flags with
  | nil =>
    simp only [List.zip_nil_left, List.flatMap_nil, List.map_nil, writeHeader_no_fields,
      List.isEmpty_nil, if_true, List.append_assoc, List.nil_append]
  | cons flag rest =>
    have hne : cmd.Flags ≠ [] := by rw [hF]; exact List.cons_ne_nil _ _
    have hfields : ((cmd.Flags.zip fieldNames).flatMap fun p => fieldText p.1 p.2) ≠ [] :=
      fun h => hne ((fields_eq_nil_iff cmd.Flags fieldNames hflags).1 h)
    rw [hF] at hfields
    rw [writeHeader_fields cmd names cmdName _ hfields]
    simp only [List.isEmpty_cons, Bool.false_eq_true, if_false, List.append_assoc, h1, h2]

/-- Witness of C12: the node `docker container run` with its flag `detach`. -/
theorem emitted_names_follow_cmdName_witness :
    generateCmdName [bytes "docker", bytes "container", bytes "run"]
        = some (bytes "DockerContainerRun")
    ∧ List.Forall₂ (fun flag name => generateFieldName flag = some name)
        (Command.mk (bytes "run") (bytes "run [OPTIONS] IMAGE [COMMAND] [ARG...]")
          (bytes "Run a command in a new container")
          [{ Name := bytes "detach", Usage := bytes "Run container in background",
             ValueType := bytes "bool" }] []).Flags
        [bytes "Detach"]
    ∧ ∃ text : GoString,
        generateStructDefinition
            (Command.mk (bytes "run") (bytes "run [OPTIONS] IMAGE [COMMAND] [ARG...]")
              (bytes "Run a command in a new container")
              [{ Name := bytes "detach", Usage := bytes "Run container in background",
                 ValueType := bytes "bool" }] [])
            [bytes "docker", bytes "container", bytes "run"]
          = some text :=
  ⟨by decide, List.Forall₂.cons (by decide) List.Forall₂.nil,
    ⟨_, emitted_names_follow_cmdName.2 _ _ (bytes "DockerContainerRun") [bytes "Detach"]
      (by decide) (List.Forall₂.cons (by decide) List.Forall₂.nil)⟩⟩

end Generate

/-! ## The identifiers `toCamel` builds -/

namespace Generate

theorem foldlM_toCamel (s : List GoString) (res : GoString) (h : ∀ v ∈ s, v ≠ []) :
    s.foldlM
        (fun res v =>
          match v with
          | [] => none
          | b :: rest =>
            let upper := strings.ToUpperByte b
            let res := if v.length < 2 then res ++ upper else res
            some (res ++ (upper ++ rest)))
        res
      = some (res ++ s.flatMap camelSegment) := by
  induction s generalizing res with
  | nil => simp
  | cons v vs ih =>
    rw [List.foldlM_cons]
    cases v with
    | nil => exact absurd rfl (h [] (List.mem_cons_self _ _))
    | cons b rest =>
      simp only [Option.bind_eq_bind, Option.some_bind]
      rw [ih _ (fun w hw => h w (List.mem_cons_of_mem _ hw))]
      simp only [camelSegment, List.flatMap_cons]
      split_ifs <;> simp only [List.append_assoc, List.nil_append]

theorem toCamel_eq (s : List GoString) (h : ∀ v ∈ s, v ≠ []) :
    toCamel s = some (s.flatMap camelSegment) := by
  unfold toCamel
  rw [foldlM_toCamel s [] h, List.nil_append]

theorem Split_of_not_Contains (v : GoString) (sep : UInt8) (h : strings.Contains v sep = false) :
    strings.Split v sep = [v] := by
  induction v with
  | nil => rfl
  | cons c cs ih =>
    simp only [strings.Contains, List.contains_cons, Bool.or_eq_false_iff, beq_eq_false_iff_ne,
      ne_eq] at h
    have hc : c ≠ sep := fun hcs => h.1 hcs.symm
    have hcs : strings.Split cs sep = [cs] := ih (by simpa [strings.Contains] using h.2)
    simp [strings.Split, hc, hcs]

theorem segments_foldl (names : List GoString) (init : List GoString) :
    names.foldl
        (fun s v =>
          if strings.Contains v hyphen then s ++ strings.Split v hyphen
          else s ++ [v])
        init
      = init ++ names.flatMap fun v => strings.Split v hyphen := by
  induction names generalizing init with
  | nil => simp
  | cons v vs ih =>
    rw [List.foldl_cons, ih, List.flatMap_cons]
    cases hc : strings.Contains v hyphen with
    | true => simp [List.append_assoc]
    | false => simp [Split_of_not_Contains v hyphen hc, List.append_assoc]

theorem generateCmdName_eq (names : List GoString) :
    generateCmdName names = toCamel (names.flatMap fun v => strings.Split v hyphen) := by
  unfold generateCmdName
  simp only [segments_foldl, List.nil_append]

theorem generateFieldName_eq (flag : Flag) :
    generateFieldName flag = toCamel (strings.Split flag.Name hyphen) := by
  unfold generateFieldName
  cases hc : strings.Contains flag.Name hyphen with
  | true => simp [hc]
  | false => simp [hc, Split_of_not_Contains flag.Name hyphen hc]

theorem camelSegment_of_two_le (seg : GoString) (h : 2 ≤ seg.length) :
    camelSegment seg = capitalise seg := by
  cases seg with
  | nil => rfl
  | cons b rest =>
    have hlen : ¬ (b :: rest).length < 2 := by omega
    simp only [camelSegment, capitalise, hlen, if_false, List.nil_append]

/-- C13: evaluation of the code on segments of one character. `toCamel` appends the
upper-cased letter twice: the branch `if len(v) < 2 { res += upper }` is not
followed by `continue`, so `res += upper + v[1:]` runs as well. Hence
`generateCmdName(["a"])` is `AA`, not `A`, and the flag `x-y` gets the field name
`XXYY`, not `XY`. -/
theorem toCamel_doubles_single_character_segment :
    (∀ b : UInt8, toCamel [[b]] = some (strings.ToUpperByte b ++ strings.ToUpperByte b))
    ∧ generateCmdName [bytes "a"] = some (bytes "AA")
    ∧ generateCmdName [bytes "a"] ≠ some (bytes "A")
    ∧ generateFieldName { Name := bytes "x-y", Usage := bytes "", ValueType := bytes "bool" }
        = some (bytes "XXYY")
    ∧ generateFieldName { Name := bytes "x-y", Usage := bytes "", ValueType := bytes "bool" }
        ≠ some (bytes "XY") := by
  refine ⟨fun b => ?_, by decide, by decide, by decide, by decide⟩
  rw [toCamel_eq [[b]] (by simp)]
  simp [camelSegment]

/-- C14: a hyphenated path element is split on `-` for the identifier only. The name
`generateCmdName` derives from `["docker","system","dial-stdio"]` is
`DockerSystemDialStdio`; in general, when every hyphen-separated segment has at
least two bytes, it is the segments of all elements in order, each with its first
letter upper-cased and the rest as declared, joined without separators. The
initialiser of `cargs` holds the elements after the first unsplit, here `"system"`
and `"dial-stdio"`, and so does the argument vector of `DockerSystemDialStdioCmd`. -/
theorem hyphenated_element_is_split_for_the_identifier_only :
    generateCmdName [bytes "docker", bytes "system", bytes "dial-stdio"]
        = some (bytes "DockerSystemDialStdio")
    ∧ strings.Split (bytes "dial-stdio") hyphen = [bytes "dial", bytes "stdio"]
    ∧ (∀ names : List GoString,
        (∀ v ∈ names, ∀ seg ∈ strings.Split v hyphen, 2 ≤ seg.length) →
        generateCmdName names
          = some ((names.flatMap fun v => strings.Split v hyphen).flatMap capitalise))
    ∧ (∀ (root : GoString) (rest : List GoString) (result : GoString),
        writeInitialiser (root :: rest) result
          = result ++ bytes "\tcargs := []string\x7b" ++ quotedList rest ++ bytes "\x7d\n")
    ∧ (∀ result : GoString,
        writeInitialiser [bytes "docker", bytes "system", bytes "dial-stdio"] result
          = result ++ bytes "\tcargs := []string\x7b\"system\", \"dial-stdio\"\x7d\n")
    ∧ ∀ args : List GoString,
        Docker.DockerSystemDialStdioCmd args
          = exec.Command (bytes "docker") ([bytes "system", bytes "dial-stdio"] ++ args) := by
  refine ⟨by decide, by decide, fun names h => ?_, fun root rest result => ?_,
    fun result => ?_, fun args => rfl⟩
  · rw [generateCmdName_eq, toCamel_eq]
    · congr 1
      apply List.flatMap_congr
      intro seg hseg
      obtain ⟨v, hv, hsv⟩ := List.mem_flatMap.1 hseg
      exact camelSegment_of_two_le seg (h v hv seg hsv)
    · intro seg hseg hnil
      obtain ⟨v, hv, hsv⟩ := List.mem_flatMap.1 hseg
      have := h v hv seg hsv
      rw [hnil] at this
      simp at this
  · rw [writeInitialiser_eq, List.tail_cons]
  · rw [writeInitialiser_eq, List.tail_cons]
    have h : bytes "\tcargs := []string\x7b" ++ quotedList [bytes "system", bytes "dial-stdio"]
        ++ bytes "\x7d\n" = bytes "\tcargs := []string\x7b\"system\", \"dial-stdio\"\x7d\n" := by
      decide
    rw [List.append_assoc, List.append_assoc, ← List.append_assoc (bytes "\tcargs := []string\x7b"),
      h]

/-- Witness of C14: the path of `docker system dial-stdio`. -/
theorem hyphenated_element_is_split_for_the_identifier_only_witness :
    (∀ v ∈ [bytes "docker", bytes "system", bytes "dial-stdio"],
        ∀ seg ∈ strings.Split v hyphen, 2 ≤ seg.length)
    ∧ generateCmdName [bytes "docker", bytes "system", bytes "dial-stdio"]
        = some (([bytes "docker", bytes "system", bytes "dial-stdio"].flatMap
            fun v => strings.Split v hyphen).flatMap capitalise) :=
  ⟨by decide,
    hyphenated_element_is_split_for_the_identifier_only.2.2.1 _ (by decide)⟩

/-! ## Field types and rendering shapes -/

theorem generateTypeName_basic (name usage t : GoString) (hlist : t ≠ bytes "list")
    (hmap : t ≠ bytes "map") (hbasic : isBasicType t = true) :
    generateTypeName { Name := name, Usage := usage, ValueType := t } = bytes "*" ++ t := by
  simp [generateTypeName, hlist, hmap, hbasic]

theorem generateTypeName_other (name usage t : GoString) (hlist : t ≠ bytes "list")
    (hmap : t ≠ bytes "map") (hbasic : isBasicType t = false) :
    generateTypeName { Name := name, Usage := usage, ValueType := t } = bytes "*string" := by
  simp [generateTypeName, hlist, hmap, hbasic]

theorem pointer_type_ne (t : GoString) :
    bytes "*" ++ t ≠ bytes "[]string" ∧ bytes "*" ++ t ≠ bytes "map[string]string" := by
  have h1 : bytes "*" = [42] := by decide
  have h2 : bytes "[]string" = 91 :: bytes "]string" := by decide
  have h3 : bytes "map[string]string" = 109 :: bytes "ap[string]string" := by decide
  rw [h1, h2, h3]
  constructor <;> intro h <;> simp at h

theorem writeBlock_single (result flag name typ : GoString) (hlist : typ ≠ bytes "[]string")
    (hmap : typ ≠ bytes "map[string]string") :
    writeBlock result { flag := flag, name := name, typ := typ }
      = result ++ (bytes "\tif opt." ++ name ++ bytes " != nil \x7b\n")
        ++ (bytes "\t\tcargs = append(cargs, \"--" ++ flag ++ bytes "=\" + fmt.Sprint(*opt."
          ++ name ++ bytes "))\n")
        ++ bytes "\t\x7d\n" := by
  simp only [writeBlock, hlist, hmap, if_false]

theorem writeBlock_list (result flag name : GoString) :
    writeBlock result { flag := flag, name := name, typ := bytes "[]string" }
      = result ++ (bytes "\tif opt." ++ name ++ bytes " != nil \x7b\n")
        ++ (bytes "\tfor _, str := range opt." ++ name ++ bytes " \x7b\n")
        ++ (bytes "\t\tcargs = append(cargs, \"--" ++ flag ++ bytes "\")\n")
        ++ bytes "\t\tcargs = append(cargs, str)\n"
        ++ bytes "\t\x7d\n"
        ++ bytes "\t\x7d\n" := by
  simp only [writeBlock, if_true]

theorem writeBlock_map (result flag name : GoString) :
    writeBlock result { flag := flag, name := name, typ := bytes "map[string]string" }
      = result ++ (bytes "\tif opt." ++ name ++ bytes " != nil \x7b\n")
        ++ (bytes "\tfor key, val := range opt." ++ name ++ bytes " \x7b\n")
        ++ (bytes "\t\tcargs = append(cargs, \"--" ++ flag ++ bytes "\")\n")
        ++ bytes "\t\tcargs = append(cargs, key + \"=\" + val)\n"
        ++ bytes "\t\x7d\n"
        ++ bytes "\t\x7d\n" := by
  have h : bytes "map[string]string" ≠ bytes "[]string" := by decide
  simp only [writeBlock, h, if_true, if_false]

end Generate

namespace Generate

/-- C15: `generateTypeName` maps the tag `list` to the field type `[]string` and the tag
`map` to `map[string]string`, and no other tag to either. The rendering block
`generateStructDefinition` writes for a field of type `[]string` is the loop that
appends the flag token and the element, the block for `map[string]string` the loop
that appends the flag token and `key + "=" + val`, and a field of any other type
gets the single-entry block. -/
theorem list_and_map_fields_render_repeated :
    (∀ flag : Flag, generateTypeName flag = bytes "[]string" ↔ flag.ValueType = bytes "list")
    ∧ (∀ flag : Flag,
        generateTypeName flag = bytes "map[string]string" ↔ flag.ValueType = bytes "map")
    ∧ (∀ result flag name : GoString,
        writeBlock result { flag := flag, name := name, typ := bytes "[]string" }
          = result ++ (bytes "\tif opt." ++ name ++ bytes " != nil \x7b\n")
            ++ (bytes "\tfor _, str := range opt." ++ name ++ bytes " \x7b\n")
            ++ (bytes "\t\tcargs = append(cargs, \"--" ++ flag ++ bytes "\")\n")
            ++ bytes "\t\tcargs = append(cargs, str)\n"
            ++ bytes "\t\x7d\n"
            ++ bytes "\t\x7d\n")
    ∧ (∀ result flag name : GoString,
        writeBlock result { flag := flag, name := name, typ := bytes "map[string]string" }
          = result ++ (bytes "\tif opt." ++ name ++ bytes " != nil \x7b\n")
            ++ (bytes "\tfor key, val := range opt." ++ name ++ bytes " \x7b\n")
            ++ (bytes "\t\tcargs = append(cargs, \"--" ++ flag ++ bytes "\")\n")
            ++ bytes "\t\tcargs = append(cargs, key + \"=\" + val)\n"
            ++ bytes "\t\x7d\n"
            ++ bytes "\t\x7d\n")
    ∧ (∀ result flag name typ : GoString,
        typ ≠ bytes "[]string" → typ ≠ bytes "map[string]string" →
        writeBlock result { flag := flag, name := name, typ := typ }
          = result ++ (bytes "\tif opt." ++ name ++ bytes " != nil \x7b\n")
            ++ (bytes "\t\tcargs = append(cargs, \"--" ++ flag
              ++ bytes "=\" + fmt.Sprint(*opt." ++ name ++ bytes "))\n")
            ++ bytes "\t\x7d\n") := by
  have hml : bytes "map" ≠ bytes "list" := by decide
  have h1 : bytes "map[string]string" ≠ bytes "[]string" := by decide
  have h2 : bytes "*string" ≠ bytes "[]string" := by decide
  have h3 : bytes "*string" ≠ bytes "map[string]string" := by decide
  refine ⟨fun flag => ?_, fun flag => ?_, writeBlock_list, writeBlock_map, writeBlock_single⟩
  · unfold generateTypeName
    constructor
    · intro h
      by_contra hne
      simp only [hne, if_false] at h
      split_ifs at h
      · exact h1 h
      · exact h2 h
      · exact (pointer_type_ne _).1 h
    · intro h
      simp [h]
  · unfold generateTypeName
    constructor
    · intro h
      by_contra hne
      simp only [hne, if_false] at h
      split_ifs at h with hl hb
      · exact h1 h.symm
      · exact h3 h
      · exact (pointer_type_ne _).2 h
    · intro h
      simp [h, hml]

/-- Witness of C15: a field of type `*bool` gets the single-entry block. -/
theorem list_and_map_fields_render_repeated_witness :
    bytes "*bool" ≠ bytes "[]string" ∧ bytes "*bool" ≠ bytes "map[string]string"
    ∧ writeBlock [] { flag := bytes "debug", name := bytes "Debug", typ := bytes "*bool" }
        = [] ++ (bytes "\tif opt." ++ bytes "Debug" ++ bytes " != nil \x7b\n")
          ++ (bytes "\t\tcargs = append(cargs, \"--" ++ bytes "debug"
            ++ bytes "=\" + fmt.Sprint(*opt." ++ bytes "Debug" ++ bytes "))\n")
          ++ bytes "\t\x7d\n" :=
  ⟨by decide, by decide,
    list_and_map_fields_render_repeated.2.2.2.2 _ _ _ _ (by decide) (by decide)⟩

/-- C16: for every primitive tag `t` that `isBasicType` recognises, among them each of
`bool`, `string`, `int`, `int8` to `int64`, `uint`, `uint8` to `uint64`, `byte`,
`rune`, `float32` and `float64`, `generateTypeName` returns `*` followed by `t`, and
the rendering block of a field of that type is the single-entry one: under the nil
test, one `append` of `"--<longName>="` joined with `fmt.Sprint` of the dereferenced
field. -/
theorem primitive_tags_render_single_entry (t : GoString) (ht : isBasicType t = true)
    (longName usage field result : GoString) :
    generateTypeName { Name := longName, Usage := usage, ValueType := t } = bytes "*" ++ t
    ∧ writeBlock result
          { flag := longName, name := field,
            typ := generateTypeName { Name := longName, Usage := usage, ValueType := t } }
        = result ++ (bytes "\tif opt." ++ field ++ bytes " != nil \x7b\n")
          ++ (bytes "\t\tcargs = append(cargs, \"--" ++ longName
            ++ bytes "=\" + fmt.Sprint(*opt." ++ field ++ bytes "))\n")
          ++ bytes "\t\x7d\n"
    ∧ ∀ tag ∈ [bytes "bool", bytes "string", bytes "int", bytes "int8", bytes "int16",
        bytes "int32", bytes "int64", bytes "uint", bytes "uint8", bytes "uint16",
        bytes "uint32", bytes "uint64", bytes "byte", bytes "rune", bytes "float32",
        bytes "float64"], isBasicType tag = true := by
  have hlist : t ≠ bytes "list" := by
    intro h
    rw [h] at ht
    exact absurd ht (by decide)
  have hmap : t ≠ bytes "map" := by
    intro h
    rw [h] at ht
    exact absurd ht (by decide)
  have htype := generateTypeName_basic longName usage t hlist hmap ht
  refine ⟨htype, ?_, by decide⟩
  rw [htype]
  exact writeBlock_single result longName field _ (pointer_type_ne t).1 (pointer_type_ne t).2

/-- Witness of C16: the flag `time` of tag `int`. -/
theorem primitive_tags_render_single_entry_witness :
    isBasicType (bytes "int") = true
    ∧ generateTypeName
          { Name := bytes "time", Usage := bytes "Seconds to wait for stop before killing it",
            ValueType := bytes "int" }
        = bytes "*" ++ bytes "int" :=
  ⟨by decide,
    (primitive_tags_render_single_entry (bytes "int") (by decide) (bytes "time")
      (bytes "Seconds to wait for stop before killing it") (bytes "Time") []).1⟩

/-- C17: a tag that is neither `list`, nor `map`, nor a name `isBasicType` recognises
gets the field type `*string` and with it the single-entry rendering block; so do
`stringSlice` and `duration`. `generateTypeName` has a result for every tag: one of
`[]string`, `map[string]string`, `*string` and `*` followed by the tag. The field
`CacheFrom` of `DockerBuildOption`, generated from such a tag, renders as one
entry. -/
theorem unrecognised_tags_fall_back_to_string :
    (∀ longName usage t : GoString,
        t ≠ bytes "list" → t ≠ bytes "map" → isBasicType t = false →
        generateTypeName { Name := longName, Usage := usage, ValueType := t } = bytes "*string"
        ∧ ∀ result field : GoString,
          writeBlock result
              { flag := longName, name := field,
                typ := generateTypeName { Name := longName, Usage := usage, ValueType := t } }
            = result ++ (bytes "\tif opt." ++ field ++ bytes " != nil \x7b\n")
              ++ (bytes "\t\tcargs = append(cargs, \"--" ++ longName
                ++ bytes "=\" + fmt.Sprint(*opt." ++ field ++ bytes "))\n")
              ++ bytes "\t\x7d\n")
    ∧ (∀ longName usage : GoString,
        generateTypeName { Name := longName, Usage := usage, ValueType := bytes "stringSlice" }
          = bytes "*string")
    ∧ (∀ longName usage : GoString,
        generateTypeName { Name := longName, Usage := usage, ValueType := bytes "duration" }
          = bytes "*string")
    ∧ (∀ flag : Flag,
        generateTypeName flag = bytes "[]string"
        ∨ generateTypeName flag = bytes "map[string]string"
        ∨ generateTypeName flag = bytes "*string"
        ∨ generateTypeName flag = bytes "*" ++ flag.ValueType)
    ∧ ∀ (v : GoString) (args : List GoString),
        Docker.DockerBuildCmd { CacheFrom := some v } args
          = exec.Command (bytes "docker")
              ([bytes "build", bytes "--cache-from=" ++ v] ++ args) := by
  have hs : bytes "*string" = bytes "*" ++ bytes "string" := by decide
  refine ⟨fun longName usage t hlist hmap hbasic => ?_, fun longName usage => ?_,
    fun longName usage => ?_, fun flag => ?_, fun v args => ?_⟩
  · have htype := generateTypeName_other longName usage t hlist hmap hbasic
    refine ⟨htype, fun result field => ?_⟩
    rw [htype]
    exact writeBlock_single result longName field _ (hs ▸ (pointer_type_ne _).1)
      (hs ▸ (pointer_type_ne _).2)
  · exact generateTypeName_other _ _ _ (by decide) (by decide) (by decide)
  · exact generateTypeName_other _ _ _ (by decide) (by decide) (by decide)
  · unfold generateTypeName
    dsimp only
    split_ifs <;> simp
  · rw [Docker.DockerBuildCmd_eq]
    simp [Docker.scalarEntries, Docker.listEntries, fmt.Sprint]

/-- Witness of C17: the tag `stringSlice` of the flag `cache-from`. -/
theorem unrecognised_tags_fall_back_to_string_witness :
    bytes "stringSlice" ≠ bytes "list" ∧ bytes "stringSlice" ≠ bytes "map"
    ∧ isBasicType (bytes "stringSlice") = false
    ∧ generateTypeName
          { Name := bytes "cache-from", Usage := bytes "Images to consider as cache sources",
            ValueType := bytes "stringSlice" }
        = bytes "*string" :=
  ⟨by decide, by decide, by decide,
    (unrecognised_tags_fall_back_to_string.1 (bytes "cache-from")
      (bytes "Images to consider as cache sources") (bytes "stringSlice")
      (by decide) (by decide) (by decide)).1⟩

/-- C18: let `fieldNames` be the names `generateFieldName` derives for the flags of a node
in the order they are visited. The text `generateStructDefinition` returns holds,
inside the record, one field declaration per flag in that order (the help text in a
comment, then the field name and the type `generateTypeName` gives the flag), and,
after the initialiser, one rendering block per flag in the same order, the block of
a flag testing the field of that flag and appending `--` followed by its long name.
There are as many of each as there are flags. -/
theorem fields_and_blocks_follow_the_flags (cmd : Command) (names : List GoString)
    (cmdName : GoString) (fieldNames : List GoString)
    (hname : generateCmdName names = some cmdName)
    (hflags : List.Forall₂ (fun flag name => generateFieldName flag = some name)
      cmd.Flags fieldNames) :
    generateStructDefinition cmd names
        = some (writeHeader cmd names cmdName
              ((cmd.Flags.zip fieldNames).flatMap fun p =>
                bytes "\t/*\n\t" ++ p.1.Usage ++ bytes "\n\t*/\n"
                  ++ (bytes "\t" ++ p.2 ++ bytes " " ++ generateTypeName p.1 ++ bytes "\n\n"))
            ++ bytes "\tcargs := []string\x7b" ++ quotedList names.tail ++ bytes "\x7d\n"
            ++ ((cmd.Flags.zip fieldNames).flatMap fun p =>
                writeBlock [] { flag := p.1.Name, name := p.2, typ := generateTypeName p.1 })
            ++ bytes "\tcargs = append(cargs, args...)\n"
            ++ bytes "\treturn exec.Command(\"docker\", cargs...)\n\x7d\n\n")
    ∧ (cmd.Flags.zip fieldNames).map Prod.fst = cmd.Flags
    ∧ (cmd.Flags.zip fieldNames).length = cmd.Flags.length
    ∧ ∀ flag name typ : GoString,
        writeBlock [] { flag := flag, name := name, typ := typ }
          = bytes "\tif opt." ++ name ++ bytes " != nil \x7b\n"
            ++ (if typ = bytes "[]string" then
                  bytes "\tfor _, str := range opt." ++ name ++ bytes " \x7b\n"
                    ++ (bytes "\t\tcargs = append(cargs, \"--" ++ flag ++ bytes "\")\n")
                    ++ bytes "\t\tcargs = append(cargs, str)\n"
                    ++ bytes "\t\x7d\n"
                else if typ = bytes "map[string]string" then
                  bytes "\tfor key, val := range opt." ++ name ++ bytes " \x7b\n"
                    ++ (bytes "\t\tcargs = append(cargs, \"--" ++ flag ++ bytes "\")\n")
                    ++ bytes "\t\tcargs = append(cargs, key + \"=\" + val)\n"
                    ++ bytes "\t\x7d\n"
                else
                  bytes "\t\tcargs = append(cargs, \"--" ++ flag
                    ++ bytes "=\" + fmt.Sprint(*opt." ++ name ++ bytes "))\n")
            ++ bytes "\t\x7d\n" := by
  have hlen : fieldNames.length = cmd.Flags.length := hflags.length_eq.symm
  refine ⟨?_, ?_, ?_, fun flag name typ => ?_⟩
  · rw [generateStructDefinition_eq cmd names cmdName fieldNames hname hflags]
    simp only [List.flatMap_map]
    rfl
  · exact List.map_fst_zip _ _ (by omega)
  · simp [List.length_zip, hlen]
  · simp only [writeBlock]
    split_ifs <;> simp only [List.nil_append, List.append_assoc]

/-- Witness of C18: the node `docker attach` with its three flags. -/
theorem fields_and_blocks_follow_the_flags_witness :
    generateCmdName [bytes "docker", bytes "attach"] = some (bytes "DockerAttach")
    ∧ List.Forall₂ (fun flag name => generateFieldName flag = some name)
        (Command.mk (bytes "attach") (bytes "attach [OPTIONS] CONTAINER")
          (bytes "Attach local standard input, output, and error streams to a running container")
          [{ Name := bytes "detach-keys",
             Usage := bytes "Override the key sequence for detaching a container",
             ValueType := bytes "string" },
           { Name := bytes "no-stdin", Usage := bytes "Do not attach STDIN",
             ValueType := bytes "bool" },
           { Name := bytes "sig-proxy",
             Usage := bytes "Proxy all received signals to the process",
             ValueType := bytes "bool" }] []).Flags
        [bytes "DetachKeys", bytes "NoStdin", bytes "SigProxy"]
    ∧ ∃ text : GoString,
        generateStructDefinition
            (Command.mk (bytes "attach") (bytes "attach [OPTIONS] CONTAINER")
              (bytes
                "Attach local standard input, output, and error streams to a running container")
              [{ Name := bytes "detach-keys",
                 Usage := bytes "Override the key sequence for detaching a container",
                 ValueType := bytes "string" },
               { Name := bytes "no-stdin", Usage := bytes "Do not attach STDIN",
                 ValueType := bytes "bool" },
               { Name := bytes "sig-proxy",
                 Usage := bytes "Proxy all received signals to the process",
                 ValueType := bytes "bool" }] [])
            [bytes "docker", bytes "attach"]
          = some text :=
  ⟨by decide,
    List.Forall₂.cons (by decide)
      (List.Forall₂.cons (by decide) (List.Forall₂.cons (by decide) List.Forall₂.nil)),
    ⟨_, (fields_and_blocks_follow_the_flags _ _ (bytes "DockerAttach")
      [bytes "DetachKeys", bytes "NoStdin", bytes "SigProxy"] (by decide)
      (List.Forall₂.cons (by decide)
        (List.Forall₂.cons (by decide) (List.Forall₂.cons (by decide) List.Forall₂.nil)))).1⟩⟩

end Generate

namespace Docker

/-- C19: for every options value of `DockerVolumeCreateCmd` whose `Opt` map is unset or
has at most one entry, and all positionals, the result is `["volume","create"]`,
then the entry of `Driver`, the pairs `--label`, `l` for the elements `l` of `Label`
in order, the entry of `Name`, the pair `--opt`, `k=v` for the entry of `Opt`, and
the positionals: the fields in their declaration order. Such a map has one
enumeration only, so the result does not depend on the order of enumeration. -/
theorem DockerVolumeCreateCmd_in_declaration_order (opt : DockerVolumeCreateOption)
    (args : List GoString) (h : ∀ m, opt.Opt = some m → m.length ≤ 1) :
    DockerVolumeCreateCmd opt args
        = exec.Command (bytes "docker")
            ([bytes "volume", bytes "create"]
              ++ (match opt.Driver with
                  | none => []
                  | some v => [bytes "--driver=" ++ v])
              ++ (match opt.Label with
                  | none => []
                  | some l => l.flatMap fun str => [bytes "--label", str])
              ++ (match opt.Name with
                  | none => []
                  | some v => [bytes "--name=" ++ v])
              ++ (match opt.Opt with
                  | some [kv] => [bytes "--opt", kv.1 ++ bytes "=" ++ kv.2]
                  | _ => [])
              ++ args)
    ∧ ∀ m order : GoMap, opt.Opt = some m → order.Perm m → order = m := by
  constructor
  · rw [DockerVolumeCreateCmd_eq]
    have hopt : mapEntries (bytes "--opt") opt.Opt
        = (match opt.Opt with
            | some [kv] => [bytes "--opt", kv.1 ++ bytes "=" ++ kv.2]
            | _ => []) := by
      cases hm : opt.Opt with
      | none => rfl
      | some m =>
        have hlen := h m hm
        match m, hlen with
        | [], _ => rfl
        | [kv], _ => rfl
        | _ :: _ :: _, hlen => simp at hlen
    rw [hopt]
    cases opt.Driver <;> cases opt.Label <;> cases opt.Name <;> rfl
  · intro m order hm hperm
    have hlen := h m hm
    match m, hlen, hperm with
    | [], _, hperm => exact List.Perm.eq_nil hperm
    | [kv], _, hperm => exact List.perm_singleton.1 hperm
    | _ :: _ :: _, hlen, _ => simp at hlen

/-- Witness of C19: a driver, two labels and a map of one entry. -/
theorem DockerVolumeCreateCmd_in_declaration_order_witness :
    (∀ m, (some [(bytes "type", bytes "nfs")] : Option GoMap) = some m → m.length ≤ 1)
    ∧ DockerVolumeCreateCmd
          { Driver := some (bytes "local"), Label := some [bytes "a", bytes "b"],
            Opt := some [(bytes "type", bytes "nfs")] } [bytes "vol"]
        = exec.Command (bytes "docker")
            [bytes "volume", bytes "create", bytes "--driver=local", bytes "--label", bytes "a",
              bytes "--label", bytes "b", bytes "--opt", bytes "type=nfs", bytes "vol"] :=
  ⟨fun m hm => by cases hm; decide,
    (DockerVolumeCreateCmd_in_declaration_order
      { Driver := some (bytes "local"), Label := some [bytes "a", bytes "b"],
        Opt := some [(bytes "type", bytes "nfs")] } [bytes "vol"]
      (fun m hm => by cases hm; decide)).1.trans (by decide)⟩

end Docker

/-! ## The walk of the command tree -/

namespace Generate

theorem printAll_append (a b : List (Option GoString)) :
    printAll (a ++ b)
      = match printAll a with
        | none => none
        | some x =>
          match printAll b with
          | none => none
          | some y => some (x ++ y) := by
  induction a with
  | nil =>
    simp only [List.nil_append, printAll]
    cases printAll b <;> simp
  | cons o os ih =>
    cases o with
    | none => simp [printAll]
    | some text =>
      show (match printAll (os ++ b) with
        | none => none
        | some more => some (text ++ more)) = _
      rw [ih]
      show _ = (match (match printAll os with
          | none => none
          | some more => some (text ++ more)) with
        | none => none
        | some x =>
          match printAll b with
          | none => none
          | some y => some (x ++ y))
      cases printAll os with
      | none => rfl
      | some x =>
        cases printAll b with
        | none => rfl
        | some y => simp only [List.append_assoc]

theorem printAll_of_forall₂ {α : Type} (f : α → Option GoString) (l : List α)
    (texts : List GoString) (h : List.Forall₂ (fun a text => f a = some text) l texts) :
    printAll (l.map f) = some texts.flatten := by
  induction h with
  | nil => rfl
  | cons ha _ ih => simp [printAll, ha, ih]

theorem generateCode_mk (name use short : GoString) (flags : List Flag) (commands : List Command)
    (parents : Option (List GoString)) :
    generateCode (.mk name use short flags commands) parents
      = match generateStructDefinition (.mk name use short flags commands)
            (parents.getD [] ++ [name]) with
        | none => none
        | some text =>
          match generateCodeRange commands (parents.getD [] ++ [name]) with
          | none => none
          | some rest => some (text ++ rest) := by
  cases parents <;> rfl

theorem generateCodeRange_nil (names : List GoString) :
    generateCodeRange [] names = some [] := by
  rfl

theorem generateCodeRange_cons (cmd : Command) (rest : List Command) (names : List GoString) :
    generateCodeRange (cmd :: rest) names
      = match generateCode cmd (some names) with
        | none => none
        | some text =>
          match generateCodeRange rest names with
          | none => none
          | some more => some (text ++ more) := by
  rfl

theorem visits_mk (name use short : GoString) (flags : List Flag) (commands : List Command)
    (above : List GoString) :
    (Command.mk name use short flags commands).visits above
      = (.mk name use short flags commands, above ++ [name])
        :: Command.visitsOfChildren commands (above ++ [name]) := by
  rfl

theorem visitsOfChildren_cons (cmd : Command) (rest : List Command) (above : List GoString) :
    Command.visitsOfChildren (cmd :: rest) above
      = cmd.visits above ++ Command.visitsOfChildren rest above := by
  rfl

theorem size_mk (name use short : GoString) (flags : List Flag) (commands : List Command) :
    (Command.mk name use short flags commands).size = 1 + Command.sizeOfChildren commands := by
  rfl

theorem sizeOfChildren_cons (cmd : Command) (rest : List Command) :
    Command.sizeOfChildren (cmd :: rest) = cmd.size + Command.sizeOfChildren rest := by
  rfl
mutual
theorem generateCode_eq_printAll (cmd : Command) (parents : Option (List GoString)) :
    generateCode cmd parents
      = printAll ((cmd.visits (parents.getD [])).map fun v =>
          generateStructDefinition v.1 v.2) := by
  match cmd with
  | .mk name use short flags commands =>
    rw [generateCode_mk, visits_mk, List.map_cons,
      generateCodeRange_eq_printAll commands (parents.getD [] ++ [name])]
    cases generateStructDefinition (Command.mk name use short flags commands)
      (parents.getD [] ++ [name]) <;> rfl

theorem generateCodeRange_eq_printAll (cmds : List Command) (names : List GoString) :
    generateCodeRange cmds names
      = printAll ((Command.visitsOfChildren cmds names).map fun v =>
          generateStructDefinition v.1 v.2) := by
  match cmds with
  | [] => rfl
  | cmd :: rest =>
    rw [generateCodeRange_cons, visitsOfChildren_cons, List.map_append, printAll_append,
      generateCode_eq_printAll cmd (some names), generateCodeRange_eq_printAll rest names]
    rfl
end

mutual
theorem length_visits (cmd : Command) (above : List GoString) :
    (cmd.visits above).length = cmd.size := by
  match cmd with
  | .mk name use short flags commands =>
    rw [visits_mk, size_mk, List.length_cons, length_visitsOfChildren commands]
    omega

theorem length_visitsOfChildren (cmds : List Command) (above : List GoString) :
    (Command.visitsOfChildren cmds above).length = Command.sizeOfChildren cmds := by
  match cmds with
  | [] => rfl
  | cmd :: rest =>
    rw [visitsOfChildren_cons, sizeOfChildren_cons, List.length_append,
      length_visits cmd above, length_visitsOfChildren rest above]
end

theorem generateCodeRange_of_forall₂ (cmds : List Command) (names : List GoString)
    (texts : List GoString)
    (h : List.Forall₂ (fun cmd text => generateCode cmd (some names) = some text) cmds texts) :
    generateCodeRange cmds names = some texts.flatten := by
  induction h with
  | nil => rfl
  | cons hc _ ih => rw [generateCodeRange_cons, hc, ih]; rfl

set_option maxRecDepth 100000 in
/-- C20, counterexample: for the root `docker` to which `volume` was added before
`builder`, `Commands()` returns `builder` before `volume`, and the text
`generateCode` prints is the text of the root, then that of `builder`, then that of
`volume`; it is not the text with the children in the order they were declared. -/
theorem children_are_not_walked_in_declared_order :
    declaredVolumeThenBuilder.Commands = [volumeLeaf, builderLeaf]
    ∧ declaredVolumeThenBuilder.asReturned.Commands = [builderLeaf, volumeLeaf]
    ∧ generateCode declaredVolumeThenBuilder.asReturned none
        = some (bytes ("/*\nDockerCmd is wrapper of 'docker'\n" ++
              "------------------------------\n" ++
              "docker [OPTIONS] COMMAND [ARG...]\n" ++
              "A self-sufficient runtime for containers\n" ++
              "------------------------------\n*/\n" ++
              "func DockerCmd(args []string) *exec.Cmd \x7b\n" ++
              "\tcargs := []string\x7b\x7d\n" ++
              "\tcargs = append(cargs, args...)\n" ++
              "\treturn exec.Command(\"docker\", cargs...)\n\x7d\n\n")
          ++ bytes ("/*\nDockerBuilderCmd is wrapper of 'docker builder'\n" ++
              "------------------------------\n" ++
              "builder\n" ++
              "Manage builds\n" ++
              "------------------------------\n*/\n" ++
              "func DockerBuilderCmd(args []string) *exec.Cmd \x7b\n" ++
              "\tcargs := []string\x7b\"builder\"\x7d\n" ++
              "\tcargs = append(cargs, args...)\n" ++
              "\treturn exec.Command(\"docker\", cargs...)\n\x7d\n\n")
          ++ bytes ("/*\nDockerVolumeCmd is wrapper of 'docker volume'\n" ++
              "------------------------------\n" ++
              "volume COMMAND\n" ++
              "Manage volumes\n" ++
              "------------------------------\n*/\n" ++
              "func DockerVolumeCmd(args []string) *exec.Cmd \x7b\n" ++
              "\tcargs := []string\x7b\"volume\"\x7d\n" ++
              "\tcargs = append(cargs, args...)\n" ++
              "\treturn exec.Command(\"docker\", cargs...)\n\x7d\n\n"))
    ∧ generateCode declaredVolumeThenBuilder.asReturned none
        ≠ some (bytes ("/*\nDockerCmd is wrapper of 'docker'\n" ++
              "------------------------------\n" ++
              "docker [OPTIONS] COMMAND [ARG...]\n" ++
              "A self-sufficient runtime for containers\n" ++
              "------------------------------\n*/\n" ++
              "func DockerCmd(args []string) *exec.Cmd \x7b\n" ++
              "\tcargs := []string\x7b\x7d\n" ++
              "\tcargs = append(cargs, args...)\n" ++
              "\treturn exec.Command(\"docker\", cargs...)\n\x7d\n\n")
          ++ bytes ("/*\nDockerVolumeCmd is wrapper of 'docker volume'\n" ++
              "------------------------------\n" ++
              "volume COMMAND\n" ++
              "Manage volumes\n" ++
              "------------------------------\n*/\n" ++
              "func DockerVolumeCmd(args []string) *exec.Cmd \x7b\n" ++
              "\tcargs := []string\x7b\"volume\"\x7d\n" ++
              "\tcargs = append(cargs, args...)\n" ++
              "\treturn exec.Command(\"docker\", cargs...)\n\x7d\n\n")
          ++ bytes ("/*\nDockerBuilderCmd is wrapper of 'docker builder'\n" ++
              "------------------------------\n" ++
              "builder\n" ++
              "Manage builds\n" ++
              "------------------------------\n*/\n" ++
              "func DockerBuilderCmd(args []string) *exec.Cmd \x7b\n" ++
              "\tcargs := []string\x7b\"builder\"\x7d\n" ++
              "\tcargs = append(cargs, args...)\n" ++
              "\treturn exec.Command(\"docker\", cargs...)\n\x7d\n\n")) := by
  have hroot : generateStructDefinition declaredVolumeThenBuilder.asReturned [bytes "docker"]
      = some (bytes ("/*\nDockerCmd is wrapper of 'docker'\n" ++
          "------------------------------\n" ++
          "docker [OPTIONS] COMMAND [ARG...]\n" ++
          "A self-sufficient runtime for containers\n" ++
          "------------------------------\n*/\n" ++
          "func DockerCmd(args []string) *exec.Cmd \x7b\n" ++
          "\tcargs := []string\x7b\x7d\n" ++
          "\tcargs = append(cargs, args...)\n" ++
          "\treturn exec.Command(\"docker\", cargs...)\n\x7d\n\n")) := by
    decide
  have hbuilder : generateStructDefinition builderLeaf [bytes "docker", bytes "builder"]
      = some (bytes ("/*\nDockerBuilderCmd is wrapper of 'docker builder'\n" ++
          "------------------------------\n" ++
          "builder\n" ++
          "Manage builds\n" ++
          "------------------------------\n*/\n" ++
          "func DockerBuilderCmd(args []string) *exec.Cmd \x7b\n" ++
          "\tcargs := []string\x7b\"builder\"\x7d\n" ++
          "\tcargs = append(cargs, args...)\n" ++
          "\treturn exec.Command(\"docker\", cargs...)\n\x7d\n\n")) := by
    decide
  have hvolume : generateStructDefinition volumeLeaf [bytes "docker", bytes "volume"]
      = some (bytes ("/*\nDockerVolumeCmd is wrapper of 'docker volume'\n" ++
          "------------------------------\n" ++
          "volume COMMAND\n" ++
          "Manage volumes\n" ++
          "------------------------------\n*/\n" ++
          "func DockerVolumeCmd(args []string) *exec.Cmd \x7b\n" ++
          "\tcargs := []string\x7b\"volume\"\x7d\n" ++
          "\tcargs = append(cargs, args...)\n" ++
          "\treturn exec.Command(\"docker\", cargs...)\n\x7d\n\n")) := by
    decide
  have htext : generateCode declaredVolumeThenBuilder.asReturned none
      = printAll
          [generateStructDefinition declaredVolumeThenBuilder.asReturned [bytes "docker"],
            generateStructDefinition builderLeaf [bytes "docker", bytes "builder"],
            generateStructDefinition volumeLeaf [bytes "docker", bytes "volume"]] := by
    rw [generateCode_eq_printAll]
    rfl
  rw [htext, hroot, hbuilder, hvolume]
  refine ⟨rfl, rfl, ?_, ?_⟩
  · simp only [printAll, List.append_nil, List.append_assoc]
  · simp only [printAll, List.append_nil, List.append_assoc, ne_eq, Option.some.injEq,
      List.append_cancel_left_eq]
    decide

/-- C20, amended: the text `generateCode` prints for a command tree is the text of
`generateStructDefinition` for the root followed, for each child in the order of
`Commands()`, by the whole text of the subtree of that child; flattened, it is the
texts of `generateStructDefinition` for the visits of the pre-order walk, one text,
with its one builder function, per node of the tree. A run in which a name cannot
be derived panics, and `generateCode` completes exactly when no visit panics. -/
theorem generateCode_walks_in_preorder :
    (∀ (cmd : Command) (parents : Option (List GoString)) (text : GoString)
        (childTexts : List GoString),
        generateStructDefinition cmd (parents.getD [] ++ [cmd.Name]) = some text →
        List.Forall₂
          (fun child childText =>
            generateCode child (some (parents.getD [] ++ [cmd.Name])) = some childText)
          cmd.Commands childTexts →
        generateCode cmd parents = some (text ++ childTexts.flatten))
    ∧ (∀ (cmd : Command) (parents : Option (List GoString)) (texts : List GoString),
        List.Forall₂ (fun v text => generateStructDefinition v.1 v.2 = some text)
          (cmd.visits (parents.getD [])) texts →
        generateCode cmd parents = some texts.flatten ∧ texts.length = cmd.size)
    ∧ (∀ (cmd : Command) (parents : Option (List GoString)),
        generateCode cmd parents
          = printAll ((cmd.visits (parents.getD [])).map fun v =>
              generateStructDefinition v.1 v.2))
    ∧ ∀ (cmd : Command) (above : List GoString), (cmd.visits above).length = cmd.size := by
  refine ⟨fun cmd parents text childTexts htext hchildren => ?_,
    fun cmd parents texts h => ⟨?_, ?_⟩, generateCode_eq_printAll, length_visits⟩
  · match cmd, htext, hchildren with
    | .mk name use short flags commands, htext, hchildren =>
      simp only [Command.Name, Command.Commands] at htext hchildren
      rw [generateCode_mk, htext, generateCodeRange_of_forall₂ commands _ childTexts hchildren]
  · rw [generateCode_eq_printAll]
    exact printAll_of_forall₂ _ _ texts h
  · rw [← h.length_eq, length_visits]

set_option maxRecDepth 100000 in
/-- Witness of C20, amended: the tree `sampleTree` of four nodes. -/
theorem generateCode_walks_in_preorder_witness :
    List.Forall₂ (fun v text => generateStructDefinition v.1 v.2 = some text)
        (sampleTree.visits ((none : Option (List GoString)).getD []))
        ((sampleTree.visits []).map fun v => (generateStructDefinition v.1 v.2).getD [])
    ∧ generateCode sampleTree none
        = some ((sampleTree.visits []).map fun v =>
            (generateStructDefinition v.1 v.2).getD []).flatten
    ∧ ((sampleTree.visits []).map fun v => (generateStructDefinition v.1 v.2).getD []).length
        = sampleTree.size :=
  ⟨List.forall₂_map_right_iff.2 (List.forall₂_same.2 (by decide)),
    generateCode_walks_in_preorder.2.1 sampleTree none _
      (List.forall₂_map_right_iff.2 (List.forall₂_same.2 (by decide)))⟩

end Generate

/-! ## Help texts and flag tokens -/

namespace Generate

theorem visitFlag_eq (acc : GoString × List fieldValue) (flag : Flag) (name : GoString)
    (hname : generateFieldName flag = some name) :
    visitFlag acc flag = some (acc.1 ++ fieldText flag name, acc.2 ++ [fieldValueOf flag name]) := by
  simp only [visitFlag, hname, fieldText, fieldValueOf, List.append_assoc]

theorem fieldText_eq (flag : Flag) (name : GoString) :
    fieldText flag name
      = bytes "\t/*\n\t" ++ flag.Usage ++ bytes "\n\t*/\n\t" ++ name ++ bytes " "
        ++ generateTypeName flag ++ bytes "\n\n" := by
  have h : bytes "\n\t*/\n\t" = bytes "\n\t*/\n" ++ bytes "\t" := by decide
  simp only [fieldText, h, List.append_assoc]

/-- C24: the help text of a flag is copied byte for byte into a block comment placed
immediately before the declaration of the field of that flag. For every flag whose
field name can be derived, the closure run by `VisitAll` appends to `fields` exactly
the text `"\t/*\n\t" ++ helpText ++ "\n\t*/\n\t" ++ fieldName ++ " " ++ fieldType ++
"\n\n"`, whatever bytes the help text holds, and the text `fields` of a node is the
concatenation of these texts over its flags. -/
theorem help_text_is_copied_verbatim (flag : Flag) (name : GoString)
    (hname : generateFieldName flag = some name) :
    (∀ acc : GoString × List fieldValue,
      visitFlag acc flag
        = some (acc.1 ++ (bytes "\t/*\n\t" ++ flag.Usage ++ bytes "\n\t*/\n\t" ++ name
              ++ bytes " " ++ generateTypeName flag ++ bytes "\n\n"),
            acc.2 ++ [{ flag := flag.Name, name := name, typ := generateTypeName flag }]))
    ∧ (∀ (flags : List Flag) (fieldNames : List GoString),
        List.Forall₂ (fun flag name => generateFieldName flag = some name) flags fieldNames →
        flags.foldlM visitFlag (bytes "", [])
          = some ((flags.zip fieldNames).flatMap (fun p =>
              bytes "\t/*\n\t" ++ p.1.Usage ++ bytes "\n\t*/\n\t" ++ p.2 ++ bytes " "
                ++ generateTypeName p.1 ++ bytes "\n\n"),
              (flags.zip fieldNames).map fun p =>
                { flag := p.1.Name, name := p.2, typ := generateTypeName p.1 })) := by
  refine ⟨fun acc => ?_, fun flags fieldNames h => ?_⟩
  · rw [visitFlag_eq acc flag name hname, fieldText_eq]
    rfl
  · rw [foldlM_visitFlag flags fieldNames h]
    have hempty : bytes "" = [] := rfl
    simp only [hempty, List.nil_append, fieldText_eq]
    rfl

set_option maxRecDepth 100000 in
/-- Witness of C24: a help text of two lines that holds blanks at both ends, a
comment terminator and a double quote. -/
theorem help_text_is_copied_verbatim_witness :
    generateFieldName
        { Name := bytes "add-host", Usage := bytes "  Add a \"host\" */ entry\n(host:ip) ",
          ValueType := bytes "list" } = some (bytes "AddHost")
    ∧ visitFlag (bytes "", [])
          { Name := bytes "add-host", Usage := bytes "  Add a \"host\" */ entry\n(host:ip) ",
            ValueType := bytes "list" }
        = some (bytes "\t/*\n\t  Add a \"host\" */ entry\n(host:ip) \n\t*/\n\tAddHost []string\n\n",
            [{ flag := bytes "add-host", name := bytes "AddHost", typ := bytes "[]string" }]) :=
  ⟨by decide,
    ((help_text_is_copied_verbatim
      { Name := bytes "add-host", Usage := bytes "  Add a \"host\" */ entry\n(host:ip) ",
        ValueType := bytes "list" } (bytes "AddHost") (by decide)).1 (bytes "", [])).trans
      (by decide)⟩

theorem blockText_long_name (longName name typ : GoString) :
    blockText { flag := longName, name := name, typ := typ }
      = (bytes "\tif opt." ++ name ++ bytes " != nil \x7b\n"
          ++ (if typ = bytes "[]string" then
                bytes "\tfor _, str := range opt." ++ name ++ bytes " \x7b\n"
              else if typ = bytes "map[string]string" then
                bytes "\tfor key, val := range opt." ++ name ++ bytes " \x7b\n"
              else [])
          ++ bytes "\t\tcargs = append(cargs, ")
        ++ bytes "\"--" ++ longName
        ++ (if typ = bytes "[]string" then
              bytes "\")\n" ++ bytes "\t\tcargs = append(cargs, str)\n" ++ bytes "\t\x7d\n"
            else if typ = bytes "map[string]string" then
              bytes "\")\n" ++ bytes "\t\tcargs = append(cargs, key + \"=\" + val)\n"
                ++ bytes "\t\x7d\n"
            else bytes "=\" + fmt.Sprint(*opt." ++ name ++ bytes "))\n")
        ++ bytes "\t\x7d\n" := by
  have h : bytes "\t\tcargs = append(cargs, \"--"
      = bytes "\t\tcargs = append(cargs, " ++ bytes "\"--" := by decide
  unfold blockText writeBlock
  dsimp only
  split_ifs <;> simp only [h, List.nil_append, List.append_nil, List.append_assoc]

set_option maxRecDepth 100000 in
/-- C25: the flag token written into a rendering block is `--` followed by the long
name of the flag as declared, never the name of the field. In the block of every
field, the long name stands byte for byte right after the opening `"--` of the
token, and the text before and after it is fixed by the name and the type of the
field alone. The flag `no-cache` is tested through the field `NoCache` and rendered
as `--no-cache=...`, the list flag `add-host` through the field `AddHost` and
rendered as the token `--add-host`; neither block holds `--NoCache` or `--AddHost`,
and `DockerBuildCmd` renders the two options with these tokens. -/
theorem flag_token_is_the_long_name :
    (∀ name typ : GoString, ∃ before after : GoString, ∀ longName : GoString,
      blockText { flag := longName, name := name, typ := typ }
        = before ++ bytes "\"--" ++ longName ++ after)
    ∧ generateFieldName
          { Name := bytes "no-cache", Usage := bytes "Do not use cache when building the image",
            ValueType := bytes "bool" } = some (bytes "NoCache")
    ∧ blockText { flag := bytes "no-cache", name := bytes "NoCache", typ := bytes "*bool" }
        = bytes "\tif opt.NoCache != nil \x7b\n\t\tcargs = append(cargs, \"--no-cache=\" + fmt.Sprint(*opt.NoCache))\n\t\x7d\n"
    ∧ ¬ (bytes "--NoCache"
          <:+: blockText { flag := bytes "no-cache", name := bytes "NoCache", typ := bytes "*bool" })
    ∧ generateFieldName
          { Name := bytes "add-host", Usage := bytes "Add a custom host-to-IP mapping (host:ip)",
            ValueType := bytes "list" } = some (bytes "AddHost")
    ∧ blockText { flag := bytes "add-host", name := bytes "AddHost", typ := bytes "[]string" }
        = bytes "\tif opt.AddHost != nil \x7b\n\tfor _, str := range opt.AddHost \x7b\n\t\tcargs = append(cargs, \"--add-host\")\n\t\tcargs = append(cargs, str)\n\t\x7d\n\t\x7d\n"
    ∧ ¬ (bytes "--AddHost"
          <:+: blockText { flag := bytes "add-host", name := bytes "AddHost", typ := bytes "[]string" })
    ∧ (∀ (b : Bool) (args : List GoString),
        Docker.DockerBuildCmd { NoCache := some b } args
          = exec.Command (bytes "docker")
              ([bytes "build", bytes "--no-cache=" ++ fmt.Sprint b] ++ args))
    ∧ (∀ (hosts args : List GoString),
        Docker.DockerBuildCmd { AddHost := some hosts } args
          = exec.Command (bytes "docker")
              ([bytes "build"] ++ hosts.flatMap (fun host => [bytes "--add-host", host])
                ++ args)) := by
  refine ⟨fun name typ =>
    ⟨bytes "\tif opt." ++ name ++ bytes " != nil \x7b\n"
        ++ (if typ = bytes "[]string" then
              bytes "\tfor _, str := range opt." ++ name ++ bytes " \x7b\n"
            else if typ = bytes "map[string]string" then
              bytes "\tfor key, val := range opt." ++ name ++ bytes " \x7b\n"
            else [])
        ++ bytes "\t\tcargs = append(cargs, ",
      (if typ = bytes "[]string" then
          bytes "\")\n" ++ bytes "\t\tcargs = append(cargs, str)\n" ++ bytes "\t\x7d\n"
        else if typ = bytes "map[string]string" then
          bytes "\")\n" ++ bytes "\t\tcargs = append(cargs, key + \"=\" + val)\n"
            ++ bytes "\t\x7d\n"
        else bytes "=\" + fmt.Sprint(*opt." ++ name ++ bytes "))\n")
        ++ bytes "\t\x7d\n", fun longName => ?_⟩, by decide, by decide, by decide,
    by decide, by decide, by decide, fun b args => ?_, fun hosts args => ?_⟩
  · rw [blockText_long_name longName name typ]
    simp only [List.append_assoc]
  · rw [Docker.DockerBuildCmd_eq]
    simp [Docker.scalarEntries, Docker.listEntries, Docker.mapEntries]
  · rw [Docker.DockerBuildCmd_eq]
    simp [Docker.scalarEntries, Docker.listEntries, Docker.mapEntries]

end Generate

/-! ## The initialiser and the comment block -/

namespace Docker

/-- The argument vector of `DockerSwarmJoinTokenCmd`: the subcommand tokens, the entries of
each field in declaration order, the positionals. -/
theorem DockerSwarmJoinTokenCmd_eq (opt : DockerSwarmJoinTokenOption) (args : List GoString) :
    DockerSwarmJoinTokenCmd opt args = exec.Command (bytes "docker")
      ([bytes "swarm", bytes "join-token"]
        ++ scalarEntries (bytes "--quiet=") opt.Quiet
        ++ scalarEntries (bytes "--rotate=") opt.Rotate
        ++ args) := by
  simp only [DockerSwarmJoinTokenCmd, ifSet_scalar, ifSet_list, ifSet_map]

end Docker

namespace Generate

theorem intercalate_cons_eq (sep a : GoString) (l : List GoString) :
    sep.intercalate (a :: l) = a ++ l.flatMap fun x => sep ++ x := by
  induction l generalizing a with
  | nil => simp [List.intercalate]
  | cons b l ih => rw [intercalate_cons_cons, ih, List.flatMap_cons, List.append_assoc,
      List.append_assoc]

theorem quotedList_cons (second : GoString) (rest : List GoString) :
    quotedList (second :: rest)
      = bytes "\"" ++ second ++ bytes "\""
        ++ rest.flatMap fun name => bytes ", " ++ (bytes "\"" ++ name ++ bytes "\"") := by
  unfold quotedList
  rw [List.map_cons, intercalate_cons_eq, List.flatMap_map]

set_option maxRecDepth 100000 in
/-- C28: for a path `names` of at least two elements, the initialiser
`generateStructDefinition` writes is `cargs := []string{`, then the elements
`names[1]`, ..., `names[n-1]` in order, each in double quotes, with `", "` before every
one but the first of them and nothing after the last, then `}`. The first element
`names[0]` has no part in it: another root name gives the same initialiser. The
path `docker swarm join-token` gives `cargs := []string{"swarm", "join-token"}`, and the
argument vector of `DockerSwarmJoinTokenCmd` starts with these two tokens. -/
theorem initialiser_lists_the_path_after_the_root (cmd : Command) (root second : GoString)
    (rest : List GoString) (cmdName : GoString) (fieldNames : List GoString)
    (hname : generateCmdName (root :: second :: rest) = some cmdName)
    (hflags : List.Forall₂ (fun flag name => generateFieldName flag = some name)
      cmd.Flags fieldNames) :
    generateStructDefinition cmd (root :: second :: rest)
        = some (writeHeader cmd (root :: second :: rest) cmdName
              ((cmd.Flags.zip fieldNames).flatMap fun p => fieldText p.1 p.2)
            ++ (bytes "\tcargs := []string\x7b"
              ++ (bytes "\"" ++ second ++ bytes "\""
                ++ rest.flatMap fun name => bytes ", " ++ (bytes "\"" ++ name ++ bytes "\""))
              ++ bytes "\x7d\n")
            ++ ((cmd.Flags.zip fieldNames).map fun p => fieldValueOf p.1 p.2).flatMap blockText
            ++ bytes "\tcargs = append(cargs, args...)\n"
            ++ bytes "\treturn exec.Command(\"docker\", cargs...)\n\x7d\n\n")
    ∧ (∀ result : GoString,
        writeInitialiser (root :: second :: rest) result
          = result ++ (bytes "\tcargs := []string\x7b"
              ++ (bytes "\"" ++ second ++ bytes "\""
                ++ rest.flatMap fun name => bytes ", " ++ (bytes "\"" ++ name ++ bytes "\""))
              ++ bytes "\x7d\n"))
    ∧ (∀ other result : GoString,
        writeInitialiser (other :: second :: rest) result
          = writeInitialiser (root :: second :: rest) result)
    ∧ writeInitialiser [bytes "docker", bytes "swarm", bytes "join-token"] []
        = bytes "\tcargs := []string\x7b\"swarm\", \"join-token\"\x7d\n"
    ∧ ∀ (opt : Docker.DockerSwarmJoinTokenOption) (args : List GoString),
        Docker.DockerSwarmJoinTokenCmd opt args
          = exec.Command (bytes "docker")
              ([bytes "swarm", bytes "join-token"]
                ++ (Docker.scalarEntries (bytes "--quiet=") opt.Quiet
                  ++ Docker.scalarEntries (bytes "--rotate=") opt.Rotate ++ args)) := by
  refine ⟨?_, fun result => ?_, fun other result => ?_, by decide, fun opt args => ?_⟩
  · rw [generateStructDefinition_eq cmd _ cmdName fieldNames hname hflags, List.tail_cons,
      quotedList_cons]
    simp only [List.append_assoc]
  · rw [writeInitialiser_eq, List.tail_cons, quotedList_cons]
    simp only [List.append_assoc]
  · rw [writeInitialiser_eq, writeInitialiser_eq, List.tail_cons, List.tail_cons]
  · rw [Docker.DockerSwarmJoinTokenCmd_eq]
    simp only [List.append_assoc]

set_option maxRecDepth 100000 in
/-- Witness of C28: the node `docker swarm join-token`, whose text is generated and holds
the initialiser of `DockerSwarmJoinTokenCmd` in `docker/docker.go`. -/
theorem initialiser_lists_the_path_after_the_root_witness :
    generateCmdName [bytes "docker", bytes "swarm", bytes "join-token"]
      = some (bytes "DockerSwarmJoinToken")
    ∧ List.Forall₂ (fun flag name => generateFieldName flag = some name)
        swarmJoinTokenNode.Flags [bytes "Quiet", bytes "Rotate"]
    ∧ (∃ text : GoString,
        generateStructDefinition swarmJoinTokenNode
            [bytes "docker", bytes "swarm", bytes "join-token"] = some text)
    ∧ writeInitialiser [bytes "docker", bytes "swarm", bytes "join-token"]
          (bytes "func DockerSwarmJoinTokenCmd(opt DockerSwarmJoinTokenOption, args []string) *exec.Cmd \x7b\n")
        = bytes "func DockerSwarmJoinTokenCmd(opt DockerSwarmJoinTokenOption, args []string) *exec.Cmd \x7b\n\tcargs := []string\x7b\"swarm\", \"join-token\"\x7d\n" :=
  ⟨by decide,
    List.Forall₂.cons (by decide) (List.Forall₂.cons (by decide) List.Forall₂.nil),
    ⟨_, (initialiser_lists_the_path_after_the_root swarmJoinTokenNode (bytes "docker")
      (bytes "swarm") [bytes "join-token"] (bytes "DockerSwarmJoinToken")
      [bytes "Quiet", bytes "Rotate"] (by decide)
      (List.Forall₂.cons (by decide) (List.Forall₂.cons (by decide) List.Forall₂.nil))).1⟩,
    ((initialiser_lists_the_path_after_the_root swarmJoinTokenNode (bytes "docker")
      (bytes "swarm") [bytes "join-token"] (bytes "DockerSwarmJoinToken")
      [bytes "Quiet", bytes "Rotate"] (by decide)
      (List.Forall₂.cons (by decide) (List.Forall₂.cons (by decide) List.Forall₂.nil))).2.1
      _).trans (by decide)⟩

end Generate

namespace Generate

theorem commentBlock_eq (cmd : Command) (names : List GoString) (cmdName : GoString) :
    commentBlock cmd names cmdName
      = bytes "/*\n" ++ cmdName ++ bytes "Cmd is wrapper of '" ++ (bytes " ").intercalate names
        ++ bytes "'\n" ++ List.replicate 30 hyphen ++ bytes "\n" ++ cmd.Use ++ bytes "\n"
        ++ cmd.Short ++ bytes "\n" ++ List.replicate 30 hyphen ++ bytes "\n*/\n" := by
  have h1 : bytes "------------------------------\n" = List.replicate 30 hyphen ++ bytes "\n" := by
    decide
  have h2 : bytes "\n*/\n" = bytes "\n" ++ bytes "*/\n" := by decide
  simp only [commentBlock, strings.Join, h1, h2, List.append_assoc]

theorem writeHeader_eq (cmd : Command) (names : List GoString) (cmdName fields : GoString) :
    writeHeader cmd names cmdName fields
      = (if fields.isEmpty then []
          else bytes "type " ++ cmdName ++ bytes "Option struct \x7b\n" ++ fields
            ++ bytes "\x7d\n\n")
        ++ commentBlock cmd names cmdName
        ++ (bytes "func " ++ cmdName ++ bytes "Cmd" ++ bytes "("
          ++ (if fields.isEmpty then [] else bytes "opt " ++ cmdName ++ bytes "Option, ")
          ++ bytes "args []string" ++ bytes ") *exec.Cmd \x7b\n") := by
  cases fields with
  | nil =>
    rw [writeHeader_no_fields]
    simp only [List.isEmpty_nil, if_true, List.nil_append, List.append_assoc]
  | cons b rest =>
    rw [writeHeader_fields _ _ _ _ (List.cons_ne_nil b rest)]
    simp only [List.isEmpty_cons, Bool.false_eq_true, if_false, List.append_assoc]

theorem isEmpty_fields (flags : List Flag) (fieldNames : List GoString)
    (h : List.Forall₂ (fun flag name => generateFieldName flag = some name) flags fieldNames) :
    ((flags.zip fieldNames).flatMap fun p => fieldText p.1 p.2).isEmpty = flags.isEmpty := by
  cases h with
  | nil => rfl
  | cons _ _ =>
    rw [List.isEmpty_cons, Bool.eq_false_iff, ne_eq, List.isEmpty_iff]
    simp [fieldText_ne_nil]

/-- C29: the comment block of a node is `"/*\n"`, the base name followed by
`Cmd is wrapper of '`, all the elements of the path, the root included, joined by
single spaces, then `"'\n"`, a line of 30 hyphens, the usage line, the short
description, a second line of 30 hyphens and `"*/\n"`; `generateStructDefinition`
writes it after the declaration of the options record, if there is one, and
immediately before the line `func <Base>Cmd(` of the builder. -/
theorem comment_block_documents_the_path (cmd : Command) (names : List GoString)
    (cmdName : GoString) (fieldNames : List GoString)
    (hname : generateCmdName names = some cmdName)
    (hflags : List.Forall₂ (fun flag name => generateFieldName flag = some name)
      cmd.Flags fieldNames) :
    generateStructDefinition cmd names
        = some ((if cmd.Flags.isEmpty then []
              else bytes "type " ++ cmdName ++ bytes "Option struct \x7b\n"
                ++ ((cmd.Flags.zip fieldNames).flatMap fun p => fieldText p.1 p.2)
                ++ bytes "\x7d\n\n")
            ++ (bytes "/*\n" ++ cmdName ++ bytes "Cmd is wrapper of '"
              ++ (bytes " ").intercalate names ++ bytes "'\n"
              ++ List.replicate 30 hyphen ++ bytes "\n"
              ++ cmd.Use ++ bytes "\n"
              ++ cmd.Short ++ bytes "\n"
              ++ List.replicate 30 hyphen ++ bytes "\n*/\n")
            ++ (bytes "func " ++ cmdName ++ bytes "Cmd" ++ bytes "("
              ++ (if cmd.Flags.isEmpty then [] else bytes "opt " ++ cmdName ++ bytes "Option, ")
              ++ bytes "args []string" ++ bytes ") *exec.Cmd \x7b\n"
              ++ writeInitialiser names []
              ++ ((cmd.Flags.zip fieldNames).map fun p => fieldValueOf p.1 p.2).flatMap
                  blockText
              ++ bytes "\tcargs = append(cargs, args...)\n"
              ++ bytes "\treturn exec.Command(\"docker\", cargs...)\n\x7d\n\n"))
    ∧ commentBlock cmd names cmdName
        = bytes "/*\n" ++ cmdName ++ bytes "Cmd is wrapper of '"
          ++ (bytes " ").intercalate names ++ bytes "'\n"
          ++ List.replicate 30 hyphen ++ bytes "\n"
          ++ cmd.Use ++ bytes "\n"
          ++ cmd.Short ++ bytes "\n"
          ++ List.replicate 30 hyphen ++ bytes "\n*/\n"
    ∧ (List.replicate 30 hyphen).length = 30
    ∧ ∀ b ∈ List.replicate 30 hyphen, b = hyphen := by
  refine ⟨?_, commentBlock_eq cmd names cmdName, List.length_replicate _ _,
    fun b hb => List.eq_of_mem_replicate hb⟩
  rw [generateStructDefinition_eq cmd names cmdName fieldNames hname hflags, writeHeader_eq,
    isEmpty_fields cmd.Flags fieldNames hflags, commentBlock_eq, writeInitialiser_eq]
  simp only [List.append_assoc, List.nil_append]

set_option maxRecDepth 100000 in
/-- Witness of C29: the node `docker container stop`, whose comment block is the one
before `DockerContainerStopCmd` in `docker/docker.go`. -/
theorem comment_block_documents_the_path_witness :
    generateCmdName [bytes "docker", bytes "container", bytes "stop"]
      = some (bytes "DockerContainerStop")
    ∧ List.Forall₂ (fun flag name => generateFieldName flag = some name)
        containerStopNode.Flags [bytes "Time"]
    ∧ commentBlock containerStopNode [bytes "docker", bytes "container", bytes "stop"]
          (bytes "DockerContainerStop")
        = bytes "/*\nDockerContainerStopCmd is wrapper of 'docker container stop'\n------------------------------\nstop [OPTIONS] CONTAINER [CONTAINER...]\nStop one or more running containers\n------------------------------\n*/\n" :=
  ⟨by decide, List.Forall₂.cons (by decide) List.Forall₂.nil,
    ((comment_block_documents_the_path containerStopNode
      [bytes "docker", bytes "container", bytes "stop"] (bytes "DockerContainerStop")
      [bytes "Time"] (by decide) (List.Forall₂.cons (by decide) List.Forall₂.nil)).2.1).trans
      (by decide)⟩

end Generate

/-! ## The program name and the order of the parts -/

namespace Generate

set_option maxRecDepth 100000 in
/-- C22, counterexample: for a root command called `podman`, the text
`generateStructDefinition` returns ends with a call of `exec.Command` whose program
name is `docker`; it is not the text with `podman`, the root element of the path,
in that place, and `exec.Command("podman"` stands nowhere in it. -/
theorem program_name_of_a_root_called_podman :
    generateStructDefinition podmanRoot [bytes "podman"]
      = some (bytes ("/*\nPodmanCmd is wrapper of 'podman'\n" ++
          "------------------------------\n" ++
          "podman [options] [command]\n" ++
          "Manage pods\n" ++
          "------------------------------\n*/\n" ++
          "func PodmanCmd(args []string) *exec.Cmd \x7b\n" ++
          "\tcargs := []string\x7b\x7d\n" ++
          "\tcargs = append(cargs, args...)\n" ++
          "\treturn exec.Command(\"docker\", cargs...)\n\x7d\n\n"))
    ∧ generateStructDefinition podmanRoot [bytes "podman"]
      ≠ some (bytes ("/*\nPodmanCmd is wrapper of 'podman'\n" ++
          "------------------------------\n" ++
          "podman [options] [command]\n" ++
          "Manage pods\n" ++
          "------------------------------\n*/\n" ++
          "func PodmanCmd(args []string) *exec.Cmd \x7b\n" ++
          "\tcargs := []string\x7b\x7d\n" ++
          "\tcargs = append(cargs, args...)\n" ++
          "\treturn exec.Command(\"podman\", cargs...)\n\x7d\n\n"))
    ∧ (generateStructDefinition podmanRoot [bytes "podman"]).map
        (fun text => decide (bytes "exec.Command(\"podman\"" <:+: text)) = some false := by
  decide

theorem return_line_eq :
    bytes "\treturn exec.Command(\"docker\", cargs...)\n\x7d\n\n"
      = bytes "\treturn exec.Command(\"" ++ bytes "docker" ++ bytes "\", cargs...)\n\x7d\n\n" := by
  decide

/-- C22, amended: the program name written into the call of `exec.Command` of every
emitted builder is the fixed text `docker`, whatever the path is. The text ends with
the line `return exec.Command("docker", cargs...)`, and the name in that line is the
root element of the path exactly when the root command is called `docker`. -/
theorem program_name_is_the_literal_docker (cmd : Command) (root : GoString)
    (rest : List GoString) (cmdName : GoString) (fieldNames : List GoString)
    (hname : generateCmdName (root :: rest) = some cmdName)
    (hflags : List.Forall₂ (fun flag name => generateFieldName flag = some name)
      cmd.Flags fieldNames) :
    generateStructDefinition cmd (root :: rest)
        = some (writeHeader cmd (root :: rest) cmdName
              ((cmd.Flags.zip fieldNames).flatMap fun p => fieldText p.1 p.2)
            ++ writeInitialiser (root :: rest) []
            ++ ((cmd.Flags.zip fieldNames).map fun p => fieldValueOf p.1 p.2).flatMap blockText
            ++ bytes "\tcargs = append(cargs, args...)\n"
            ++ (bytes "\treturn exec.Command(\"" ++ bytes "docker"
              ++ bytes "\", cargs...)\n\x7d\n\n"))
    ∧ (generateStructDefinition cmd (root :: rest)
        = some (writeHeader cmd (root :: rest) cmdName
              ((cmd.Flags.zip fieldNames).flatMap fun p => fieldText p.1 p.2)
            ++ writeInitialiser (root :: rest) []
            ++ ((cmd.Flags.zip fieldNames).map fun p => fieldValueOf p.1 p.2).flatMap blockText
            ++ bytes "\tcargs = append(cargs, args...)\n"
            ++ (bytes "\treturn exec.Command(\"" ++ root
              ++ bytes "\", cargs...)\n\x7d\n\n"))
      ↔ root = bytes "docker") := by
  have htext : generateStructDefinition cmd (root :: rest)
      = some (writeHeader cmd (root :: rest) cmdName
            ((cmd.Flags.zip fieldNames).flatMap fun p => fieldText p.1 p.2)
          ++ writeInitialiser (root :: rest) []
          ++ ((cmd.Flags.zip fieldNames).map fun p => fieldValueOf p.1 p.2).flatMap blockText
          ++ bytes "\tcargs = append(cargs, args...)\n"
          ++ (bytes "\treturn exec.Command(\"" ++ bytes "docker"
            ++ bytes "\", cargs...)\n\x7d\n\n")) := by
    rw [generateStructDefinition_eq cmd _ cmdName fieldNames hname hflags, writeInitialiser_eq,
      return_line_eq]
    simp only [List.append_assoc, List.nil_append]
  refine ⟨htext, fun h => ?_, fun h => ?_⟩
  · rw [htext] at h
    have h1 := List.append_cancel_left (Option.some.inj h)
    have h2 := List.append_cancel_left (List.append_cancel_right h1)
    exact h2.symm
  · subst h
    exact htext

/-- Witness of C22, amended: the root command `podman`. -/
theorem program_name_is_the_literal_docker_witness :
    generateCmdName [bytes "podman"] = some (bytes "Podman")
    ∧ List.Forall₂ (fun flag name => generateFieldName flag = some name) podmanRoot.Flags []
    ∧ generateStructDefinition podmanRoot [bytes "podman"]
        = some (writeHeader podmanRoot [bytes "podman"] (bytes "Podman")
              ((podmanRoot.Flags.zip []).flatMap fun p => fieldText p.1 p.2)
            ++ writeInitialiser [bytes "podman"] []
            ++ ((podmanRoot.Flags.zip []).map fun p => fieldValueOf p.1 p.2).flatMap blockText
            ++ bytes "\tcargs = append(cargs, args...)\n"
            ++ (bytes "\treturn exec.Command(\"" ++ bytes "docker"
              ++ bytes "\", cargs...)\n\x7d\n\n")) :=
  ⟨by decide, List.Forall₂.nil,
    (program_name_is_the_literal_docker podmanRoot (bytes "podman") [] (bytes "Podman") []
      (by decide) List.Forall₂.nil).1⟩

set_option maxRecDepth 100000 in
/-- C23, counterexample: the text generated for the node `docker container stop`, which
has one flag, is the declaration of the options record, then the comment block,
then the builder; it is not the text with the comment block before the
declaration, and it does not start with the opening of a comment. -/
theorem text_of_container_stop_starts_with_the_declaration :
    generateStructDefinition containerStopNode [bytes "docker", bytes "container", bytes "stop"]
      = some (bytes ("type DockerContainerStopOption struct \x7b\n" ++
            "\t/*\n\tSeconds to wait for stop before killing it\n\t*/\n\tTime *int\n\n\x7d\n\n")
          ++ bytes ("/*\nDockerContainerStopCmd is wrapper of 'docker container stop'\n" ++
            "------------------------------\n" ++
            "stop [OPTIONS] CONTAINER [CONTAINER...]\n" ++
            "Stop one or more running containers\n" ++
            "------------------------------\n*/\n")
          ++ bytes ("func DockerContainerStopCmd(opt DockerContainerStopOption, args []string) *exec.Cmd \x7b\n" ++
            "\tcargs := []string\x7b\"container\", \"stop\"\x7d\n" ++
            "\tif opt.Time != nil \x7b\n" ++
            "\t\tcargs = append(cargs, \"--time=\" + fmt.Sprint(*opt.Time))\n" ++
            "\t\x7d\n" ++
            "\tcargs = append(cargs, args...)\n" ++
            "\treturn exec.Command(\"docker\", cargs...)\n\x7d\n\n"))
    ∧ generateStructDefinition containerStopNode
        [bytes "docker", bytes "container", bytes "stop"]
      ≠ some (bytes ("/*\nDockerContainerStopCmd is wrapper of 'docker container stop'\n" ++
            "------------------------------\n" ++
            "stop [OPTIONS] CONTAINER [CONTAINER...]\n" ++
            "Stop one or more running containers\n" ++
            "------------------------------\n*/\n")
          ++ bytes ("type DockerContainerStopOption struct \x7b\n" ++
            "\t/*\n\tSeconds to wait for stop before killing it\n\t*/\n\tTime *int\n\n\x7d\n\n")
          ++ bytes ("func DockerContainerStopCmd(opt DockerContainerStopOption, args []string) *exec.Cmd \x7b\n" ++
            "\tcargs := []string\x7b\"container\", \"stop\"\x7d\n" ++
            "\tif opt.Time != nil \x7b\n" ++
            "\t\tcargs = append(cargs, \"--time=\" + fmt.Sprint(*opt.Time))\n" ++
            "\t\x7d\n" ++
            "\tcargs = append(cargs, args...)\n" ++
            "\treturn exec.Command(\"docker\", cargs...)\n\x7d\n\n"))
    ∧ (generateStructDefinition containerStopNode
          [bytes "docker", bytes "container", bytes "stop"]).map
        (fun text => decide (bytes "/*" <+: text)) = some false := by
  decide

end Generate

namespace Generate

/-- C23, amended: for every node with at least one flag, the text
`generateStructDefinition` returns consists of the declaration of the options
record, followed by the comment block that documents the subcommand, followed by
the builder function, in that order; the text starts with the keyword `type` of the
declaration. -/
theorem declaration_then_comment_then_builder (cmd : Command) (names : List GoString)
    (cmdName : GoString) (fieldNames : List GoString)
    (hname : generateCmdName names = some cmdName)
    (hflags : List.Forall₂ (fun flag name => generateFieldName flag = some name)
      cmd.Flags fieldNames)
    (hne : cmd.Flags ≠ []) :
    generateStructDefinition cmd names
        = some ((bytes "type " ++ cmdName ++ bytes "Option struct \x7b\n"
              ++ ((cmd.Flags.zip fieldNames).flatMap fun p => fieldText p.1 p.2)
              ++ bytes "\x7d\n\n")
            ++ commentBlock cmd names cmdName
            ++ (bytes "func " ++ cmdName ++ bytes "Cmd" ++ bytes "("
              ++ bytes "opt " ++ cmdName ++ bytes "Option, " ++ bytes "args []string"
              ++ bytes ") *exec.Cmd \x7b\n"
              ++ writeInitialiser names []
              ++ ((cmd.Flags.zip fieldNames).map fun p => fieldValueOf p.1 p.2).flatMap
                  blockText
              ++ bytes "\tcargs = append(cargs, args...)\n"
              ++ bytes "\treturn exec.Command(\"docker\", cargs...)\n\x7d\n\n"))
    ∧ ∃ rest : GoString, generateStructDefinition cmd names = some (bytes "type " ++ rest) := by
  have hfields : ((cmd.Flags.zip fieldNames).flatMap fun p => fieldText p.1 p.2) ≠ [] :=
    fun h => hne ((fields_eq_nil_iff cmd.Flags fieldNames hflags).1 h)
  have htext := generateStructDefinition_eq cmd names cmdName fieldNames hname hflags
  rw [writeHeader_fields cmd names cmdName _ hfields] at htext
  refine ⟨?_, ?_⟩
  · rw [htext, writeInitialiser_eq]
    simp only [List.append_assoc, List.nil_append]
  · simp only [List.append_assoc] at htext
    exact ⟨_, htext⟩

/-- Witness of C23, amended: the node `docker container stop`. -/
theorem declaration_then_comment_then_builder_witness :
    generateCmdName [bytes "docker", bytes "container", bytes "stop"]
      = some (bytes "DockerContainerStop")
    ∧ List.Forall₂ (fun flag name => generateFieldName flag = some name)
        containerStopNode.Flags [bytes "Time"]
    ∧ containerStopNode.Flags ≠ []
    ∧ ∃ rest : GoString,
        generateStructDefinition containerStopNode
            [bytes "docker", bytes "container", bytes "stop"]
          = some (bytes "type " ++ rest) :=
  ⟨by decide, List.Forall₂.cons (by decide) List.Forall₂.nil,
    by simp [containerStopNode, Command.Flags],
    (declaration_then_comment_then_builder containerStopNode
      [bytes "docker", bytes "container", bytes "stop"] (bytes "DockerContainerStop")
      [bytes "Time"] (by decide) (List.Forall₂.cons (by decide) List.Forall₂.nil)
      (by simp [containerStopNode, Command.Flags])).2⟩

end Generate

/-! ## Names that cannot be converted -/

namespace Generate

theorem foldlM_toCamel_none (s : List GoString) (res : GoString) (h : [] ∈ s) :
    s.foldlM
        (fun res v =>
          match v with
          | [] => none
          | b :: rest =>
            let upper := strings.ToUpperByte b
            let res := if v.length < 2 then res ++ upper else res
            some (res ++ (upper ++ rest)))
        res
      = none := by
  induction s generalizing res with
  | nil => simp at h
  | cons v vs ih =>
    rw [List.foldlM_cons]
    cases v with
    | nil => rfl
    | cons b rest =>
      simp only [Option.bind_eq_bind, Option.some_bind]
      apply ih
      rcases List.mem_cons.1 h with h | h
      · cases h
      · exact h

theorem toCamel_none (s : List GoString) (h : [] ∈ s) : toCamel s = none :=
  foldlM_toCamel_none s [] h

theorem Split_cons_sep (cs : GoString) (sep : UInt8) :
    strings.Split (sep :: cs) sep = [] :: strings.Split cs sep := by
  simp [strings.Split]

theorem mem_tail_Split_cons (c : UInt8) (cs : GoString) (sep : UInt8)
    (h : [] ∈ (strings.Split cs sep).tail) : [] ∈ (strings.Split (c :: cs) sep).tail := by
  by_cases hc : c = sep
  · subst hc
    rw [Split_cons_sep, List.tail_cons]
    exact List.mem_of_mem_tail h
  · cases hs : strings.Split cs sep with
    | nil => rw [hs] at h; simp at h
    | cons piece pieces =>
      rw [hs] at h
      simpa [strings.Split, hc, hs] using h

theorem mem_tail_Split_append (a cs : GoString) (sep : UInt8)
    (h : [] ∈ (strings.Split cs sep).tail) : [] ∈ (strings.Split (a ++ cs) sep).tail := by
  induction a with
  | nil => exact h
  | cons c a ih => exact mem_tail_Split_cons c (a ++ cs) sep ih

theorem mem_Split_of_empty_segment (name : GoString) (sep : UInt8)
    (h : name = [] ∨ (∃ rest, name = sep :: rest) ∨ (∃ init, name = init ++ [sep])
      ∨ ∃ a b, name = a ++ sep :: sep :: b) :
    [] ∈ strings.Split name sep := by
  rcases h with h | ⟨rest, h⟩ | ⟨init, h⟩ | ⟨a, b, h⟩
  · subst h
    simp [strings.Split]
  · subst h
    rw [Split_cons_sep]
    exact List.mem_cons_self _ _
  · subst h
    apply List.mem_of_mem_tail
    apply mem_tail_Split_append
    simp [strings.Split]
  · subst h
    apply List.mem_of_mem_tail
    apply mem_tail_Split_append
    rw [Split_cons_sep, Split_cons_sep, List.tail_cons]
    exact List.mem_cons_self _ _

theorem generateCmdName_none (names : List GoString) (name : GoString) (hmem : name ∈ names)
    (h : [] ∈ strings.Split name hyphen) : generateCmdName names = none := by
  rw [generateCmdName_eq]
  exact toCamel_none _ (List.mem_flatMap.2 ⟨name, hmem, h⟩)

theorem generateStructDefinition_none_of_name (cmd : Command) (names : List GoString)
    (h : generateCmdName names = none) : generateStructDefinition cmd names = none := by
  simp only [generateStructDefinition, h]

theorem generateStructDefinition_none_of_flag (cmd : Command) (names : List GoString)
    (h : ∃ flag ∈ cmd.Flags, generateFieldName flag = none) :
    generateStructDefinition cmd names = none := by
  unfold generateStructDefinition
  cases generateCmdName names with
  | none => rfl
  | some cmdName => simp only [foldlM_visitFlag_none cmd.Flags h]

/-- C30: `toCamel` returns an identifier for every list of segments none of which is
empty, and panics on an index out of range for every list that holds an empty
segment. A command name or a flag name that is empty, starts with `-`, ends with
`-` or holds `--` has an empty segment; `generateFieldName` panics on a flag of that
name, `generateCmdName` on every path that holds that name, and so do
`generateStructDefinition` for a node on such a path or with such a flag and
`generateCode` for a command of that name, instead of producing a text. -/
theorem empty_segment_makes_the_generator_fail (name : GoString)
    (hname : name = [] ∨ (∃ rest, name = hyphen :: rest) ∨ (∃ init, name = init ++ [hyphen])
      ∨ ∃ a b, name = a ++ hyphen :: hyphen :: b) :
    (∀ s : List GoString, (∀ v ∈ s, v ≠ []) → toCamel s = some (s.flatMap camelSegment))
    ∧ (∀ s : List GoString, [] ∈ s → toCamel s = none)
    ∧ [] ∈ strings.Split name hyphen
    ∧ (∀ usage typ : GoString,
        generateFieldName { Name := name, Usage := usage, ValueType := typ } = none)
    ∧ (∀ names : List GoString, name ∈ names → generateCmdName names = none)
    ∧ (∀ (cmd : Command) (names : List GoString), name ∈ names →
        generateStructDefinition cmd names = none)
    ∧ (∀ (cmd : Command) (names : List GoString), (∃ flag ∈ cmd.Flags, flag.Name = name) →
        generateStructDefinition cmd names = none)
    ∧ ∀ (use short : GoString) (flags : List Flag) (commands : List Command)
        (parents : Option (List GoString)),
        generateCode (.mk name use short flags commands) parents = none := by
  have hsplit := mem_Split_of_empty_segment name hyphen hname
  refine ⟨toCamel_eq, toCamel_none, hsplit, fun usage typ => ?_, fun names hmem => ?_,
    fun cmd names hmem => ?_, fun cmd names hflag => ?_,
    fun use short flags commands parents => ?_⟩
  · rw [generateFieldName_eq]
    exact toCamel_none _ hsplit
  · exact generateCmdName_none names name hmem hsplit
  · exact generateStructDefinition_none_of_name cmd names
      (generateCmdName_none names name hmem hsplit)
  · obtain ⟨flag, hmem, hflag⟩ := hflag
    refine generateStructDefinition_none_of_flag cmd names ⟨flag, hmem, ?_⟩
    rw [generateFieldName_eq, hflag]
    exact toCamel_none _ hsplit
  · rw [generateCode_mk, generateStructDefinition_none_of_name _ _
      (generateCmdName_none _ name (List.mem_append_right _ (List.mem_singleton_self _)) hsplit)]

/-- Witness of C30: the name `no--cache`, which holds two hyphens in a row. -/
theorem empty_segment_makes_the_generator_fail_witness :
    (∃ a b, bytes "no--cache" = a ++ hyphen :: hyphen :: b)
    ∧ strings.Split (bytes "no--cache") hyphen = [bytes "no", [], bytes "cache"]
    ∧ generateFieldName
        { Name := bytes "no--cache", Usage := bytes "Do not use cache",
          ValueType := bytes "bool" } = none
    ∧ generateCmdName [bytes "docker", bytes "no--cache"] = none :=
  ⟨⟨bytes "no", bytes "cache", by decide⟩, by decide,
    (empty_segment_makes_the_generator_fail (bytes "no--cache")
      (Or.inr (Or.inr (Or.inr ⟨bytes "no", bytes "cache", by decide⟩)))).2.2.2.1 _ _,
    by decide⟩

end Generate

/-! ## The names handed to `generateStructDefinition` -/

namespace Generate

theorem generateCodeWith_mk (emit : Command → List GoString → Option GoString)
    (name use short : GoString) (flags : List Flag) (commands : List Command)
    (parents : Option (List GoString)) :
    generateCodeWith emit (.mk name use short flags commands) parents
      = match emit (.mk name use short flags commands) (parents.getD [] ++ [name]) with
        | none => none
        | some text =>
          match generateCodeRangeWith emit commands (parents.getD [] ++ [name]) with
          | none => none
          | some rest => some (text ++ rest) := by
  cases parents <;> rfl

theorem generateCodeRangeWith_cons (emit : Command → List GoString → Option GoString)
    (cmd : Command) (rest : List Command) (names : List GoString) :
    generateCodeRangeWith emit (cmd :: rest) names
      = match generateCodeWith emit cmd (some names) with
        | none => none
        | some text =>
          match generateCodeRangeWith emit rest names with
          | none => none
          | some more => some (text ++ more) := by
  rfl

mutual
theorem generateCodeWith_eq_printAll (emit : Command → List GoString → Option GoString)
    (cmd : Command) (parents : Option (List GoString)) :
    generateCodeWith emit cmd parents
      = printAll ((cmd.visits (parents.getD [])).map fun v => emit v.1 v.2) := by
  match cmd with
  | .mk name use short flags commands =>
    rw [generateCodeWith_mk, visits_mk, List.map_cons,
      generateCodeRangeWith_eq_printAll emit commands (parents.getD [] ++ [name])]
    cases emit (Command.mk name use short flags commands) (parents.getD [] ++ [name]) <;> rfl

theorem generateCodeRangeWith_eq_printAll (emit : Command → List GoString → Option GoString)
    (cmds : List Command) (names : List GoString) :
    generateCodeRangeWith emit cmds names
      = printAll ((Command.visitsOfChildren cmds names).map fun v => emit v.1 v.2) := by
  match cmds with
  | [] => rfl
  | cmd :: rest =>
    rw [generateCodeRangeWith_cons, visitsOfChildren_cons, List.map_append, printAll_append,
      generateCodeWith_eq_printAll emit cmd (some names),
      generateCodeRangeWith_eq_printAll emit rest names]
    rfl
end

mutual
theorem mem_visits (cmd : Command) (above : List GoString) (v : Command × List GoString)
    (h : v ∈ cmd.visits above) :
    ∃ chain, PathTo cmd chain v.1 ∧ v.2 = above ++ chain.map Command.Name := by
  match cmd with
  | .mk name use short flags commands =>
    rw [visits_mk] at h
    rcases List.mem_cons.1 h with h | h
    · subst h
      exact ⟨[_], PathTo.here _, rfl⟩
    · obtain ⟨child, hmem, chain, hpath, hv⟩ :=
        mem_visitsOfChildren commands (above ++ [name]) v h
      refine ⟨_ :: chain, PathTo.step _ child chain v.1 hmem hpath, ?_⟩
      rw [hv, List.map_cons, List.append_assoc]
      rfl

theorem mem_visitsOfChildren (cmds : List Command) (above : List GoString)
    (v : Command × List GoString) (h : v ∈ Command.visitsOfChildren cmds above) :
    ∃ child ∈ cmds, ∃ chain, PathTo child chain v.1 ∧ v.2 = above ++ chain.map Command.Name := by
  match cmds with
  | [] => exact absurd h (List.not_mem_nil v)
  | cmd :: rest =>
    rw [visitsOfChildren_cons] at h
    rcases List.mem_append.1 h with h | h
    · obtain ⟨chain, hpath, hv⟩ := mem_visits cmd above v h
      exact ⟨cmd, List.mem_cons_self _ _, chain, hpath, hv⟩
    · obtain ⟨child, hmem, chain, hpath, hv⟩ := mem_visitsOfChildren rest above v h
      exact ⟨child, List.mem_cons_of_mem _ hmem, chain, hpath, hv⟩
end

theorem visits_subset_visitsOfChildren (cmds : List Command) (child : Command)
    (hmem : child ∈ cmds) (above : List GoString) (v : Command × List GoString)
    (h : v ∈ child.visits above) : v ∈ Command.visitsOfChildren cmds above := by
  induction cmds with
  | nil => exact absurd hmem (List.not_mem_nil child)
  | cons cmd rest ih =>
    rw [visitsOfChildren_cons]
    rcases List.mem_cons.1 hmem with hc | hc
    · subst hc
      exact List.mem_append_left _ h
    · exact List.mem_append_right _ (ih hc)

theorem visits_of_PathTo (root : Command) (chain : List Command) (node : Command)
    (h : PathTo root chain node) (above : List GoString) :
    (node, above ++ chain.map Command.Name) ∈ root.visits above := by
  induction h generalizing above with
  | here cmd =>
    cases cmd with
    | mk name use short flags commands =>
      rw [visits_mk]
      exact List.mem_cons_self _ _
  | step cmd child chain node hmem _ ih =>
    cases cmd with
    | mk name use short flags commands =>
      rw [visits_mk]
      apply List.mem_cons_of_mem
      have hv := ih (above ++ [name])
      rw [List.append_assoc] at hv
      exact visits_subset_visitsOfChildren commands child hmem _ _ hv

theorem PathTo_ends (root : Command) (chain : List Command) (node : Command)
    (h : PathTo root chain node) :
    chain.head? = some root ∧ chain.getLast? = some node ∧ 1 ≤ chain.length := by
  induction h with
  | here cmd => exact ⟨rfl, rfl, Nat.le_refl 1⟩
  | step cmd child chain node _ _ ih =>
    refine ⟨rfl, ?_, by simp⟩
    obtain ⟨hhead, hlast, _⟩ := ih
    cases chain with
    | nil => cases hhead
    | cons c cs => rw [List.getLast?_cons_cons]; exact hlast

/-- C21: the names list `generateCode`, started at the root with `parents = nil`, hands
to `generateStructDefinition` for a node is the chain of command names from the
root down to that node. Whatever function stands in the place of
`generateStructDefinition`, the run calls it on the visits of the walk in order,
and every visit pairs a node with the names of a chain of commands that starts at
the root, steps from a command to one of its children and ends at the node: the
first name is that of the root, the last that of the node, and there is one name
per command of the chain, the depth of the node plus one. Every node such a chain
leads to is visited with these names. -/
theorem names_are_the_chain_from_the_root (root : Command) :
    (∀ emit : Command → List GoString → Option GoString,
      generateCodeWith emit root none
        = printAll ((root.visits []).map fun v => emit v.1 v.2))
    ∧ (∀ parents : Option (List GoString),
        generateCodeWith generateStructDefinition root parents = generateCode root parents)
    ∧ (∀ v ∈ root.visits [], ∃ chain : List Command,
        PathTo root chain v.1
        ∧ v.2 = chain.map Command.Name
        ∧ v.2.head? = some root.Name
        ∧ v.2.getLast? = some v.1.Name
        ∧ v.2.length = (chain.length - 1) + 1)
    ∧ (∀ (chain : List Command) (node : Command), PathTo root chain node →
        (node, chain.map Command.Name) ∈ root.visits [])
    ∧ (sampleTree.visits []).map Prod.snd
        = [[bytes "docker"], [bytes "docker", bytes "builder"], [bytes "docker", bytes "volume"],
           [bytes "docker", bytes "volume", bytes "create"]] := by
  refine ⟨fun emit => generateCodeWith_eq_printAll emit root none, fun parents => ?_,
    fun v hv => ?_, fun chain node hpath => ?_, by decide⟩
  · rw [generateCodeWith_eq_printAll, generateCode_eq_printAll]
  · obtain ⟨chain, hpath, hnames⟩ := mem_visits root [] v hv
    rw [List.nil_append] at hnames
    obtain ⟨hhead, hlast, hlen⟩ := PathTo_ends root chain v.1 hpath
    refine ⟨chain, hpath, hnames, ?_, ?_, ?_⟩
    · rw [hnames, List.head?_map, hhead]
      rfl
    · rw [hnames, List.getLast?_map, hlast]
      rfl
    · rw [hnames, List.length_map]
      omega
  · have h := visits_of_PathTo root chain node hpath []
    rw [List.nil_append] at h
    exact h

/-- Witness of C21: in the sample tree, the chain from `docker` over `volume` down to
`create` is visited with the names `docker`, `volume`, `create`. -/
theorem names_are_the_chain_from_the_root_witness :
    (∃ chain node, PathTo sampleTree chain node
      ∧ chain.map Command.Name = [bytes "docker", bytes "volume", bytes "create"])
    ∧ ∃ node : Command,
        (node, [bytes "docker", bytes "volume", bytes "create"]) ∈ sampleTree.visits [] :=
  ⟨⟨_, _, PathTo.step _ _ _ _ (List.Mem.tail _ (List.Mem.head _))
      (PathTo.step _ _ _ _ (List.Mem.head _) (PathTo.here _)), rfl⟩,
    ⟨_, (names_are_the_chain_from_the_root sampleTree).2.2.2.1 _ _
      (PathTo.step _ _ _ _ (List.Mem.tail _ (List.Mem.head _))
        (PathTo.step _ _ _ _ (List.Mem.head _) (PathTo.here _)))⟩⟩

end Generate

/-! ## Builders run statement by statement -/

namespace Docker

theorem ifNotNil_scalar {α : Type} [fmt.Sprintable α] (flagEq : GoString) (f : Option α)
    (cargs : List GoString) :
    ifNotNil f cargs (fun cargs => (deref f).bind fun v => some (cargs ++ [flagEq ++ fmt.Sprint v]))
      = some (cargs ++ scalarEntries flagEq f) := by
  cases f <;> simp [ifNotNil, deref, scalarEntries]

theorem ifNotNil_list (flag : GoString) (f : Option (List GoString)) (cargs : List GoString) :
    ifNotNil f cargs
        (fun cargs => some ((rangeOf f).foldl (fun cargs str => (cargs ++ [flag]) ++ [str]) cargs))
      = some (cargs ++ listEntries flag f) := by
  cases f with
  | none => simp [ifNotNil, listEntries]
  | some l =>
    have h := foldl_append_entries (fun str => [flag, str]) l cargs
    simpa [ifNotNil, rangeOf, listEntries, List.append_assoc] using h

theorem ifNotNil_map (flag : GoString) (f : Option GoMap) (cargs : List GoString) :
    ifNotNil f cargs
        (fun cargs => some ((rangeOf f).foldl
          (fun cargs kv => (cargs ++ [flag]) ++ [kv.1 ++ bytes "=" ++ kv.2]) cargs))
      = some (cargs ++ mapEntries flag f) := by
  cases f with
  | none => simp [ifNotNil, mapEntries]
  | some m =>
    have h := foldl_append_entries
      (fun kv : GoString × GoString => [flag, kv.1 ++ bytes "=" ++ kv.2]) m cargs
    simpa [ifNotNil, rangeOf, mapEntries, List.append_assoc] using h

theorem DockerVolumeCreateCmdSteps_eq (opt : DockerVolumeCreateOption)
    (args : Option (List GoString)) :
    DockerVolumeCreateCmdSteps opt args = some (DockerVolumeCreateCmd opt (rangeOf args)) := by
  rw [DockerVolumeCreateCmd_eq]
  simp only [DockerVolumeCreateCmdSteps, DockerVolumeCreateCmdStatements, runStatements,
    ifNotNil_scalar, ifNotNil_list, ifNotNil_map]

theorem DockerBuildCmdSteps_eq (opt : DockerBuildOption) (args : Option (List GoString)) :
    DockerBuildCmdSteps opt args = some (DockerBuildCmd opt (rangeOf args)) := by
  rw [DockerBuildCmd_eq]
  simp only [DockerBuildCmdSteps, DockerBuildCmdStatements, runStatements,
    ifNotNil_scalar, ifNotNil_list, ifNotNil_map]

/-- C26: the generated builders have no failing step. Run statement by statement, with
the dereference of a pointer as a step that panics on nil, `DockerVolumeCreateCmd`
and `DockerBuildCmd` return a command for every options value and every
positionals list, nil lists, nil maps and nil positionals included, and the command
is the one the builder is specified to return; with nothing set it holds the
subcommand tokens alone. Each dereference stands under the test that its pointer is
not nil: without that test the statement panics on a nil pointer. -/
theorem builders_have_no_failing_step :
    (∀ (opt : DockerVolumeCreateOption) (args : Option (List GoString)),
      DockerVolumeCreateCmdSteps opt args = some (DockerVolumeCreateCmd opt (rangeOf args)))
    ∧ (∀ (opt : DockerBuildOption) (args : Option (List GoString)),
        DockerBuildCmdSteps opt args = some (DockerBuildCmd opt (rangeOf args)))
    ∧ DockerVolumeCreateCmdSteps { Driver := none, Label := none, Name := none, Opt := none } none
        = some (exec.Command (bytes "docker") [bytes "volume", bytes "create"])
    ∧ DockerBuildCmdSteps {} none = some (exec.Command (bytes "docker") [bytes "build"])
    ∧ DockerVolumeCreateCmdSteps { Label := some [], Opt := some [] } (some [])
        = some (exec.Command (bytes "docker") [bytes "volume", bytes "create"])
    ∧ (∀ cargs : List GoString,
        ((deref (none : Option GoString)).bind fun v =>
          some (cargs ++ [bytes "--driver=" ++ fmt.Sprint v])) = none) := by
  refine ⟨DockerVolumeCreateCmdSteps_eq, DockerBuildCmdSteps_eq, by decide, by decide,
    by decide, fun cargs => rfl⟩

end Docker

/-! ## Empty collections, joined map entries and builders under two paths -/

namespace Docker

/-- The argument vector of `DockerImageBuildCmd`: the subcommand tokens, the entries of each field in
declaration order, the positionals. -/
theorem DockerImageBuildCmd_eq (opt : DockerImageBuildOption) (args : List GoString) :
    DockerImageBuildCmd opt args = exec.Command (bytes "docker")
      ([bytes "image", bytes "build"]
        ++ listEntries (bytes "--add-host") opt.AddHost
        ++ listEntries (bytes "--build-arg") opt.BuildArg
        ++ scalarEntries (bytes "--cache-from=") opt.CacheFrom
        ++ scalarEntries (bytes "--cgroup-parent=") opt.CgroupParent
        ++ scalarEntries (bytes "--compress=") opt.Compress
        ++ scalarEntries (bytes "--cpu-period=") opt.CpuPeriod
        ++ scalarEntries (bytes "--cpu-quota=") opt.CpuQuota
        ++ scalarEntries (bytes "--cpu-shares=") opt.CpuShares
        ++ scalarEntries (bytes "--cpuset-cpus=") opt.CpusetCpus
        ++ scalarEntries (bytes "--cpuset-mems=") opt.CpusetMems
        ++ scalarEntries (bytes "--disable-content-trust=") opt.DisableContentTrust
        ++ scalarEntries (bytes "--file=") opt.File
        ++ scalarEntries (bytes "--force-rm=") opt.ForceRm
        ++ scalarEntries (bytes "--iidfile=") opt.Iidfile
        ++ scalarEntries (bytes "--isolation=") opt.Isolation
        ++ listEntries (bytes "--label") opt.Label
        ++ scalarEntries (bytes "--memory=") opt.Memory
        ++ scalarEntries (bytes "--memory-swap=") opt.MemorySwap
        ++ scalarEntries (bytes "--network=") opt.Network
        ++ scalarEntries (bytes "--no-cache=") opt.NoCache
        ++ scalarEntries (bytes "--output=") opt.Output
        ++ scalarEntries (bytes "--platform=") opt.Platform
        ++ scalarEntries (bytes "--progress=") opt.Progress
        ++ scalarEntries (bytes "--pull=") opt.Pull
        ++ scalarEntries (bytes "--quiet=") opt.Quiet
        ++ scalarEntries (bytes "--rm=") opt.Rm
        ++ scalarEntries (bytes "--secret=") opt.Secret
        ++ scalarEntries (bytes "--security-opt=") opt.SecurityOpt
        ++ scalarEntries (bytes "--shm-size=") opt.ShmSize
        ++ scalarEntries (bytes "--squash=") opt.Squash
        ++ scalarEntries (bytes "--ssh=") opt.Ssh
        ++ scalarEntries (bytes "--stream=") opt.Stream
        ++ listEntries (bytes "--tag") opt.Tag
        ++ scalarEntries (bytes "--target=") opt.Target
        ++ scalarEntries (bytes "--ulimit=") opt.Ulimit
        ++ args) := by
  simp only [DockerImageBuildCmd, ifSet_scalar, ifSet_list, ifSet_map]

/-- The argument vector of `DockerStopCmd`: the subcommand tokens, the entries of each field in
declaration order, the positionals. -/
theorem DockerStopCmd_eq (opt : DockerStopOption) (args : List GoString) :
    DockerStopCmd opt args = exec.Command (bytes "docker")
      ([bytes "stop"]
        ++ scalarEntries (bytes "--time=") opt.Time
        ++ args) := by
  simp only [DockerStopCmd, ifSet_scalar, ifSet_list, ifSet_map]

/-- C33: a list field or a map field that is set to an empty value renders like one that
is unset. For every setting of the other fields and every list of positionals,
`DockerVolumeCreateCmd` returns the same command with `Label` set to the empty list
as with `Label` unset, the same with `Opt` set to the empty map as with `Opt`
unset, and the same with both: the argument vector does not tell an empty value
from an absent one. -/
theorem empty_collection_renders_like_unset (opt : DockerVolumeCreateOption)
    (args : List GoString) :
    DockerVolumeCreateCmd { opt with Label := some [] } args
        = DockerVolumeCreateCmd { opt with Label := none } args
    ∧ DockerVolumeCreateCmd { opt with Opt := some [] } args
        = DockerVolumeCreateCmd { opt with Opt := none } args
    ∧ DockerVolumeCreateCmd { opt with Label := some [], Opt := some [] } args
        = DockerVolumeCreateCmd { opt with Label := none, Opt := none } args
    ∧ DockerVolumeCreateCmd { Label := some [], Opt := some [] } args
        = exec.Command (bytes "docker") ([bytes "volume", bytes "create"] ++ args) := by
  refine ⟨?_, ?_, ?_, ?_⟩ <;>
    simp only [DockerVolumeCreateCmd_eq, listEntries, mapEntries, scalarEntries,
      List.flatMap_nil, List.append_nil]

/-- C34: the rendering `key ++ "=" ++ value` of a map entry does not determine the entry.
In `DockerVolumeCreateCmd` the map with the one entry `"a=b": "c"` and the map with
the one entry `"a": "b=c"` for `Opt` give the same argument vector
`["volume","create","--opt","a=b=c"]`, although the entries differ; for every key
and value, whatever bytes they hold, the entry is rendered as the key, `=` and the
value joined unchanged. -/
theorem map_entry_rendering_is_not_injective :
    DockerVolumeCreateCmd { Opt := some [(bytes "a=b", bytes "c")] } []
        = exec.Command (bytes "docker")
            [bytes "volume", bytes "create", bytes "--opt", bytes "a=b=c"]
    ∧ DockerVolumeCreateCmd { Opt := some [(bytes "a", bytes "b=c")] } []
        = exec.Command (bytes "docker")
            [bytes "volume", bytes "create", bytes "--opt", bytes "a=b=c"]
    ∧ (bytes "a=b", bytes "c") ≠ (bytes "a", bytes "b=c")
    ∧ (∀ (key val : GoString) (args : List GoString),
        DockerVolumeCreateCmd { Opt := some [(key, val)] } args
          = exec.Command (bytes "docker")
              ([bytes "volume", bytes "create", bytes "--opt", key ++ bytes "=" ++ val]
                ++ args))
    ∧ (∀ (m : GoMap) (args : List GoString),
        DockerVolumeCreateCmd { Opt := some m } args
          = exec.Command (bytes "docker")
              ([bytes "volume", bytes "create"]
                ++ m.flatMap (fun kv => [bytes "--opt", kv.1 ++ bytes "=" ++ kv.2])
                ++ args)) := by
  refine ⟨by decide, by decide, by decide, fun key val args => ?_, fun m args => ?_⟩
  · simp [DockerVolumeCreateCmd_eq, listEntries, mapEntries, scalarEntries]
  · simp [DockerVolumeCreateCmd_eq, listEntries, mapEntries, scalarEntries]

/-- C35: the builders generated for one subcommand under two paths agree up to the first
token. For every assignment of the option fields, which the two records declare
with the same names and types, and every list of positionals, the argument vector
of `DockerImageBuildCmd` is `image` followed by the argument vector of
`DockerBuildCmd`, and that of `DockerContainerStopCmd` is `container` followed by
the argument vector of `DockerStopCmd`; both run the program `docker`. -/
theorem builders_under_two_paths_agree :
    (∀ (opt : DockerBuildOption) (args : List GoString),
      DockerImageBuildCmd (imageBuildOptionOf opt) args
        = exec.Command (bytes "docker") (bytes "image" :: (DockerBuildCmd opt args).Args.tail))
    ∧ (∀ (opt : DockerImageBuildOption) (args : List GoString),
        DockerImageBuildCmd opt args
          = exec.Command (bytes "docker")
              (bytes "image" :: (DockerBuildCmd (buildOptionOf opt) args).Args.tail))
    ∧ (∀ (opt : DockerStopOption) (args : List GoString),
        DockerContainerStopCmd (containerStopOptionOf opt) args
          = exec.Command (bytes "docker")
              (bytes "container" :: (DockerStopCmd opt args).Args.tail))
    ∧ (∀ (opt : DockerContainerStopOption) (args : List GoString),
        DockerContainerStopCmd opt args
          = exec.Command (bytes "docker")
              (bytes "container" :: (DockerStopCmd (stopOptionOf opt) args).Args.tail))
    ∧ (∀ opt : DockerImageBuildOption, imageBuildOptionOf (buildOptionOf opt) = opt)
    ∧ (∀ opt : DockerBuildOption, buildOptionOf (imageBuildOptionOf opt) = opt)
    ∧ (∀ opt : DockerContainerStopOption, containerStopOptionOf (stopOptionOf opt) = opt)
    ∧ (∀ opt : DockerStopOption, stopOptionOf (containerStopOptionOf opt) = opt) := by
  refine ⟨fun opt args => ?_, fun opt args => ?_, fun opt args => ?_, fun opt args => ?_,
    fun opt => rfl, fun opt => rfl, fun opt => rfl, fun opt => rfl⟩
  · rw [DockerImageBuildCmd_eq, DockerBuildCmd_eq]
    simp only [exec.Command, imageBuildOptionOf, List.tail_cons, List.cons_append,
      List.nil_append, List.append_assoc]
  · rw [DockerImageBuildCmd_eq, DockerBuildCmd_eq]
    simp only [exec.Command, buildOptionOf, List.tail_cons, List.cons_append,
      List.nil_append, List.append_assoc]
  · rw [DockerContainerStopCmd_eq, DockerStopCmd_eq]
    simp only [exec.Command, containerStopOptionOf, List.tail_cons, List.cons_append,
      List.nil_append, List.append_assoc]
  · rw [DockerContainerStopCmd_eq, DockerStopCmd_eq]
    simp only [exec.Command, stopOptionOf, List.tail_cons, List.cons_append,
      List.nil_append, List.append_assoc]

end Docker

/-! ## Basic types and the types of fields -/

namespace Generate

theorem isBasicType_iff (t : GoString) :
    isBasicType t = true
      ↔ t ∈ [bytes "bool", bytes "string", bytes "int", bytes "int8", bytes "int16",
          bytes "int32", bytes "int64", bytes "uint", bytes "uint8", bytes "uint16",
          bytes "uint32", bytes "uint64", bytes "uintptr", bytes "byte", bytes "rune",
          bytes "float32", bytes "float64", bytes "complex64", bytes "complex128"] := by
  unfold isBasicType
  simp only [List.any_eq_true, beq_iff_eq]
  constructor
  · rintro ⟨v, hv, rfl⟩
    exact hv
  · intro h
    exact ⟨t, h, rfl⟩

/-- C38: `isBasicType(t)` is true exactly when `t` is one of the 19 names `bool`,
`string`, `int`, `int8`, `int16`, `int32`, `int64`, `uint`, `uint8`, `uint16`,
`uint32`, `uint64`, `uintptr`, `byte`, `rune`, `float32`, `float64`, `complex64`,
`complex128`, compared byte for byte, and false for every other string: for `list`,
`map`, the empty string, and a name in another case or with a blank around it. -/
theorem isBasicType_recognises_the_19_names :
    (∀ t : GoString,
      isBasicType t = true
        ↔ t ∈ [bytes "bool", bytes "string", bytes "int", bytes "int8", bytes "int16",
            bytes "int32", bytes "int64", bytes "uint", bytes "uint8", bytes "uint16",
            bytes "uint32", bytes "uint64", bytes "uintptr", bytes "byte", bytes "rune",
            bytes "float32", bytes "float64", bytes "complex64", bytes "complex128"])
    ∧ [bytes "bool", bytes "string", bytes "int", bytes "int8", bytes "int16",
        bytes "int32", bytes "int64", bytes "uint", bytes "uint8", bytes "uint16",
        bytes "uint32", bytes "uint64", bytes "uintptr", bytes "byte", bytes "rune",
        bytes "float32", bytes "float64", bytes "complex64", bytes "complex128"].length = 19
    ∧ [bytes "bool", bytes "string", bytes "int", bytes "int8", bytes "int16",
        bytes "int32", bytes "int64", bytes "uint", bytes "uint8", bytes "uint16",
        bytes "uint32", bytes "uint64", bytes "uintptr", bytes "byte", bytes "rune",
        bytes "float32", bytes "float64", bytes "complex64", bytes "complex128"].Nodup
    ∧ (∀ t ∈ [bytes "list", bytes "map", bytes "", bytes "Bool", bytes "STRING", bytes "Int",
        bytes " int", bytes "int ", bytes "int128", bytes "float", bytes "duration",
        bytes "*bool"], isBasicType t = false) := by
  refine ⟨isBasicType_iff, rfl, by decide, by decide⟩

theorem generateTypeName_cases (flag : Flag) :
    (flag.ValueType = bytes "list" ∧ generateTypeName flag = bytes "[]string")
    ∨ (flag.ValueType = bytes "map" ∧ generateTypeName flag = bytes "map[string]string")
    ∨ (flag.ValueType ≠ bytes "list" ∧ flag.ValueType ≠ bytes "map"
        ∧ isBasicType flag.ValueType = true
        ∧ generateTypeName flag = bytes "*" ++ flag.ValueType)
    ∨ (flag.ValueType ≠ bytes "list" ∧ flag.ValueType ≠ bytes "map"
        ∧ isBasicType flag.ValueType = false
        ∧ generateTypeName flag = bytes "*" ++ bytes "string") := by
  have hml : bytes "map" ≠ bytes "list" := by decide
  have hstar : bytes "*string" = bytes "*" ++ bytes "string" := by decide
  by_cases hl : flag.ValueType = bytes "list"
  · exact Or.inl ⟨hl, by simp [generateTypeName, hl]⟩
  · by_cases hm : flag.ValueType = bytes "map"
    · exact Or.inr (Or.inl ⟨hm, by simp [generateTypeName, hm, hml]⟩)
    · cases hb : isBasicType flag.ValueType with
      | true => exact Or.inr (Or.inr (Or.inl ⟨hl, hm, rfl, by simp [generateTypeName, hl, hm, hb]⟩))
      | false =>
        refine Or.inr (Or.inr (Or.inr ⟨hl, hm, rfl, ?_⟩))
        rw [← hstar]
        simp [generateTypeName, hl, hm, hb]

/-- C37: for every tag, `generateTypeName` returns `[]string`, `map[string]string` or a
text that begins with `*`. The rendering block `generateStructDefinition` writes
for the field of a flag is chosen by that type: the loop over the elements only for
`[]string`, the loop over the entries only for `map[string]string`, and the block
that dereferences the field with `*opt.<Field>` only for a type that begins with
`*`, a pointer. -/
theorem dereference_only_for_pointer_fields (flag : Flag) (name result : GoString) :
    (generateTypeName flag = bytes "[]string"
      ∨ generateTypeName flag = bytes "map[string]string"
      ∨ ∃ t : GoString, generateTypeName flag = bytes "*" ++ t)
    ∧ ((generateTypeName flag = bytes "[]string"
        ∧ writeBlock result (fieldValueOf flag name)
          = result ++ (bytes "\tif opt." ++ name ++ bytes " != nil \x7b\n")
            ++ (bytes "\tfor _, str := range opt." ++ name ++ bytes " \x7b\n")
            ++ (bytes "\t\tcargs = append(cargs, \"--" ++ flag.Name ++ bytes "\")\n")
            ++ bytes "\t\tcargs = append(cargs, str)\n"
            ++ bytes "\t\x7d\n"
            ++ bytes "\t\x7d\n")
      ∨ (generateTypeName flag = bytes "map[string]string"
        ∧ writeBlock result (fieldValueOf flag name)
          = result ++ (bytes "\tif opt." ++ name ++ bytes " != nil \x7b\n")
            ++ (bytes "\tfor key, val := range opt." ++ name ++ bytes " \x7b\n")
            ++ (bytes "\t\tcargs = append(cargs, \"--" ++ flag.Name ++ bytes "\")\n")
            ++ bytes "\t\tcargs = append(cargs, key + \"=\" + val)\n"
            ++ bytes "\t\x7d\n"
            ++ bytes "\t\x7d\n")
      ∨ ((∃ t : GoString, generateTypeName flag = bytes "*" ++ t)
        ∧ writeBlock result (fieldValueOf flag name)
          = result ++ (bytes "\tif opt." ++ name ++ bytes " != nil \x7b\n")
            ++ (bytes "\t\tcargs = append(cargs, \"--" ++ flag.Name
              ++ bytes "=\" + fmt.Sprint(*opt." ++ name ++ bytes "))\n")
            ++ bytes "\t\x7d\n"))
    ∧ (∀ t : GoString, bytes "*" ++ t ≠ bytes "[]string"
        ∧ bytes "*" ++ t ≠ bytes "map[string]string") := by
  have hptr : ∀ t : GoString, generateTypeName flag = bytes "*" ++ t →
      writeBlock result (fieldValueOf flag name)
        = result ++ (bytes "\tif opt." ++ name ++ bytes " != nil \x7b\n")
          ++ (bytes "\t\tcargs = append(cargs, \"--" ++ flag.Name
            ++ bytes "=\" + fmt.Sprint(*opt." ++ name ++ bytes "))\n")
          ++ bytes "\t\x7d\n" := by
    intro t ht
    unfold fieldValueOf
    rw [ht]
    exact writeBlock_single result flag.Name name _ (pointer_type_ne t).1 (pointer_type_ne t).2
  rcases generateTypeName_cases flag with ⟨_, h⟩ | ⟨_, h⟩ | ⟨_, _, _, h⟩ | ⟨_, _, _, h⟩
  · refine ⟨Or.inl h, Or.inl ⟨h, ?_⟩, pointer_type_ne⟩
    unfold fieldValueOf
    rw [h]
    exact writeBlock_list result flag.Name name
  · refine ⟨Or.inr (Or.inl h), Or.inr (Or.inl ⟨h, ?_⟩), pointer_type_ne⟩
    unfold fieldValueOf
    rw [h]
    exact writeBlock_map result flag.Name name
  · exact ⟨Or.inr (Or.inr ⟨_, h⟩), Or.inr (Or.inr ⟨⟨_, h⟩, hptr _ h⟩), pointer_type_ne⟩
  · exact ⟨Or.inr (Or.inr ⟨_, h⟩), Or.inr (Or.inr ⟨⟨_, h⟩, hptr _ h⟩), pointer_type_ne⟩

end Generate

/-! ## Identifiers: segments, concatenation and collisions -/

namespace Generate

set_option maxRecDepth 100000 in
theorem ToUpperByte_no_hyphen_of_lt : ∀ n : Fin 256, n.val ≠ 0x2D →
    (0x2D : UInt8) ∉ strings.ToUpperByte (UInt8.ofNat n.val) := by
  decide

theorem ToUpperByte_no_hyphen (b : UInt8) (h : b ≠ hyphen) :
    hyphen ∉ strings.ToUpperByte b := by
  have h1 := ToUpperByte_no_hyphen_of_lt ⟨b.toNat, b.val.isLt⟩
  have hb : UInt8.ofNat b.toNat = b := by
    cases b with
    | mk v => simp [UInt8.ofNat, UInt8.toNat]
  simp only [hb] at h1
  apply h1
  intro hn
  apply h
  cases b with
  | mk v =>
    simp only [UInt8.toNat] at hn
    simp only [hyphen]
    apply UInt8.ext
    simpa using hn

theorem Split_ne_nil (v : GoString) (sep : UInt8) : strings.Split v sep ≠ [] := by
  cases v with
  | nil => simp [strings.Split]
  | cons c cs =>
    by_cases hc : c = sep
    · simp [strings.Split, hc]
    · cases hs : strings.Split cs sep <;> simp [strings.Split, hc, hs]

theorem Split_pieces_no_sep (v : GoString) (sep : UInt8) :
    ∀ p ∈ strings.Split v sep, sep ∉ p := by
  induction v with
  | nil =>
    intro p hp
    simp only [strings.Split, List.mem_singleton] at hp
    subst hp
    exact List.not_mem_nil _
  | cons c cs ih =>
    intro p hp
    by_cases hc : c = sep
    · subst hc
      rw [Split_cons_sep] at hp
      rcases List.mem_cons.1 hp with hp | hp
      · subst hp
        exact List.not_mem_nil _
      · exact ih p hp
    · cases hs : strings.Split cs sep with
      | nil => exact absurd hs (Split_ne_nil cs sep)
      | cons piece pieces =>
        rw [hs] at ih
        simp only [strings.Split, hc, if_false, hs] at hp
        rcases List.mem_cons.1 hp with hp | hp
        · subst hp
          intro hmem
          rcases List.mem_cons.1 hmem with h | h
          · exact hc h.symm
          · exact ih piece (List.mem_cons_self _ _) h
        · exact ih p (List.mem_cons_of_mem _ hp)

theorem Contains_eq_false_of_not_mem (p : GoString) (sep : UInt8) (h : sep ∉ p) :
    strings.Contains p sep = false := by
  cases hc : strings.Contains p sep with
  | false => rfl
  | true =>
    exfalso
    apply h
    simpa [strings.Contains] using hc

theorem flatMap_Split_Split (v : GoString) (sep : UInt8) :
    (strings.Split v sep).flatMap (fun p => strings.Split p sep) = strings.Split v sep := by
  have h : ∀ l : List GoString, (∀ p ∈ l, sep ∉ p) →
      l.flatMap (fun p => strings.Split p sep) = l := by
    intro l
    induction l with
    | nil => intro _; rfl
    | cons p ps ih =>
      intro hl
      rw [List.flatMap_cons,
        Split_of_not_Contains p sep
          (Contains_eq_false_of_not_mem p sep (hl p (List.mem_cons_self _ _))),
        ih (fun q hq => hl q (List.mem_cons_of_mem _ hq))]
      rfl
  exact h _ (Split_pieces_no_sep v sep)

theorem two_le_length_Split (v : GoString) (sep : UInt8) (h : strings.Contains v sep = true) :
    2 ≤ (strings.Split v sep).length := by
  induction v with
  | nil => simp [strings.Contains] at h
  | cons c cs ih =>
    by_cases hc : c = sep
    · subst hc
      rw [Split_cons_sep, List.length_cons]
      have := List.length_pos.2 (Split_ne_nil cs c)
      omega
    · have hcs : strings.Contains cs sep = true := by
        simp only [strings.Contains, List.contains_cons, Bool.or_eq_true, beq_iff_eq] at h
        rcases h with h | h
        · exact absurd h.symm hc
        · simpa [strings.Contains] using h
      have hlen := ih hcs
      cases hs : strings.Split cs sep with
      | nil => exact absurd hs (Split_ne_nil cs sep)
      | cons piece pieces =>
        rw [hs] at hlen
        simpa [strings.Split, hc, hs] using hlen

theorem toCamel_some (s : List GoString) (text : GoString) (h : toCamel s = some text) :
    (∀ v ∈ s, v ≠ []) ∧ text = s.flatMap camelSegment := by
  have hne : ∀ v ∈ s, v ≠ [] := by
    intro v hv hnil
    subst hnil
    rw [toCamel_none s hv] at h
    cases h
  rw [toCamel_eq s hne] at h
  exact ⟨hne, (Option.some.inj h).symm⟩

theorem toCamel_append (s t : List GoString) :
    toCamel (s ++ t) = (toCamel s).bind fun x => (toCamel t).map fun y => x ++ y := by
  by_cases hs : [] ∈ s
  · rw [toCamel_none s hs, toCamel_none (s ++ t) (List.mem_append_left _ hs)]
    rfl
  · have hs' : ∀ v ∈ s, v ≠ [] := fun v hv hnil => hs (hnil ▸ hv)
    by_cases ht : [] ∈ t
    · rw [toCamel_none t ht, toCamel_none (s ++ t) (List.mem_append_right _ ht),
        toCamel_eq s hs']
      rfl
    · have ht' : ∀ v ∈ t, v ≠ [] := fun v hv hnil => ht (hnil ▸ hv)
      have hst : ∀ v ∈ s ++ t, v ≠ [] := by
        intro v hv
        rcases List.mem_append.1 hv with h | h
        · exact hs' v h
        · exact ht' v h
      rw [toCamel_eq s hs', toCamel_eq t ht', toCamel_eq (s ++ t) hst, List.flatMap_append]
      rfl

theorem generateCmdName_append (a b : List GoString) :
    generateCmdName (a ++ b)
      = (generateCmdName a).bind fun x => (generateCmdName b).map fun y => x ++ y := by
  simp only [generateCmdName_eq, List.flatMap_append, toCamel_append]

theorem generateCmdName_of_segments (names : List GoString)
    (h : ∀ v ∈ names, [] ∉ strings.Split v hyphen) :
    generateCmdName names
      = some ((names.flatMap fun v => strings.Split v hyphen).flatMap camelSegment) := by
  rw [generateCmdName_eq]
  apply toCamel_eq
  intro v hv hnil
  obtain ⟨name, hmem, hsplit⟩ := List.mem_flatMap.1 hv
  exact h name hmem (hnil ▸ hsplit)

theorem camelSegment_no_hyphen (seg : GoString) (h : hyphen ∉ seg) :
    hyphen ∉ camelSegment seg := by
  cases seg with
  | nil => exact h
  | cons b rest =>
    have hb : b ≠ hyphen := fun hb => h (hb ▸ List.mem_cons_self _ _)
    have hrest : hyphen ∉ rest := fun hr => h (List.mem_cons_of_mem _ hr)
    have hup := ToUpperByte_no_hyphen b hb
    show hyphen ∉ (if (b :: rest).length < 2 then strings.ToUpperByte b else [])
      ++ (strings.ToUpperByte b ++ rest)
    split_ifs <;> simp [hup, hrest]

end Generate

namespace Generate

theorem generateStructDefinition_declares (cmd : Command) (names : List GoString)
    (cmdName : GoString) (fieldNames : List GoString)
    (hname : generateCmdName names = some cmdName)
    (hflags : List.Forall₂ (fun flag name => generateFieldName flag = some name)
      cmd.Flags fieldNames)
    (hne : cmd.Flags ≠ []) :
    ∃ fields rest : GoString,
      generateStructDefinition cmd names
        = some (bytes "type " ++ cmdName ++ bytes "Option struct \x7b\n" ++ fields
          ++ bytes "\x7d\n\n" ++ commentBlock cmd names cmdName
          ++ bytes "func " ++ cmdName ++ bytes "Cmd" ++ bytes "(" ++ rest) := by
  have hfields : ((cmd.Flags.zip fieldNames).flatMap fun p => fieldText p.1 p.2) ≠ [] :=
    fun h => hne ((fields_eq_nil_iff cmd.Flags fieldNames hflags).1 h)
  have htext := generateStructDefinition_eq cmd names cmdName fieldNames hname hflags
  rw [writeHeader_fields cmd names cmdName _ hfields] at htext
  refine ⟨(cmd.Flags.zip fieldNames).flatMap fun p => fieldText p.1 p.2, ?_⟩
  simp only [List.append_assoc] at htext ⊢
  exact ⟨_, htext⟩

theorem flatMap_camelSegment_of_two_le (segs : List GoString)
    (h : ∀ seg ∈ segs, 2 ≤ seg.length) :
    segs.flatMap camelSegment = segs.flatMap capitalise := by
  induction segs with
  | nil => rfl
  | cons seg segs ih =>
    rw [List.flatMap_cons, List.flatMap_cons,
      camelSegment_of_two_le seg (h seg (List.mem_cons_self _ _)),
      ih (fun s hs => h s (List.mem_cons_of_mem _ hs))]

/-- C31: `generateCmdName` distributes over the concatenation of paths. For paths `a` and
`b` whose elements have no empty segment between hyphens, the three identifiers
are derived and that of `a ++ b` is that of `a` followed by that of `b`; in
general the call on `a ++ b` panics exactly when one of the calls on `a` and `b`
does. Hence the base identifier of a child, whose path is the path `a` of its
parent followed by its own name, is the base identifier of the parent followed by
the identifier of the name alone, which is the name with the first letter of each
segment upper-cased when every segment has at least two bytes. -/
theorem generateCmdName_distributes_over_concatenation (a b : List GoString)
    (ha : ∀ v ∈ a, [] ∉ strings.Split v hyphen) (hb : ∀ v ∈ b, [] ∉ strings.Split v hyphen) :
    (∃ x y : GoString, generateCmdName a = some x ∧ generateCmdName b = some y
      ∧ generateCmdName (a ++ b) = some (x ++ y))
    ∧ generateCmdName (a ++ b)
        = ((generateCmdName a).bind fun x => (generateCmdName b).map fun y => x ++ y)
    ∧ (∀ name : GoString, [] ∉ strings.Split name hyphen →
        ∃ x : GoString, generateCmdName a = some x
          ∧ generateCmdName [name] = some ((strings.Split name hyphen).flatMap camelSegment)
          ∧ generateCmdName (a ++ [name])
              = some (x ++ (strings.Split name hyphen).flatMap camelSegment))
    ∧ (∀ name : GoString, (∀ seg ∈ strings.Split name hyphen, 2 ≤ seg.length) →
        (strings.Split name hyphen).flatMap camelSegment
          = (strings.Split name hyphen).flatMap capitalise) := by
  have hxa := generateCmdName_of_segments a ha
  have hyb := generateCmdName_of_segments b hb
  refine ⟨⟨_, _, hxa, hyb, ?_⟩, generateCmdName_append a b, fun name hname => ?_,
    fun name hname => ?_⟩
  · rw [generateCmdName_append, hxa, hyb]
    rfl
  · have hc : generateCmdName [name]
        = some ((strings.Split name hyphen).flatMap camelSegment) := by
      have h := generateCmdName_of_segments [name]
        (fun v hv => by rw [List.mem_singleton.1 hv]; exact hname)
      simpa using h
    refine ⟨_, hxa, hc, ?_⟩
    rw [generateCmdName_append, hxa, hc]
    rfl
  · exact flatMap_camelSegment_of_two_le _ hname

/-- Witness of C31: the path `docker swarm` followed by the path of the one element
`join-token`. -/
theorem generateCmdName_distributes_over_concatenation_witness :
    (∀ v ∈ [bytes "docker", bytes "swarm"], [] ∉ strings.Split v hyphen)
    ∧ (∀ v ∈ [bytes "join-token"], [] ∉ strings.Split v hyphen)
    ∧ generateCmdName [bytes "docker", bytes "swarm"] = some (bytes "DockerSwarm")
    ∧ generateCmdName [bytes "join-token"] = some (bytes "JoinToken")
    ∧ generateCmdName ([bytes "docker", bytes "swarm"] ++ [bytes "join-token"])
        = (some (bytes "DockerSwarm")).bind fun x => (some (bytes "JoinToken")).map fun y => x ++ y :=
  ⟨by decide, by decide, by decide, by decide,
    ((generateCmdName_distributes_over_concatenation [bytes "docker", bytes "swarm"]
      [bytes "join-token"] (by decide) (by decide)).2.1).trans (by decide)⟩

/-- C32: `generateCmdName` is not injective on paths. A path with an element that holds a
hyphen and the path with that element replaced by its parts between the hyphens
are different paths with the same identifier: `docker swarm join-token` and
`docker swarm join token` both give `DockerSwarmJoinToken`, so the texts generated
for a node under the one and a node under the other declare the same type name
and the same function name. -/
theorem generateCmdName_is_not_injective (a b : List GoString) (v : GoString)
    (hv : strings.Contains v hyphen = true) :
    generateCmdName (a ++ [v] ++ b) = generateCmdName (a ++ strings.Split v hyphen ++ b)
    ∧ a ++ [v] ++ b ≠ a ++ strings.Split v hyphen ++ b
    ∧ generateCmdName [bytes "docker", bytes "swarm", bytes "join-token"]
        = some (bytes "DockerSwarmJoinToken")
    ∧ generateCmdName [bytes "docker", bytes "swarm", bytes "join", bytes "token"]
        = some (bytes "DockerSwarmJoinToken")
    ∧ (∃ fields rest : GoString,
        generateStructDefinition swarmJoinTokenNode
            [bytes "docker", bytes "swarm", bytes "join-token"]
          = some (bytes "type " ++ bytes "DockerSwarmJoinToken" ++ bytes "Option struct \x7b\n"
            ++ fields ++ bytes "\x7d\n\n"
            ++ commentBlock swarmJoinTokenNode
                [bytes "docker", bytes "swarm", bytes "join-token"] (bytes "DockerSwarmJoinToken")
            ++ bytes "func " ++ bytes "DockerSwarmJoinToken" ++ bytes "Cmd" ++ bytes "(" ++ rest))
    ∧ (∃ fields rest : GoString,
        generateStructDefinition tokenUnderJoinNode
            [bytes "docker", bytes "swarm", bytes "join", bytes "token"]
          = some (bytes "type " ++ bytes "DockerSwarmJoinToken" ++ bytes "Option struct \x7b\n"
            ++ fields ++ bytes "\x7d\n\n"
            ++ commentBlock tokenUnderJoinNode
                [bytes "docker", bytes "swarm", bytes "join", bytes "token"]
                (bytes "DockerSwarmJoinToken")
            ++ bytes "func " ++ bytes "DockerSwarmJoinToken" ++ bytes "Cmd" ++ bytes "("
            ++ rest)) := by
  refine ⟨?_, ?_, by decide, by decide, ?_, ?_⟩
  · simp only [generateCmdName_eq, List.flatMap_append, List.flatMap_cons, List.flatMap_nil,
      List.append_nil, flatMap_Split_Split]
  · intro h
    have hlen := congrArg List.length h
    have h2 := two_le_length_Split v hyphen hv
    simp only [List.length_append, List.length_cons, List.length_nil] at hlen
    omega
  · exact generateStructDefinition_declares swarmJoinTokenNode _ _
      [bytes "Quiet", bytes "Rotate"] (by decide)
      (List.Forall₂.cons (by decide) (List.Forall₂.cons (by decide) List.Forall₂.nil))
      (by simp [swarmJoinTokenNode, Command.Flags])
  · exact generateStructDefinition_declares tokenUnderJoinNode _ _
      [bytes "Quiet"] (by decide)
      (List.Forall₂.cons (by decide) List.Forall₂.nil)
      (by simp [tokenUnderJoinNode, Command.Flags])

/-- Witness of C32: the element `join-token` after `docker swarm`. -/
theorem generateCmdName_is_not_injective_witness :
    strings.Contains (bytes "join-token") hyphen = true
    ∧ strings.Split (bytes "join-token") hyphen = [bytes "join", bytes "token"]
    ∧ generateCmdName ([bytes "docker", bytes "swarm"] ++ [bytes "join-token"] ++ [])
        = generateCmdName
            ([bytes "docker", bytes "swarm"] ++ strings.Split (bytes "join-token") hyphen ++ [])
    ∧ [bytes "docker", bytes "swarm"] ++ [bytes "join-token"] ++ []
        ≠ [bytes "docker", bytes "swarm"] ++ strings.Split (bytes "join-token") hyphen ++ [] :=
  ⟨by decide, by decide,
    (generateCmdName_is_not_injective [bytes "docker", bytes "swarm"] [] (bytes "join-token")
      (by decide)).1,
    (generateCmdName_is_not_injective [bytes "docker", bytes "swarm"] [] (bytes "join-token")
      (by decide)).2.1⟩

set_option maxRecDepth 100000 in
/-- C36: `generateFieldName` upper-cases the first character of each segment of the long
name between hyphens and leaves every other character as declared. When every
segment has at least two bytes the field name is the segments, each with its first
byte upper-cased, joined without a separator; upper-casing turns an ASCII letter
`a` to `z` into `A` to `Z` and keeps every other ASCII byte. So `no-cache` gives
`NoCache`, `cpu-rt-period` gives `CpuRtPeriod` and `tlscacert` gives `Tlscacert`.
A field name that is derived holds no hyphen. -/
theorem generateFieldName_capitalises_each_segment :
    (∀ flag : Flag, (∀ seg ∈ strings.Split flag.Name hyphen, 2 ≤ seg.length) →
      generateFieldName flag = some ((strings.Split flag.Name hyphen).flatMap capitalise))
    ∧ (∀ (b : UInt8) (rest : GoString), capitalise (b :: rest) = strings.ToUpperByte b ++ rest)
    ∧ (∀ n < 128, strings.ToUpperByte (UInt8.ofNat n)
        = [UInt8.ofNat (if 0x61 ≤ n ∧ n ≤ 0x7A then n - 0x20 else n)])
    ∧ (∀ (flag : Flag) (name : GoString), generateFieldName flag = some name → hyphen ∉ name)
    ∧ generateFieldName
          { Name := bytes "no-cache", Usage := bytes "Do not use cache when building the image",
            ValueType := bytes "bool" } = some (bytes "NoCache")
    ∧ generateFieldName
          { Name := bytes "cpu-rt-period",
            Usage := bytes "Limit the CPU real-time period in microseconds",
            ValueType := bytes "int" } = some (bytes "CpuRtPeriod")
    ∧ generateFieldName
          { Name := bytes "tlscacert", Usage := bytes "Trust certs signed only by this CA",
            ValueType := bytes "string" } = some (bytes "Tlscacert") := by
  refine ⟨fun flag hlen => ?_, fun b rest => rfl, by decide, fun flag name hname => ?_,
    by decide, by decide, by decide⟩
  · rw [generateFieldName_eq, toCamel_eq]
    · rw [flatMap_camelSegment_of_two_le _ hlen]
    · intro v hv hnil
      have := hlen v hv
      rw [hnil] at this
      simp at this
  · rw [generateFieldName_eq] at hname
    obtain ⟨_, htext⟩ := toCamel_some _ _ hname
    rw [htext]
    intro hmem
    obtain ⟨seg, hseg, hin⟩ := List.mem_flatMap.1 hmem
    exact camelSegment_no_hyphen seg (Split_pieces_no_sep flag.Name hyphen seg hseg) hin

/-- Witness of C36: the flag `no-cache`, whose segments `no` and `cache` have two bytes
or more. -/
theorem generateFieldName_capitalises_each_segment_witness :
    (∀ seg ∈ strings.Split (bytes "no-cache") hyphen, 2 ≤ seg.length)
    ∧ generateFieldName
          { Name := bytes "no-cache", Usage := bytes "Do not use cache when building the image",
            ValueType := bytes "bool" }
        = some ((strings.Split (bytes "no-cache") hyphen).flatMap capitalise)
    ∧ (strings.Split (bytes "no-cache") hyphen).flatMap capitalise = bytes "NoCache" :=
  ⟨by decide,
    generateFieldName_capitalises_each_segment.1
      { Name := bytes "no-cache", Usage := bytes "Do not use cache when building the image",
        ValueType := bytes "bool" } (by decide),
    by decide⟩

end Generate
